import Mathlib

/-!
Alley Bloom: placement state and scenarios

A shallow embedding of the client-side placement state manager of `static/js/main.js`:
the module-level variables of `main.js` become the fields of `State`, every function and
socket handler that touches `placedItems` becomes a function `State → … → State`, and
`socket.emit` appends to the log `State.emitted`. The scenario functions of
`static/js/scenarios-enhanced.js` and `static/js/scenarios.js`, with the data of
`static/js/alleys-data.js`, follow in their own sections.

Modelling conventions
* Canvas coordinates and sizes (`x`, `y`, `width`, `height`, pointer positions) are
  integers (CSS pixels); only subtraction, addition and `Math.max` are applied to them.
* A JavaScript object is an `Obj`: `ref` is its identity, `val` its current fields.
  `placedItems` and `selectedItem` hold objects; an assignment through one alias
  (`selectedItem.x = …`) is applied to every holder of the same identity (`mutate`).
  Objects that arrive over the socket or are built by `addItem` get a fresh identity.
* `socket.emit(name, payload)` records the payload as serialised at the call.
* The page is the design workspace: `canvas` and `itemsContainer` exist. An element of
  `itemsContainer` is the object that its listeners capture (`State.elements`, in document
  order), and the context menu is the object that its handlers are bound to
  (`State.menuItem`); styles and notifications are not part of the state.
* `itemConfigs[type][subtype]` is a property read along the prototype chain: the own keys
  of `itemConfigs` first, then the members of `Object.prototype`. What a read on one of
  those built-in members gives is the environment `State.builtins`.
* An exception ends the running function: `newItem` and `renderItem` return `none` where
  the code throws a `TypeError`, and their callers stop there.
* `zIndex` is a binary64 number: an integer, rounded to the nearest representable value
  after `+ 1` and `- 1` (`toDouble`), or `-Infinity`.
* In an undo history, the JSON value `null` is `none` of an `Option` state.
-/

namespace AlleyBloom

/-! ## Data model -/

/-- The value of a `zIndex`: an integer, or the `-Infinity` that `Math.max()` gives for no
argument, which the bring-forward handler can write. -/
inductive ZIndex where
  | negInfinity
  | int (n : Int)
deriving DecidableEq, Repr

/-- A numeral is an integer z-index. -/
instance (n : Nat) : OfNat ZIndex n := ⟨.int n⟩

/-- A placed item, with the fields `addItem` writes and the optional ones written later. -/
structure Item where
  id : String
  type_ : String
  subtype : String
  x : Int
  y : Int
  width : Int
  height : Int
  zIndex : ZIndex
  customImage : Option String
  rotation : Option Int := none
  blendMode : Option String := none
  opacity : Option Int := none
deriving DecidableEq, Repr

/-- A JavaScript object holding an item: identity plus current field values. -/
structure Obj where
  ref : Nat
  val : Item
deriving DecidableEq, Repr

/-- Outbound socket events, with their payloads (`alley_id` may be `null`). -/
inductive OutEvent where
  | join_alley (alley_id : Option String)
  | add_item (alley_id : Option String) (item : Item)
  | update_item (alley_id : Option String) (item : Item)
  | remove_item (alley_id : Option String) (item_id : String)
  | clear_design (alley_id : Option String)
deriving DecidableEq, Repr

/-- Inbound socket events, with their payloads; `load_design` may carry no `items`. -/
inductive InEvent where
  | load_design (items : Option (List Item))
  | item_added (item : Item)
  | item_updated (item : Item)
  | item_removed (item_id : String)
  | design_cleared
  | user_joined
  | user_left
deriving DecidableEq, Repr

/-- Listeners that `startDrag` / `startResize` register on `document` for `mousemove`. -/
inductive MoveListener where
  | drag
  | resize
deriving DecidableEq, Repr

/-- Listeners that `startDrag` / `startResize` register on `document` for `mouseup`. -/
inductive UpListener where
  | stopDrag
  | stopResize
deriving DecidableEq, Repr

/-- The two coordinates of `dragOffset`. -/
structure Offset where
  x : Int
  y : Int
deriving DecidableEq, Repr

/-- What reading `itemConfigs[type][subtype]` finds when `type` is not a key of
`itemConfigs` but the name of a member inherited from `Object.prototype`: the property
`subtype` of that built-in function or object. It is a falsy value (`undefined`, `0`,
`null`, the empty string), a truthy value, or the read throws a `TypeError` (the restricted
properties `caller` and `arguments` of a built-in function). -/
inductive BuiltinRead where
  | falsy
  | truthy
  | throws
deriving DecidableEq, Repr

/-- Module-level state of `main.js` (lines 5-15), the outbound event log, and what the page
around the script holds. `builtins type subtype` is the read of `subtype` on the member
`type` of `Object.prototype` in the engine that runs the script; it never changes.
`elements` lists, in document order, the `item` objects that the listeners of the
placed-item elements of `itemsContainer` close over (`renderItem`). `menuItem` is the
object that the handlers of the context menu close over (`showContextMenu`), `none` as
long as the menu has not been opened. -/
structure State where
  alleyId : Option String
  builtins : String → String → BuiltinRead
  placedItems : List Obj
  selectedItem : Option Obj
  isDragging : Bool
  isResizing : Bool
  dragOffset : Offset
  moveListeners : List MoveListener
  upListeners : List UpListener
  elements : List Obj
  menuItem : Option Obj
  nextRef : Nat
  emitted : List OutEvent

/-- State right after the script has loaded: `placedItems = []`, nothing selected, no
element rendered. -/
def State.init (alleyId : Option String) (builtins : String → String → BuiltinRead) :
    State :=
  { alleyId := alleyId, builtins := builtins, placedItems := [], selectedItem := none,
    isDragging := false, isResizing := false, dragOffset := ⟨0, 0⟩,
    moveListeners := [], upListeners := [], elements := [], menuItem := none,
    nextRef := 0, emitted := [] }

/-- The local item list as values: what `placedItems` holds, in order. -/
def State.items (s : State) : List Item := s.placedItems.map Obj.val

/-- Effect of `socket.emit`. -/
def State.emit (s : State) (e : OutEvent) : State :=
  { s with emitted := s.emitted ++ [e] }

/-- JavaScript truthiness of `alleyId` (a string, or null/undefined). -/
def truthy (a : Option String) : Bool :=
  match a with
  | some v => v != ""
  | none => false

/-- Field assignment through a reference: only the object with identity `r` changes. -/
def Obj.assign (r : Nat) (f : Item → Item) (o : Obj) : Obj :=
  if o.ref = r then { o with val := f o.val } else o

/-- Assignment to fields of the object `r`, seen by every variable and every closure that
holds it. -/
def mutate (s : State) (r : Nat) (f : Item → Item) : State :=
  { s with placedItems := s.placedItems.map (Obj.assign r f),
           selectedItem := s.selectedItem.map (Obj.assign r f),
           elements := s.elements.map (Obj.assign r f),
           menuItem := s.menuItem.map (Obj.assign r f) }

/-- Fresh objects for the items of a deserialised array, numbered from `next`. -/
def allocAll (next : Nat) : List Item → List Obj
  | [] => []
  | it :: rest => ⟨next, it⟩ :: allocAll (next + 1) rest

/-! ## Item type configurations (`itemConfigs`, lines 90-113) -/

/-- The `size` entry of an item configuration. -/
structure Size where
  w : Int
  h : Int
deriving DecidableEq, Repr

/-- The `size` column of `itemConfigs`. -/
def itemConfigs : List (String × List (String × Size)) :=
  [ ("art",
      [ ("mural-1", ⟨400, 300⟩), ("mural-2", ⟨400, 300⟩), ("mural-3", ⟨400, 300⟩),
        ("mural-4", ⟨400, 300⟩), ("mural-5", ⟨400, 300⟩), ("mural-6", ⟨400, 300⟩),
        ("sculpture", ⟨100, 150⟩), ("graffiti", ⟨120, 180⟩) ]),
    ("plant",
      [ ("tree", ⟨120, 180⟩), ("flowers", ⟨80, 100⟩), ("vertical-garden", ⟨100, 200⟩),
        ("shrubs", ⟨90, 90⟩), ("vines", ⟨80, 150⟩) ]),
    ("furniture",
      [ ("bench", ⟨120, 80⟩), ("lights", ⟨200, 50⟩), ("bike-rack", ⟨100, 80⟩) ]) ]

/-- The property names that every object inherits from `Object.prototype` (ECMAScript,
with its Annex B). -/
def objectPrototypeMembers : List String :=
  [ "constructor", "hasOwnProperty", "isPrototypeOf", "propertyIsEnumerable",
    "toLocaleString", "toString", "valueOf", "__proto__", "__defineGetter__",
    "__defineSetter__", "__lookupGetter__", "__lookupSetter__" ]

/-- The outcome of `itemConfigs[type] && itemConfigs[type][subtype]`: an entry of
`itemConfigs`; a falsy value (`absent`); a truthy value inherited from a built-in
prototype, which is a function or `Object.prototype` and has no `size` (`inherited`); or a
`TypeError` thrown by the read (`throws`). -/
inductive ConfigLookup where
  | config (size : Size)
  | absent
  | inherited
  | throws
deriving DecidableEq, Repr

/-- The test `itemConfigs[type] && itemConfigs[type][subtype]` and its value. Property
reads follow the prototype chain: on `itemConfigs` and on its three entries they find, after
the own keys, the members of `Object.prototype`, all of them truthy. -/
def lookupConfig (builtins : String → String → BuiltinRead) (type_ subtype : String) :
    ConfigLookup :=
  match itemConfigs.lookup type_ with
  | some subs =>
    match subs.lookup subtype with
    | some size => .config size
    | none => if subtype ∈ objectPrototypeMembers then .inherited else .absent
  | none =>
    if type_ ∈ objectPrototypeMembers then
      match builtins type_ subtype with
      | .falsy => .absent
      | .truthy => .inherited
      | .throws => .throws
    else .absent

/-- JavaScript `v || d` for an optional number: `undefined` and `0` fall through to `d`. -/
def orNum (v : Option Int) (d : Int) : Int :=
  match v with
  | some n => if n = 0 then d else n
  | none => d

/-- JavaScript `customImage || null`: `undefined` and the empty string give `null`. -/
def orNull (v : Option String) : Option String :=
  match v with
  | some str => if str = "" then none else some str
  | none => none

/-- The id template of `addItem`: item-, `Date.now()`, a dash, the random suffix. -/
def genId (now : Nat) (rnd : String) : String :=
  "item-" ++ toString now ++ "-" ++ rnd

/-- The object literal of `addItem` (lines 265-275) once its width and height are known. -/
def itemLiteral (type_ subtype : String) (x y width height : Int)
    (customImage : Option String) (id : String) (len : Nat) : Item :=
  { id := id, type_ := type_, subtype := subtype, x := x, y := y,
    width := width, height := height,
    zIndex := .int len, customImage := orNull customImage }

/-- The first two statements of `addItem` (lines 264-275): the configuration lookup and the
object literal, given the generated id and the current length of `placedItems`. `none`
when a `TypeError` is thrown: by the lookup, or by `config.size.w` / `config.size.h` when
`config` is an inherited built-in value, which `width || …` reads only for a falsy
`width` (and likewise for `height`). -/
def newItem (builtins : String → String → BuiltinRead) (type_ subtype : String) (x y : Int)
    (width height : Option Int) (customImage : Option String) (id : String) (len : Nat) :
    Option Item :=
  match lookupConfig builtins type_ subtype with
  | .config size =>
    some (itemLiteral type_ subtype x y (orNum width size.w) (orNum height size.h)
      customImage id len)
  | .absent =>
    some (itemLiteral type_ subtype x y (orNum width (orNum width 200))
      (orNum height (orNum height 200)) customImage id len)
  | .inherited =>
    if orNum width 0 = 0 ∨ orNum height 0 = 0 then none
    else some (itemLiteral type_ subtype x y (orNum width 0) (orNum height 0)
      customImage id len)
  | .throws => none

/-- Function `renderItem` (lines 288-371), as far as the state goes: a new element whose
listeners close over `item` is appended to `itemsContainer`. `none` when the configuration
lookup of its first line throws, before the element is created. -/
def renderItem (s : State) (item : Obj) : Option State :=
  match lookupConfig s.builtins item.val.type_ item.val.subtype with
  | .throws => none
  | _ => some { s with elements := s.elements ++ [item] }

/-- The loop `placedItems.forEach(item => renderItem(item))`, which a throwing `renderItem`
leaves. -/
def renderEach (s : State) : List Obj → State
  | [] => s
  | item :: rest =>
    match renderItem s item with
    | some s1 => renderEach s1 rest
    | none => s

/-- Function `renderAllItems` (lines 374-377). -/
def renderAllItems (s : State) : State :=
  renderEach { s with elements := [] } s.placedItems

/-- Effect of `document.getElementById` on the id of an item followed by `remove()`: the
first element rendered for an item with that id leaves the document. -/
def removeElement (elements : List Obj) (itemId : String) : List Obj :=
  elements.eraseP (fun o => o.val.id == itemId)

/-! ## Socket handlers (lines 116-165) -/

/-- Handler of `connect`. -/
def on_connect (s : State) : State :=
  s.emit (.join_alley s.alleyId)

/-- Handler of `load_design`: `placedItems = data.items || []`, then `renderAllItems()`. -/
def on_load_design (s : State) (items : Option (List Item)) : State :=
  match items with
  | some l =>
    renderAllItems
      { s with placedItems := allocAll s.nextRef l, nextRef := s.nextRef + l.length }
  | none => renderAllItems { s with placedItems := [] }

/-- Handler of `item_added`: `placedItems.push(data.item)`, then `renderItem(data.item)`;
an exception of `renderItem` ends the handler after the push. -/
def on_item_added (s : State) (item : Item) : State :=
  let s1 : State :=
    { s with placedItems := s.placedItems ++ [⟨s.nextRef, item⟩], nextRef := s.nextRef + 1 }
  (renderItem s1 ⟨s.nextRef, item⟩).getD s1

/-- Handler of `item_updated`: `findIndex` by id, then `placedItems[index] = data.item`
when the index is not -1. `updateItemElement` restyles the element; its listeners keep the
object they were created with. -/
def on_item_updated (s : State) (item : Item) : State :=
  match s.placedItems.findIdx? (fun o => o.val.id == item.id) with
  | some index =>
    { s with placedItems := s.placedItems.set index ⟨s.nextRef, item⟩,
             nextRef := s.nextRef + 1 }
  | none => s

/-- Handler of `item_removed`: `placedItems.filter(item => item.id !== data.item_id)`, and
the element of that id is removed. -/
def on_item_removed (s : State) (item_id : String) : State :=
  { s with placedItems := s.placedItems.filter (fun o => o.val.id != item_id),
           elements := removeElement s.elements item_id }

/-- Handler of `design_cleared`: `placedItems = []` and `itemsContainer.innerHTML = ''`. -/
def on_design_cleared (s : State) : State :=
  { s with placedItems := [], elements := [] }

/-- Dispatch of an inbound event to its handler. -/
def handle (s : State) : InEvent → State
  | .load_design items => on_load_design s items
  | .item_added item => on_item_added s item
  | .item_updated item => on_item_updated s item
  | .item_removed item_id => on_item_removed s item_id
  | .design_cleared => on_design_cleared s
  | .user_joined => s
  | .user_left => s

/-- Delivery of an inbound event: the handlers are registered only `if (alleyId)`. -/
def receive (s : State) (ev : InEvent) : State :=
  if truthy s.alleyId then handle s ev else s

/-! ## Local operations -/

/-- Function `addItem` (lines 263-285); `now` and `rnd` are the values of `Date.now()`
and of the random suffix. A `TypeError` thrown while the configuration is looked up or the
item literal is built ends the call before `push`, `renderItem` and `emit`: the state is
as it was. -/
def addItem (s : State) (type_ subtype : String) (x y : Int) (width height : Option Int)
    (customImage : Option String) (now : Nat) (rnd : String) : State :=
  match newItem s.builtins type_ subtype x y width height customImage (genId now rnd)
      s.placedItems.length with
  | some item =>
    let s1 : State := { s with placedItems := s.placedItems ++ [⟨s.nextRef, item⟩],
                               nextRef := s.nextRef + 1 }
    match renderItem s1 ⟨s.nextRef, item⟩ with
    | some s2 => s2.emit (.add_item s.alleyId item)
    | none => s1
  | none => s

/-- Function `deleteItem` (lines 640-662). -/
def deleteItem (s : State) (itemId : String) : State :=
  let s1 : State :=
    { s with placedItems := s.placedItems.filter (fun o => o.val.id != itemId),
             elements := removeElement s.elements itemId }
  let s2 : State :=
    match s1.selectedItem with
    | some sel => if sel.val.id = itemId then { s1 with selectedItem := none } else s1
    | none => s1
  s2.emit (.remove_item s.alleyId itemId)

/-- Click handler of `clearBtn` (lines 667-674) and of `resetBtn` (lines 838-847);
`confirmed` is the answer of `confirm(…)`. -/
def clearClick (s : State) (confirmed : Bool) : State :=
  if confirmed then
    ({ s with placedItems := [], elements := [] }).emit (.clear_design s.alleyId)
  else s

/-- Handler of `keydown` (lines 738-743); `key` is `e.key`. -/
def keydown (s : State) (key : String) : State :=
  match s.selectedItem with
  | some sel =>
    if key = "Delete" then { deleteItem s sel.val.id with selectedItem := none } else s
  | none => s

/-! ## Drag and resize (lines 390-511) -/

/-- Pointer coordinates of a mouse event. -/
structure MouseEvent where
  clientX : Int
  clientY : Int
deriving DecidableEq, Repr

/-- Left and top of a `getBoundingClientRect()`. -/
structure Rect where
  left : Int
  top : Int
deriving DecidableEq, Repr

/-- Layout of the canvas when an event fires: bounding rectangle and scroll offsets. -/
structure Canvas where
  rect : Rect
  scrollLeft : Int
  scrollTop : Int
deriving DecidableEq, Repr

/-- Which part of a placed item's element is `e.target` of a `mousedown`. -/
inductive Target where
  | body
  | resizeHandle
  | rotateHandle
deriving DecidableEq, Repr

/-- Effect of `document.addEventListener`: a listener already present is not added again. -/
def addListener {α : Type} [DecidableEq α] (l : List α) (a : α) : List α :=
  if a ∈ l then l else l ++ [a]

/-- Function `startDrag` (lines 391-413). `itemId` is the element id of `e.currentTarget`
with its leading item- removed, `rect` the element's bounding rectangle. -/
def startDrag (s : State) (e : MouseEvent) (target : Target) (itemId : String)
    (rect : Rect) : State :=
  match target with
  | .resizeHandle => s
  | .rotateHandle => s
  | .body =>
    let sel := s.placedItems.find? (fun o => o.val.id == itemId)
    let s1 : State := { s with isDragging := true, selectedItem := sel }
    match sel with
    | some _ =>
      { s1 with dragOffset := Offset.mk (e.clientX - rect.left) (e.clientY - rect.top),
                moveListeners := addListener s1.moveListeners .drag,
                upListeners := addListener s1.upListeners .stopDrag }
    | none => s1

/-- Function `drag` (lines 415-426). -/
def drag (s : State) (e : MouseEvent) (canvas : Canvas) : State :=
  match s.isDragging, s.selectedItem with
  | true, some sel =>
    let x := e.clientX - canvas.rect.left - s.dragOffset.x + canvas.scrollLeft
    let y := e.clientY - canvas.rect.top - s.dragOffset.y + canvas.scrollTop
    mutate s sel.ref (fun it => { it with x := max 0 x, y := max 0 y })
  | _, _ => s

/-- Function `stopDrag` (lines 428-447). -/
def stopDrag (s : State) : State :=
  let s1 : State :=
    match s.isDragging, s.selectedItem with
    | true, some sel => ({ s with isDragging := false }).emit (.update_item s.alleyId sel.val)
    | _, _ => s
  { s1 with moveListeners := s1.moveListeners.erase .drag,
            upListeners := s1.upListeners.erase .stopDrag }

/-- Function `startResize` (lines 450-468); `itemId` as in `startDrag`, for the element
found by `closest('.placed-item')`. -/
def startResize (s : State) (itemId : String) : State :=
  { s with isResizing := true,
           selectedItem := s.placedItems.find? (fun o => o.val.id == itemId),
           moveListeners := addListener s.moveListeners .resize,
           upListeners := addListener s.upListeners .stopResize }

/-- Function `resize` (lines 470-489). -/
def resize (s : State) (e : MouseEvent) (canvas : Canvas) : State :=
  match s.isResizing, s.selectedItem with
  | true, some sel =>
    let mouseX := e.clientX - canvas.rect.left + canvas.scrollLeft
    let mouseY := e.clientY - canvas.rect.top + canvas.scrollTop
    let newWidth := mouseX - sel.val.x
    let newHeight := mouseY - sel.val.y
    mutate s sel.ref (fun it => { it with width := max 50 newWidth, height := max 50 newHeight })
  | _, _ => s

/-- Function `stopResize` (lines 491-511). -/
def stopResize (s : State) : State :=
  let s1 : State :=
    match s.isResizing, s.selectedItem with
    | true, some sel => ({ s with isResizing := false }).emit (.update_item s.alleyId sel.val)
    | _, _ => s
  { s1 with moveListeners := s1.moveListeners.erase .resize,
            upListeners := s1.upListeners.erase .stopResize }

/-- A `mousemove` on `document`: the registered listeners run in registration order. -/
def mousemove (s : State) (e : MouseEvent) (canvas : Canvas) : State :=
  s.moveListeners.foldl
    (fun acc l => match l with
      | .drag => drag acc e canvas
      | .resize => resize acc e canvas) s

/-- A `mouseup` on `document`: the registered listeners run in registration order. -/
def mouseup (s : State) : State :=
  s.upListeners.foldl
    (fun acc l => match l with
      | .stopDrag => stopDrag acc
      | .stopResize => stopResize acc) s

/-- A `mousedown` on a placed item's element: on a resize handle `startResize` runs and
stops propagation, elsewhere the event reaches the element's `startDrag`. -/
def mousedown (s : State) (e : MouseEvent) (target : Target) (itemId : String)
    (rect : Rect) : State :=
  match target with
  | .resizeHandle => startResize s itemId
  | _ => startDrag s e target itemId rect

/-! ## Numbers of the z-order

A `zIndex` is a JavaScript number, a binary64 value. It can arrive over the socket with any
integer value that binary64 holds, so `zIndex + 1` and `zIndex - 1` are rounded as binary64
rounds them. -/

/-- The number of binary digits of `a`, counted in at most `fuel` halvings. -/
def bitLength : Nat → Nat → Nat
  | 0, _ => 0
  | fuel + 1, a => if a = 0 then 0 else bitLength fuel (a / 2) + 1

/-- The binary64 value nearest to the integer `n`, ties going to the even significand. An
integer below 2^53 in magnitude is its own value; a larger one keeps its 53 leading binary
digits. Magnitudes from 2^1024 on, which binary64 turns into an infinity, are outside the
model. -/
def toDouble (n : Int) : Int :=
  if n.natAbs < 2 ^ 53 then n
  else
    let shift := bitLength 1100 n.natAbs - 53
    let q := n.natAbs / 2 ^ shift
    let r := n.natAbs % 2 ^ shift
    let half := 2 ^ (shift - 1)
    let q1 := if half < r ∨ (r = half ∧ q % 2 = 1) then q + 1 else q
    Int.sign n * ((q1 * 2 ^ shift : Nat) : Int)

/-- JavaScript `z + 1` on a z-index. -/
def ZIndex.plusOne : ZIndex → ZIndex
  | .negInfinity => .negInfinity
  | .int n => .int (toDouble (n + 1))

/-- JavaScript `z - 1` on a z-index. -/
def ZIndex.minusOne : ZIndex → ZIndex
  | .negInfinity => .negInfinity
  | .int n => .int (toDouble (n - 1))

/-- JavaScript `Math.max(a, b)` on z-indices. -/
def mathMax : ZIndex → ZIndex → ZIndex
  | .negInfinity, b => b
  | .int a, .negInfinity => .int a
  | .int a, .int b => .int (max a b)

/-- JavaScript `Math.max(...values)`: `-Infinity` for no argument. -/
def maxOf : List ZIndex → ZIndex
  | [] => .negInfinity
  | a :: rest => mathMax a (maxOf rest)

/-- The order of z-indices as numbers: `-Infinity` lies below every integer. -/
def ZIndex.lt : ZIndex → ZIndex → Prop
  | .negInfinity, .negInfinity => False
  | .negInfinity, .int _ => True
  | .int _, .negInfinity => False
  | .int a, .int b => a < b

/-- The order of z-indices as numbers. -/
def ZIndex.le : ZIndex → ZIndex → Prop
  | .negInfinity, _ => True
  | .int _, .negInfinity => False
  | .int a, .int b => a ≤ b

instance : LT ZIndex := ⟨ZIndex.lt⟩

instance : LE ZIndex := ⟨ZIndex.le⟩

instance (a b : ZIndex) : Decidable (a < b) :=
  match a, b with
  | .negInfinity, .negInfinity => isFalse (fun h => h)
  | .negInfinity, .int _ => isTrue trivial
  | .int _, .negInfinity => isFalse (fun h => h)
  | .int a, .int b => (inferInstance : Decidable (a < b))

instance (a b : ZIndex) : Decidable (a ≤ b) :=
  match a, b with
  | .negInfinity, _ => isTrue trivial
  | .int _, .negInfinity => isFalse (fun h => h)
  | .int a, .int b => (inferInstance : Decidable (a ≤ b))

/-! ## Selection and context menu (lines 57-88 and 354-371, 513-637)

The click and contextmenu listeners of a placed item's element, and the handlers that
`showContextMenu` binds to the menu, close over the `item` object the element was rendered
for. That object is the parameter `item`, given with its current fields; in a trace it is
the entry of `State.elements` or `State.menuItem`. The handlers of the menu stay bound
after the menu is hidden. -/

/-- Function `selectItem` (lines 57-70): the selection changes when
`document.getElementById` finds an element for the id of `item`. -/
def selectItem (s : State) (item : Obj) : State :=
  if s.elements.any (fun o => o.val.id == item.val.id) then
    { s with selectedItem := some item }
  else s

/-- The click listener of the element at position `k` of `itemsContainer` (lines 354-358).
The click then reaches the listener of `document`, which leaves the selection alone for a
target inside an item. -/
def click (s : State) (k : Nat) : State :=
  match s.elements[k]? with
  | some item => if !s.isDragging && !s.isResizing then selectItem s item else s
  | none => s

/-- The click listener of `document` (lines 624-637) for a click whose target is `canvas`
or `itemsContainer`: `selectedItem = null`. -/
def clickCanvas (s : State) : State :=
  { s with selectedItem := none }

/-- Function `showContextMenu` (lines 513-572): the handlers of the menu are bound to
`item`. -/
def showContextMenu (s : State) (item : Obj) : State :=
  { s with menuItem := some item }

/-- The contextmenu listener of the element at position `k` of `itemsContainer`
(lines 366-369). -/
def contextmenu (s : State) (k : Nat) : State :=
  match s.elements[k]? with
  | some item => showContextMenu s item
  | none => s

/-- The `bringForward` click handler (lines 527-532), bound to `item`. -/
def bringForward (s : State) (item : Obj) : State :=
  let zIndex := (maxOf (s.placedItems.map (fun i => i.val.zIndex))).plusOne
  (mutate s item.ref (fun it => { it with zIndex := zIndex })).emit
    (.update_item s.alleyId { item.val with zIndex := zIndex })

/-- The `sendBackward` click handler (lines 535-540), bound to `item`. -/
def sendBackward (s : State) (item : Obj) : State :=
  let zIndex := mathMax 0 item.val.zIndex.minusOne
  (mutate s item.ref (fun it => { it with zIndex := zIndex })).emit
    (.update_item s.alleyId { item.val with zIndex := zIndex })

/-- Function `setBlendMode` (lines 575-598). -/
def setBlendMode (s : State) (item : Obj) (mode : String) : State :=
  (mutate s item.ref (fun it => { it with blendMode := some mode })).emit
    (.update_item s.alleyId { item.val with blendMode := some mode })

/-- Function `setItemOpacity` (lines 606-621); `opacity` is the slider value. -/
def setItemOpacity (s : State) (item : Obj) (opacity : Int) : State :=
  (mutate s item.ref (fun it => { it with opacity := some opacity })).emit
    (.update_item s.alleyId { item.val with opacity := some opacity })

/-- Function `applyBlendModeToSelected` (lines 73-87); `ids` are the item ids read from the
elements that carry the class `selected`, in document order. -/
def applyBlendModeToSelected (s : State) (ids : List String) (mode : String) : State :=
  ids.foldl
    (fun acc itemId =>
      match acc.placedItems.find? (fun i => i.val.id == itemId) with
      | some item => setBlendMode acc item mode
      | none => acc) s

/-- A handler of the context menu, run on the object the menu is bound to; nothing happens
before the menu was first opened. -/
def onMenuItem (s : State) (handler : State → Obj → State) : State :=
  match s.menuItem with
  | some item => handler s item
  | none => s

/-! ## Gestures -/

/-- A run of `mousemove` events, each with the canvas layout at that moment. -/
def moves (s : State) (ms : List (MouseEvent × Canvas)) : State :=
  ms.foldl (fun acc m => mousemove acc m.1 m.2) s

/-- The fields `drag` assigns for a pointer at `m`, with drag offset `off`. -/
def dragTo (off : Offset) (m : MouseEvent × Canvas) (it : Item) : Item :=
  { it with
    x := max 0 (m.1.clientX - m.2.rect.left - off.x + m.2.scrollLeft),
    y := max 0 (m.1.clientY - m.2.rect.top - off.y + m.2.scrollTop) }

/-- The fields `resize` assigns for a pointer at `m`. -/
def resizeTo (m : MouseEvent × Canvas) (it : Item) : Item :=
  { it with
    width := max 50 (m.1.clientX - m.2.rect.left + m.2.scrollLeft - it.x),
    height := max 50 (m.1.clientY - m.2.rect.top + m.2.scrollTop - it.y) }

/-- The item as the last of the moves `ms` leaves it under `f`, or unchanged when there
is no move. -/
def afterLast (f : MouseEvent × Canvas → Item → Item) (ms : List (MouseEvent × Canvas))
    (it : Item) : Item :=
  match ms.getLast? with
  | some m => f m it
  | none => it

/-! ## Operation sequences -/

/-- The handlers of the context menu that update the item the menu is bound to. -/
inductive MenuAction where
  | bringForward
  | sendBackward
  | setBlendMode (mode : String)
  | setItemOpacity (opacity : Int)
deriving DecidableEq, Repr

/-- The handler of a menu action. -/
def menuHandler : MenuAction → State → Obj → State
  | .bringForward => bringForward
  | .sendBackward => sendBackward
  | .setBlendMode mode => fun s item => setBlendMode s item mode
  | .setItemOpacity opacity => fun s item => setItemOpacity s item opacity

/-- The add, update and remove operations on the placement state. Adds are the local
`addItem` and the handler of `item_added`; removes are the local `deleteItem` and the
handler of `item_removed`; updates are the handler of `item_updated` and the local ones: a
drag gesture and a resize gesture (pointer-down on the element of the item with id
`itemId`, the moves `ms`, pointer-up), a right-click on the element at position `k`
followed by an action of the context menu, and a choice of the blend panel while the
elements of the items `ids` are selected. -/
inductive Op where
  | addItem (type_ subtype : String) (x y : Int) (width height : Option Int)
      (customImage : Option String) (now : Nat) (rnd : String)
  | item_added (item : Item)
  | item_updated (item : Item)
  | item_removed (item_id : String)
  | deleteItem (itemId : String)
  | dragItem (itemId : String) (down : MouseEvent) (rect : Rect)
      (ms : List (MouseEvent × Canvas))
  | resizeItem (itemId : String) (down : MouseEvent) (rect : Rect)
      (ms : List (MouseEvent × Canvas))
  | menu (k : Nat) (action : MenuAction)
  | applyBlendModeToSelected (ids : List String) (mode : String)
deriving DecidableEq, Repr

/-- One operation, as the code runs it. -/
def applyOp (s : State) : Op → State
  | .addItem type_ subtype x y width height customImage now rnd =>
    addItem s type_ subtype x y width height customImage now rnd
  | .item_added item => on_item_added s item
  | .item_updated item => on_item_updated s item
  | .item_removed item_id => on_item_removed s item_id
  | .deleteItem itemId => deleteItem s itemId
  | .dragItem itemId down rect ms => mouseup (moves (mousedown s down .body itemId rect) ms)
  | .resizeItem itemId down rect ms =>
    mouseup (moves (mousedown s down .resizeHandle itemId rect) ms)
  | .menu k action =>
    match s.elements[k]? with
    | some item => menuHandler action (showContextMenu s item) item
    | none => s
  | .applyBlendModeToSelected ids mode => applyBlendModeToSelected s ids mode

/-- A sequence of operations, as the code runs it. -/
def runOps (s : State) (ops : List Op) : State := ops.foldl applyOp s

namespace Reference

/-- An operation of the reference semantics. -/
inductive Operation where
  | add (item : Item)
  | update (item : Item)
  | remove (id : String)
deriving DecidableEq, Repr

/-- Reference semantics of add, in the words of the specification: append the new item. -/
def add (l : List Item) (item : Item) : List Item := l ++ [item]

/-- Reference semantics of update, in the words of the specification: replace the item
with the same id in place, by the given item in full. -/
def update : List Item → Item → List Item
  | [], _ => []
  | it :: rest, u => if it.id = u.id then u :: rest else it :: update rest u

/-- Reference semantics of remove, in the words of the specification: drop the items
with that id. -/
def remove (l : List Item) (id : String) : List Item := l.filter (fun it => it.id ≠ id)

/-- One operation under the reference semantics. -/
def apply (l : List Item) : Operation → List Item
  | .add item => add l item
  | .update item => update l item
  | .remove id => remove l id

/-- Replay of an operation sequence on a plain list of items. -/
def replay (l : List Item) (ops : List Operation) : List Item := ops.foldl apply l

end Reference

/-- The item that a menu action broadcasts for an item `it`, in the state `s`. -/
def menuResult (s : State) (it : Item) : MenuAction → Item
  | .bringForward =>
    { it with zIndex := (maxOf (s.placedItems.map (fun i => i.val.zIndex))).plusOne }
  | .sendBackward => { it with zIndex := mathMax 0 it.zIndex.minusOne }
  | .setBlendMode mode => { it with blendMode := some mode }
  | .setItemOpacity opacity => { it with opacity := some opacity }

/-- The updates that `applyBlendModeToSelected` broadcasts from the state `s`: one for
each of the ids that the list holds, in order. -/
def blendOperations (mode : String) (s : State) : List String → List Reference.Operation
  | [] => []
  | itemId :: rest =>
    match s.placedItems.find? (fun i => i.val.id == itemId) with
    | some item =>
      .update { item.val with blendMode := some mode } ::
        blendOperations mode (setBlendMode s item mode) rest
    | none => blendOperations mode s rest

/-- The reference operations that an operation of the code is in the state `s` it runs in:
the add, update or remove that it receives or broadcasts. There is none when `addItem`
throws, when a gesture starts on an element whose item the list does not hold, when there
is no element at position `k`, and for a selected id that the list does not hold. -/
def Op.operations (s : State) : Op → List Reference.Operation
  | .addItem type_ subtype x y width height customImage now rnd =>
    ((newItem s.builtins type_ subtype x y width height customImage (genId now rnd)
      s.placedItems.length).map .add).toList
  | .item_added item => [.add item]
  | .item_updated item => [.update item]
  | .item_removed item_id => [.remove item_id]
  | .deleteItem itemId => [.remove itemId]
  | .dragItem itemId down rect ms =>
    ((s.placedItems.find? (fun o => o.val.id == itemId)).map (fun o =>
      .update (afterLast (dragTo ⟨down.clientX - rect.left, down.clientY - rect.top⟩) ms
        o.val))).toList
  | .resizeItem itemId _ _ ms =>
    ((s.placedItems.find? (fun o => o.val.id == itemId)).map (fun o =>
      .update (afterLast resizeTo ms o.val))).toList
  | .menu k action =>
    ((s.elements[k]?).map (fun o => .update (menuResult s o.val action))).toList
  | .applyBlendModeToSelected ids mode => blendOperations mode s ids

/-- The reference operations of a sequence of operations run from `s`, in order. -/
def operations (s : State) : List Op → List Reference.Operation
  | [] => []
  | op :: rest => op.operations s ++ operations (applyOp s op) rest

/-- An operation of the local user; the others are deliveries of the socket. -/
def Op.isLocal : Op → Bool
  | .item_added _ => false
  | .item_updated _ => false
  | .item_removed _ => false
  | _ => true

/-- The reference operations of the local operations of a sequence run from `s`. -/
def broadcasts (s : State) : List Op → List Reference.Operation
  | [] => []
  | op :: rest =>
    (if op.isLocal then op.operations s else []) ++ broadcasts (applyOp s op) rest

/-- The outbound event that carries a reference operation to the other clients. -/
def Reference.Operation.event (alleyId : Option String) : Reference.Operation → OutEvent
  | .add item => .add_item alleyId item
  | .update item => .update_item alleyId item
  | .remove id => .remove_item alleyId id

/-- A menu action on the element at position `k` acts on the list: the object that the
element was rendered for is still the first entry of the list with its id, or the list has
no entry with that id. True of every other operation. -/
def actsOnList (s : State) : Op → Bool
  | .menu k _ =>
    match s.elements[k]? with
    | some o =>
      match s.placedItems.find? (fun p => p.val.id == o.val.id) with
      | some p => decide (p = o)
      | none => true
    | none => true
  | _ => true

/-- A sequence of operations, run from `s`, in which every menu action acts on the list. -/
def ActsOnList : State → List Op → Prop
  | _, [] => True
  | s, op :: rest => actsOnList s op = true ∧ ActsOnList (applyOp s op) rest

/-- Decision procedure for `ActsOnList`, by recursion on the sequence. -/
instance decActsOnList : (s : State) → (ops : List Op) → Decidable (ActsOnList s ops)
  | _, [] => isTrue trivial
  | s, op :: rest =>
    have : Decidable (ActsOnList (applyOp s op) rest) := decActsOnList (applyOp s op) rest
    (inferInstance : Decidable (actsOnList s op = true ∧ ActsOnList (applyOp s op) rest))

/-- The aliasing invariant of the states between operations: the objects of the list are
pairwise distinct, every object in the list or behind an element was allocated before
`nextRef`, and an element's object that is also in the list is the list's entry. -/
structure Aliasing (s : State) : Prop where
  distinct : (s.placedItems.map Obj.ref).Nodup
  listedBelow : ∀ o ∈ s.placedItems, o.ref < s.nextRef
  renderedBelow : ∀ o ∈ s.elements, o.ref < s.nextRef
  coherent : ∀ e ∈ s.elements, ∀ p ∈ s.placedItems, e.ref = p.ref → e = p

/-- No gesture is in progress: no drag or resize listener is registered on `document`. -/
structure Idle (s : State) : Prop where
  onMove : s.moveListeners = []
  onUp : s.upListeners = []

/-! ## Interaction traces -/

/-- What can happen to the page: the user actions that add, select, move, resize, restyle
or remove items, and socket deliveries. A `mousedown` names the pressed element by the id
of its item; `click` and `contextmenu` name it by its position in `itemsContainer`;
`deleteItem` is a call of that function, from the context menu or otherwise; `menu` is a
click on a button or a move of the slider of the context menu. -/
inductive Input where
  | addItem (type_ subtype : String) (x y : Int) (width height : Option Int)
      (customImage : Option String) (now : Nat) (rnd : String)
  | mousedown (e : MouseEvent) (target : Target) (itemId : String) (rect : Rect)
  | mousemove (e : MouseEvent) (canvas : Canvas)
  | mouseup
  | deleteItem (itemId : String)
  | keydown (key : String)
  | clearClick (confirmed : Bool)
  | connect
  | inbound (ev : InEvent)
  | click (k : Nat)
  | clickCanvas
  | contextmenu (k : Nat)
  | menu (action : MenuAction)
  | applyBlendModeToSelected (ids : List String) (mode : String)
deriving DecidableEq, Repr

/-- One step of the page. -/
def step (s : State) : Input → State
  | .addItem type_ subtype x y width height customImage now rnd =>
    addItem s type_ subtype x y width height customImage now rnd
  | .mousedown e target itemId rect => mousedown s e target itemId rect
  | .mousemove e canvas => mousemove s e canvas
  | .mouseup => mouseup s
  | .deleteItem itemId => deleteItem s itemId
  | .keydown key => keydown s key
  | .clearClick confirmed => clearClick s confirmed
  | .connect => if truthy s.alleyId then on_connect s else s
  | .inbound ev => receive s ev
  | .click k => click s k
  | .clickCanvas => clickCanvas s
  | .contextmenu k => contextmenu s k
  | .menu action => onMenuItem s (menuHandler action)
  | .applyBlendModeToSelected ids mode => applyBlendModeToSelected s ids mode

/-- A trace of inputs, run from `s`. -/
def run (s : State) (inputs : List Input) : State := inputs.foldl step s

/-- The ids of the local items, in list order. -/
def State.ids (s : State) : List String := s.items.map Item.id

/-- An input whose `load_design` payload, if it is one, has pairwise distinct ids. -/
def loadsDistinct : Input → Bool
  | .inbound (.load_design (some l)) => decide (l.map Item.id).Nodup
  | _ => true

/-- An input that brings no id the local list already holds: the id generated by an
`addItem` and the id carried by an `item_added` are new to the list. -/
def bringsFreshId (s : State) : Input → Bool
  | .addItem _ _ _ _ _ _ _ now rnd => decide (genId now rnd ∉ s.ids)
  | .inbound (.item_added item) => decide (item.id ∉ s.ids)
  | _ => true

/-- A trace in which every `load_design` payload is duplicate-free. -/
def LoadsDistinct (inputs : List Input) : Prop := ∀ i ∈ inputs, loadsDistinct i = true

/-- A trace, run from `s`, in which every added id is new when it is added. -/
def FreshIds : State → List Input → Prop
  | _, [] => True
  | s, i :: rest => bringsFreshId s i = true ∧ FreshIds (step s i) rest

/-- The concrete scenario: from the empty list, `addItem`, one drag gesture on the new
item (pointer down on its body, one move, pointer up), then `deleteItem` of its id. -/
def scenario (alleyId : Option String) (builtins : String → String → BuiltinRead)
    (type_ subtype : String) (x y : Int) (now : Nat) (rnd : String)
    (down move : MouseEvent) (rect : Rect) (canvas : Canvas) : State :=
  run (State.init alleyId builtins)
    [ .addItem type_ subtype x y none none none now rnd,
      .mousedown down .body (genId now rnd) rect,
      .mousemove move canvas,
      .mouseup,
      .deleteItem (genId now rnd) ]

/-! ## Gestures in progress -/

/-- A drag gesture in progress on the object `⟨r, v⟩`: what `startDrag` sets up and every
`drag` keeps. -/
structure Dragging (t : State) (r : Nat) (v : Item) (off : Offset) (log : List OutEvent)
    (alley : Option String) : Prop where
  flag : t.isDragging = true
  sel : t.selectedItem = some ⟨r, v⟩
  onMove : t.moveListeners = [.drag]
  onUp : t.upListeners = [.stopDrag]
  offset : t.dragOffset = off
  log_eq : t.emitted = log
  alley_eq : t.alleyId = alley
  listed : (⟨r, v⟩ : Obj) ∈ t.placedItems

/-- A resize gesture in progress on the object `⟨r, v⟩`: what `startResize` sets up and
every `resize` keeps. -/
structure Resizing (t : State) (r : Nat) (v : Item) (log : List OutEvent)
    (alley : Option String) : Prop where
  flag : t.isResizing = true
  sel : t.selectedItem = some ⟨r, v⟩
  onMove : t.moveListeners = [.resize]
  onUp : t.upListeners = [.stopResize]
  log_eq : t.emitted = log
  alley_eq : t.alleyId = alley
  listed : (⟨r, v⟩ : Obj) ∈ t.placedItems

/-! ## Sizes of emitted items -/

/-- An item at least 50 by 50. -/
def Item.sized (it : Item) : Prop := 50 ≤ it.width ∧ 50 ≤ it.height

/-- An outbound event whose item, if it carries one, is at least 50 by 50. -/
def OutEvent.sized : OutEvent → Prop
  | .add_item _ item => item.sized
  | .update_item _ item => item.sized
  | _ => True

/-- An explicit size argument that is absent, falsy, or at least 50. -/
def sizeArgOk (v : Option Int) : Bool :=
  match v with
  | some n => n == 0 || decide (50 ≤ n)
  | none => true

/-- A local operation (no socket delivery) whose explicit sizes, for an `addItem`, are
absent, zero, or at least 50. -/
def localSized : Input → Bool
  | .addItem _ _ _ _ width height _ _ _ => sizeArgOk width && sizeArgOk height
  | .inbound _ => false
  | _ => true

/-- A local operation of any kind: everything but a socket delivery. -/
def isLocal : Input → Bool
  | .inbound _ => false
  | _ => true

/-- The invariant behind the size bound: the items in the list, in the selection, in the
closures of the elements and of the menu, and in the outbound log are sized. -/
structure SizesOk (s : State) : Prop where
  listed : ∀ o ∈ s.placedItems, o.val.sized
  selected : ∀ o, s.selectedItem = some o → o.val.sized
  rendered : ∀ o ∈ s.elements, o.val.sized
  menu : ∀ o, s.menuItem = some o → o.val.sized
  sent : ∀ ev ∈ s.emitted, ev.sized

/-! ## Export (`main.js`, lines 17-46) -/

/-- JavaScript `v || d` for an optional string: `undefined` and the empty string fall
through to `d`. -/
def orStr (v : Option String) (d : String) : String :=
  match v with
  | some str => if str = "" then d else str
  | none => d

/-- An item as `exportDesignData` writes it (lines 21-33). -/
structure ExportItem where
  id : String
  type_ : String
  subtype : String
  x : Int
  y : Int
  width : Int
  height : Int
  rotation : Int
  blendMode : String
  opacity : Int
  customImage : Option String
deriving DecidableEq, Repr

/-- The `canvasSize` object of the exported design. -/
structure CanvasSize where
  width : Int
  height : Int
deriving DecidableEq, Repr

/-- The object `exportDesignData` stores under `alleyDesignData` and returns. -/
structure DesignData where
  alleyId : Option String
  items : List ExportItem
  canvasSize : CanvasSize
  timestamp : Nat
deriving DecidableEq, Repr

/-- The arrow function mapped over `placedItems` in `exportDesignData`. -/
def exportItem (item : Item) : ExportItem :=
  { id := item.id, type_ := item.type_, subtype := item.subtype, x := item.x, y := item.y,
    width := item.width, height := item.height,
    rotation := orNum item.rotation 0,
    blendMode := orStr item.blendMode "normal",
    opacity := orNum item.opacity 1,
    customImage := item.customImage }

/-- Function `exportDesignData` (lines 18-46); `offsetWidth`, `offsetHeight` are the
canvas's and `now` is `Date.now()`. -/
def exportDesignData (s : State) (offsetWidth offsetHeight : Int) (now : Nat) : DesignData :=
  { alleyId := s.alleyId,
    items := s.items.map exportItem,
    canvasSize := ⟨offsetWidth, offsetHeight⟩,
    timestamp := now }

/-! ## The 3D workspace (`static/js/workspace3d.js`, lines 21-45)

Wall positions are rationals: the source divides canvas coordinates. A zero canvas size
is outside the model (JavaScript divides to `Infinity` or `NaN`). -/

/-- The `position` object of a mural on a wall. -/
structure Position where
  x : ℚ
  y : ℚ
  z : ℚ
deriving DecidableEq, Repr

/-- The 2D-to-wall mapping of `load2DDesignData` for one art item (lines 35-45). -/
def wallPosition (item : ExportItem) (canvasSize : CanvasSize) : Position :=
  let normalizedX : ℚ := ((item.x : ℚ) / (canvasSize.width : ℚ)) * 10 - 5
  let normalizedY : ℚ := 2 - ((item.y : ℚ) / (canvasSize.height : ℚ)) * 3
  let wallZ : ℚ := if normalizedX < 0 then -(5 / 2) else 5 / 2
  { x := normalizedX, y := normalizedY, z := wallZ }

/-- Function `load2DDesignData`: the positions computed for the art items of the saved
design, in order; nothing when no design is saved. -/
def load2DDesignData (savedData : Option DesignData) : List Position :=
  match savedData with
  | some designData =>
    (designData.items.filter (fun item => item.type_ == "art")).map
      (fun item => wallPosition item designData.canvasSize)
  | none => []

/-! ## Alley data (`static/js/alleys-data.js`) -/

/-- The `baseline` / `vision` object of an alley. The two spellings of the shade key are
separate properties; a property the object literal does not have reads as `undefined`,
here `none`. `airQuality` is not read by the modelled functions. -/
structure Metrics where
  temperature : Int
  shadecoverage : Option Int
  shadeCoverage : Option Int
  waterRunoff : Int
  vegetation : Int
deriving DecidableEq, Repr

/-- An alley record, with the fields `createScenario` and `generateSampleData` read. -/
structure Alley where
  id : String
  name : String
  address : String
  baseline : Metrics
  vision : Metrics
deriving DecidableEq, Repr

/-- A `vision` literal: every alley spells the key `shadeCoverage` there. -/
def visionOf (temperature shade waterRunoff vegetation : Int) : Metrics :=
  { temperature := temperature, shadecoverage := none, shadeCoverage := some shade,
    waterRunoff := waterRunoff, vegetation := vegetation }

/-- A `baseline` literal with the key spelled `shadeCoverage` (alleys 2 to 12). -/
def baselineOf (temperature shade waterRunoff vegetation : Int) : Metrics :=
  { temperature := temperature, shadecoverage := none, shadeCoverage := some shade,
    waterRunoff := waterRunoff, vegetation := vegetation }

/-- The `baseline` literal of alley 1, whose key is spelled `shadecoverage` (line 15). -/
def baselineAlley1 : Metrics :=
  { temperature := 95, shadecoverage := some 5, shadeCoverage := none,
    waterRunoff := 100, vegetation := 0 }

/-- The entry `ALLEYS_DATA['alley-1']`. -/
def alley1 : Alley :=
  { id := "alley-1", name := "Alley 1",
    address := "S Alvarado to S Lake St, Between 11th St & 12th St",
    baseline := baselineAlley1, vision := visionOf 87 65 30 85 }

/-- The object `ALLEYS_DATA`, as its key/value pairs in insertion order. -/
def ALLEYS_DATA : List (String × Alley) :=
  [ ("alley-1", alley1),
    ("alley-2", ⟨"alley-2", "Alley 2", "S Alvarado to S Lake St, Between 12th St & 13th St",
      baselineOf 93 8 100 2, visionOf 85 60 35 80⟩),
    ("alley-3", ⟨"alley-3", "Alley 3", "S Alvarado to S Lake St, Between 13th St & 14th St",
      baselineOf 96 3 100 0, visionOf 86 68 25 90⟩),
    ("alley-4", ⟨"alley-4", "Alley 4", "S Alvarado to S Lake St, Between 14th St & 15th St",
      baselineOf 94 6 100 1, visionOf 86 62 32 82⟩),
    ("alley-5", ⟨"alley-5", "Alley 5", "S Alvarado to S Lake St, Between 15th St & 16th St",
      baselineOf 95 4 100 0, visionOf 87 64 28 88⟩),
    ("alley-6", ⟨"alley-6", "Alley 6", "S Alvarado to S Lake St, Between 16th St & 17th St",
      baselineOf 93 7 100 1, visionOf 85 61 33 81⟩),
    ("alley-7", ⟨"alley-7", "Alley 7", "S Alvarado to S Lake St, Between 17th St & 18th St",
      baselineOf 96 5 100 0, visionOf 88 66 26 87⟩),
    ("alley-8", ⟨"alley-8", "Alley 8", "S Alvarado to S Lake St, Between 18th St & 19th St",
      baselineOf 94 6 100 1, visionOf 86 63 30 84⟩),
    ("alley-9", ⟨"alley-9", "Alley 9", "S Alvarado to S Lake St, Between 19th St & 20th St",
      baselineOf 95 5 100 0, visionOf 87 65 29 86⟩),
    ("alley-10", ⟨"alley-10", "Alley 10", "S Alvarado to S Lake St, Between 20th St & 21st St",
      baselineOf 93 7 100 2, visionOf 85 62 31 83⟩),
    ("alley-11", ⟨"alley-11", "Alley 11", "S Alvarado to S Lake St, Between 21st St & 22nd St",
      baselineOf 96 4 100 0, visionOf 88 67 27 89⟩),
    ("alley-12", ⟨"alley-12", "Alley 12", "S Alvarado to S Lake St, Between 22nd St & 23rd St",
      baselineOf 94 6 100 1, visionOf 86 64 31 85⟩) ]

/-- Function `getAlleyById`: `ALLEYS_DATA[alleyId] || ALLEYS_DATA['alley-1']`, for an
`alleyId` that is not the name of a member of `Object.prototype`; for such a name the read
finds the inherited member, which is no alley, and the function is not modelled there. -/
def getAlleyById (alleyId : String) : Alley :=
  match ALLEYS_DATA.lookup alleyId with
  | some alley => alley
  | none => alley1

/-- Function `getAllAlleys`: `Object.values(ALLEYS_DATA)`. -/
def getAllAlleys : List Alley := ALLEYS_DATA.map Prod.snd

/-- JavaScript subtraction of two numbers either of which may be `undefined`: the result
is `NaN`, here `none`, unless both are numbers. -/
def jsSub (a b : Option Int) : Option Int :=
  match a, b with
  | some m, some n => some (m - n)
  | _, _ => none

/-! ## Scenarios in localStorage (`static/js/scenarios-enhanced.js`)

The `scenarios` item of `localStorage` holds the JSON text of an array; it is modelled by
the array it parses to, `none` when the item is absent. `JSON.stringify` writes `NaN` as
`null`: both are the `none` of an optional number. The clock readings `Date.now()` and
`new Date().toISOString()` are parameters. Rendering (`displayScenarios`,
`updateScenarioCount`, `alert`) has no effect on the stored list. -/

/-- The `improvements` object of a scenario; `shade` may fail to be a number. -/
structure Improvements where
  temperature : Int
  shade : Option Int
  vegetation : Int
deriving DecidableEq, Repr

/-- A scenario record, as `createScenario` builds it (lines 19-35). -/
structure Scenario where
  id : String
  name : String
  alleyId : String
  alleyName : String
  alleyAddress : String
  designType : String
  description : String
  createdAt : String
  baseline : Metrics
  vision : Metrics
  improvements : Improvements
deriving DecidableEq, Repr

/-- The `scenarios` item of `localStorage`: absent, or the stored array. -/
abbrev Storage := Option (List Scenario)

/-- Function `getScenariosFromStorage`: `stored ? JSON.parse(stored) : []`. -/
def getScenariosFromStorage (storage : Storage) : List Scenario :=
  match storage with
  | some scenarios => scenarios
  | none => []

/-- Function `saveScenariosToStorage`. -/
def saveScenariosToStorage (scenarios : List Scenario) : Storage := some scenarios

/-- Function `createScenario` (lines 15-40): the storage afterwards and the scenario
returned. `now` is `Date.now()`, `createdAt` the ISO string of `new Date()`. -/
def createScenario (storage : Storage) (name alleyId designType description : String)
    (now : Nat) (createdAt : String) : Storage × Scenario :=
  let scenarios := getScenariosFromStorage storage
  let alley := getAlleyById alleyId
  let newScenario : Scenario :=
    { id := "scenario-" ++ toString now,
      name := name,
      alleyId := alleyId,
      alleyName := alley.name,
      alleyAddress := alley.address,
      designType := designType,
      description := description,
      createdAt := createdAt,
      baseline := alley.baseline,
      vision := alley.vision,
      improvements :=
        { temperature := alley.baseline.temperature - alley.vision.temperature,
          shade := jsSub alley.vision.shadeCoverage alley.baseline.shadecoverage,
          vegetation := alley.vision.vegetation - alley.baseline.vegetation } }
  (saveScenariosToStorage (scenarios ++ [newScenario]), newScenario)

/-- Function `deleteScenario` of `scenarios-enhanced.js` (lines 136-144); `confirmed` is
the answer of `confirm(…)`. -/
def deleteScenario (storage : Storage) (scenarioId : String) (confirmed : Bool) : Storage :=
  if confirmed then
    saveScenariosToStorage
      ((getScenariosFromStorage storage).filter (fun s => s.id != scenarioId))
  else storage

/-- The characters `String.prototype.trim` strips: ECMAScript WhiteSpace and
LineTerminator code points. -/
def isJsWhiteSpace (c : Char) : Bool :=
  c.toNat ∈ [0x9, 0xA, 0xB, 0xC, 0xD, 0x20, 0xA0, 0x1680, 0x2028, 0x2029, 0x202F, 0x205F,
    0x3000, 0xFEFF] || (0x2000 ≤ c.toNat && c.toNat ≤ 0x200A)

/-- JavaScript `str.trim()`: leading and trailing white space removed. -/
def jsTrim (str : String) : String :=
  ⟨(str.data.dropWhile isJsWhiteSpace).rdropWhile isJsWhiteSpace⟩

/-- The values of the four fields of the create-scenario modal. -/
structure ScenarioForm where
  scenarioAlley : String
  designType : String
  scenarioName : String
  scenarioDescription : String
deriving DecidableEq, Repr

/-- Function `saveNewScenario` (lines 248-264), with the modal open: `!name.trim()` holds
exactly when the trimmed name is the empty string. -/
def saveNewScenario (storage : Storage) (form : ScenarioForm) (now : Nat)
    (createdAt : String) : Storage :=
  if jsTrim form.scenarioName = "" then storage
  else
    (createScenario storage form.scenarioName form.scenarioAlley form.designType
      form.scenarioDescription now createdAt).1

/-! ## Scenarios over the API (`static/js/scenarios.js`) -/

/-- A request issued through `fetch`. -/
structure Request where
  method : String
  url : String
deriving DecidableEq, Repr

namespace Api

/-- Function `deleteScenario` of `scenarios.js` (lines 125-153): the requests it issues.
`confirmed` is the answer of `confirm(…)`; `responseOk` is `response.ok` of the DELETE, or
`none` when `fetch` rejects. After a successful delete `loadScenarios` fetches the list. -/
def deleteScenario (scenarioId : String) (confirmed : Bool) (responseOk : Option Bool) :
    List Request :=
  if !confirmed then []
  else
    ⟨"DELETE", "/api/scenarios/" ++ scenarioId⟩ ::
      (match responseOk with
        | some true => [⟨"GET", "/api/scenarios"⟩]
        | _ => [])

end Api

/-! ## Undo/redo history (`static/js/ui-utils.js`, lines 424-480)

States are JSON data, so the copy `JSON.parse(JSON.stringify(state))` is the state itself.
`null` is JSON data: where a method returns a state, the states are values `Option τ` with
`none` for `null`, and the `null` that the method returns when there is nothing to undo or
redo is that same `none`. `updateButtons` only touches the DOM. -/

/-- The fields of an `UndoRedoManager`. -/
structure UndoRedoManager (σ : Type) where
  history : List σ
  currentIndex : Int
  maxHistory : Int
deriving DecidableEq, Repr

namespace UndoRedoManager

variable {σ : Type}

/-- The constructor; `maxHistory` defaults to 50 at the call sites that omit it. -/
def create (maxHistory : Int) : UndoRedoManager σ :=
  { history := [], currentIndex := -1, maxHistory := maxHistory }

/-- JavaScript `history.slice(0, e)`: a negative end counts from the end of the array. -/
def slice0 (l : List σ) (e : Int) : List σ :=
  if 0 ≤ e then l.take e.toNat else l.take ((l.length : Int) + e).toNat

/-- JavaScript `history[i]`: `none` when `i` is not an index of the array. -/
def at? (l : List σ) (i : Int) : Option σ :=
  if 0 ≤ i then l.get? i.toNat else none

/-- Method `canUndo`. -/
def canUndo (m : UndoRedoManager σ) : Bool := decide (m.currentIndex > 0)

/-- Method `canRedo`. -/
def canRedo (m : UndoRedoManager σ) : Bool :=
  decide (m.currentIndex < (m.history.length : Int) - 1)

/-- Method `push` (lines 431-445). -/
def push (m : UndoRedoManager σ) (state : σ) : UndoRedoManager σ :=
  let history := slice0 m.history (m.currentIndex + 1) ++ [state]
  let currentIndex := m.currentIndex + 1
  if (history.length : Int) > m.maxHistory then
    { m with history := history.tail, currentIndex := currentIndex - 1 }
  else
    { m with history := history, currentIndex := currentIndex }

/-- What `undo` and `redo` give back: a state, `none` being `null`, or the `SyntaxError`
that `JSON.parse(JSON.stringify(undefined))` throws when the index is outside the history. -/
inductive Returned (τ : Type) where
  | value (state : Option τ)
  | throws
deriving DecidableEq, Repr

/-- The copy `JSON.parse(JSON.stringify(history[i]))`. -/
def copyAt {τ : Type} (history : List (Option τ)) (i : Int) : Returned τ :=
  match at? history i with
  | some state => .value state
  | none => .throws

/-- The manager after `undo()` (lines 447-454). -/
def afterUndo (m : UndoRedoManager σ) : UndoRedoManager σ :=
  if m.canUndo then { m with currentIndex := m.currentIndex - 1 } else m

/-- The manager after `redo()` (lines 456-463). -/
def afterRedo (m : UndoRedoManager σ) : UndoRedoManager σ :=
  if m.canRedo then { m with currentIndex := m.currentIndex + 1 } else m

/-- Method `undo` (lines 447-454): what it gives back and the manager afterwards. -/
def undo {τ : Type} (m : UndoRedoManager (Option τ)) :
    Returned τ × UndoRedoManager (Option τ) :=
  if m.canUndo then
    (copyAt m.history (m.currentIndex - 1), { m with currentIndex := m.currentIndex - 1 })
  else (.value none, m)

/-- Method `redo` (lines 456-463): what it gives back and the manager afterwards. -/
def redo {τ : Type} (m : UndoRedoManager (Option τ)) :
    Returned τ × UndoRedoManager (Option τ) :=
  if m.canRedo then
    (copyAt m.history (m.currentIndex + 1), { m with currentIndex := m.currentIndex + 1 })
  else (.value none, m)

/-- Method `clear`. -/
def clear (m : UndoRedoManager σ) : UndoRedoManager σ :=
  { m with history := [], currentIndex := -1 }

/-- A call of one of the four mutating methods. -/
inductive Call (σ : Type) where
  | push (state : σ)
  | undo
  | redo
  | clear
deriving DecidableEq, Repr

/-- The manager after one call. -/
def call (m : UndoRedoManager σ) : Call σ → UndoRedoManager σ
  | .push state => m.push state
  | .undo => m.afterUndo
  | .redo => m.afterRedo
  | .clear => m.clear

/-- The manager after a sequence of calls. -/
def calls (m : UndoRedoManager σ) (cs : List (Call σ)) : UndoRedoManager σ :=
  cs.foldl call m

/-- The current index points into the history, or is -1. -/
structure IndexInRange (m : UndoRedoManager σ) : Prop where
  lower : -1 ≤ m.currentIndex
  upper : m.currentIndex < (m.history.length : Int)

/-- The invariant of the history: bounded length, index in range, and index -1 exactly
for the empty history. -/
structure Valid (m : UndoRedoManager σ) : Prop where
  bounded : (m.history.length : Int) ≤ m.maxHistory
  inRange : IndexInRange m
  empty_iff : m.currentIndex = -1 ↔ m.history = []

end UndoRedoManager

/-! ## File validation (`static/js/ui-utils.js`, lines 274-301) -/

/-- The properties of a `File` that `validateFile` reads. -/
structure UploadFile where
  type_ : String
  size : Int
deriving DecidableEq, Repr

/-- The `options` argument of `validateFile`; an absent property takes its default. -/
structure FileOptions where
  maxSize : Option Int
  allowedTypes : Option (List String)
deriving DecidableEq, Repr

/-- The three error messages of `validateFile`: No file selected; Only (the allowed
types) files are allowed; File size must be less than (the limit in MB) MB. -/
inductive FileError where
  | noFileSelected
  | typeNotAllowed (allowedTypes : List String)
  | sizeMustBeLessThan (maxSize : Int)
deriving DecidableEq, Repr

/-- The object `validateFile` returns. -/
structure Validation where
  valid : Bool
  errors : List FileError
deriving DecidableEq, Repr

namespace Validator

/-- The default `maxSize`: 10 MB. -/
def defaultMaxSize : Int := 10 * 1024 * 1024

/-- The default `allowedTypes`. -/
def defaultAllowedTypes : List String := ["image/png", "image/jpeg", "image/jpg"]

/-- Method `Validator.validateFile` (lines 274-301); `file` is `none` for a falsy
argument. -/
def validateFile (file : Option UploadFile) (options : FileOptions) : Validation :=
  let maxSize := options.maxSize.getD defaultMaxSize
  let allowedTypes := options.allowedTypes.getD defaultAllowedTypes
  match file with
  | none => { valid := false, errors := [.noFileSelected] }
  | some f =>
    let errors1 : List FileError :=
      if allowedTypes.contains f.type_ then [] else [.typeNotAllowed allowedTypes]
    let errors2 : List FileError :=
      if f.size > maxSize then errors1 ++ [.sizeMustBeLessThan maxSize] else errors1
    { valid := errors2.isEmpty, errors := errors2 }

end Validator

/-! ## Sample scenarios (`static/js/scenarios-enhanced.js`, lines 43-59) -/

/-- The `designTypes` array of `generateSampleData`. -/
def designTypes : List String :=
  ["Rain Gardens", "Tree Canopy", "Permeable Paving", "Green Wall", "Solar Shade"]

/-- JavaScript `toLowerCase()`, on the ASCII text of the design types. -/
def toLowerCase (str : String) : String := ⟨str.data.map Char.toLower⟩

/-- Function `generateSampleData`: one `createScenario` per alley, in order. `clock index`
gives what `Date.now()` and `new Date().toISOString()` read during call number `index`. -/
def generateSampleData (storage : Storage) (clock : Nat → Nat × String) : Storage :=
  getAllAlleys.enum.foldl
    (fun st entry =>
      let index := entry.1
      let alley := entry.2
      let designType := designTypes.getD (index % designTypes.length) ""
      (createScenario st (alley.name ++ " - " ++ designType) alley.id designType
        ("Design concept focusing on " ++ toLowerCase designType ++ " for " ++ alley.name)
        (clock index).1 (clock index).2).1)
    storage

/-! ## The static server (`server.js`)

Paths are POSIX paths. `BASE_DIR` is `__dirname`: absolute, normalised, without a trailing
slash. `pathname` is the path `url.parse` reads from the request line, which keeps dot
segments as sent. The file system is a parameter: what `fs.stat` and `fs.readFile` answer
for a path. -/

/-- The object `routeMap` (lines 28-42). -/
def routeMap : List (String × String) :=
  [ ("/", "/templates/index_unified.html"),
    ("/index", "/templates/index_unified.html"),
    ("/visualization-studio", "/templates/visualization_studio.html"),
    ("/street-view-designer", "/templates/visualization_studio.html"),
    ("/before-after", "/templates/before_after.html"),
    ("/design-workspace", "/templates/design_workspace.html"),
    ("/design-brief", "/templates/design_brief.html"),
    ("/scenarios", "/templates/scenarios.html"),
    ("/live-dashboard", "/templates/live_dashboard.html"),
    ("/plant-library", "/templates/plant_library.html"),
    ("/innovation-alleys-map", "/templates/innovation_alleys_map.html"),
    ("/unreal-viewer", "/templates/unreal_viewer.html"),
    ("/digital-twin", "/templates/unreal_viewer.html") ]

/-- The segments of a path: the pieces between slashes, empty ones included. -/
def splitSlash : List Char → List (List Char)
  | [] => [[]]
  | c :: rest =>
    match splitSlash rest with
    | seg :: segs => if c = '/' then [] :: seg :: segs else (c :: seg) :: segs
    | [] => [[]]

/-- Dot-segment removal of `path.normalize` on an absolute path: empty segments and `.`
are skipped, `..` drops the last segment kept (none at the root). `stack` holds the
segments kept so far, last first. -/
def normalizeParts (stack : List (List Char)) : List (List Char) → List (List Char)
  | [] => stack.reverse
  | seg :: rest =>
    if seg = [] ∨ seg = ['.'] then normalizeParts stack rest
    else if seg = ['.', '.'] then normalizeParts stack.tail rest
    else normalizeParts (seg :: stack) rest

/-- Segments joined by slashes. -/
def joinSlash : List (List Char) → List Char
  | [] => []
  | [seg] => seg
  | seg :: rest => seg ++ '/' :: joinSlash rest

/-- Node's `path.normalize` on an absolute POSIX path; a trailing slash is kept. -/
def normalizeAbs (p : List Char) : List Char :=
  let body := joinSlash (normalizeParts [] (splitSlash p))
  if body = [] then ['/']
  else '/' :: body ++ (if p.getLast? = some '/' then ['/'] else [])

/-- Node's `path.join(a, b)` for an absolute `a`: empty arguments are skipped, the rest are
joined by a slash and normalised. -/
def pathJoin (a b : String) : String :=
  ⟨normalizeAbs (if b = "" then a.data else a.data ++ '/' :: b.data)⟩

/-- JavaScript `str.startsWith(start)`. -/
def startsWith (str start : String) : Bool := start.data.isPrefixOf str.data

/-- JavaScript `str.endsWith(tail)`. -/
def endsWith (str tail : String) : Bool := tail.data.reverse.isPrefixOf str.data.reverse

/-- What `fs.stat` answers for a path. -/
inductive Stat where
  | error
  | file
  | directory
deriving DecidableEq, Repr

/-- The status code of the response, and the paths passed to `fs.stat` and `fs.readFile`
while handling the request, in order. -/
structure Response where
  status : Nat
  accessed : List String
deriving DecidableEq, Repr

/-- Function `serveFile` (lines 98-116): 500 when `fs.readFile` fails, else 200. -/
def serveFile (readable : String → Bool) (filePath : String) (accessed : List String) :
    Response :=
  { status := if readable filePath then 200 else 500, accessed := accessed ++ [filePath] }

/-- The request handler of `http.createServer` (lines 44-96). -/
def handleRequest (BASE_DIR : String) (stat : String → Stat) (readable : String → Bool)
    (pathname : String) : Response :=
  let pathname :=
    match routeMap.lookup pathname with
    | some mapped => mapped
    | none => pathname
  let filePath := pathJoin BASE_DIR pathname
  if !startsWith filePath BASE_DIR then { status := 403, accessed := [] }
  else
    match stat filePath with
    | .error =>
      if !endsWith filePath ".html" then
        match stat (filePath ++ ".html") with
        | .error => { status := 404, accessed := [filePath, filePath ++ ".html"] }
        | _ => serveFile readable (filePath ++ ".html") [filePath, filePath ++ ".html"]
      else { status := 404, accessed := [filePath] }
    | .directory =>
      match stat (pathJoin filePath "index.html") with
      | .error => { status := 404, accessed := [filePath, pathJoin filePath "index.html"] }
      | _ =>
        serveFile readable (pathJoin filePath "index.html")
          [filePath, pathJoin filePath "index.html"]
    | .file => serveFile readable filePath [filePath]

/-- A path that is `BASE_DIR` itself or lies below it. -/
def insideBase (BASE_DIR p : String) : Bool :=
  p == BASE_DIR || startsWith p (BASE_DIR ++ "/")

/-! ## List helpers -/

/-- Replace the first element satisfying `p` by `u`; the list is unchanged when none does. -/
def replaceFirst {α : Type} (p : α → Bool) (u : α) : List α → List α
  | [] => []
  | a :: rest => if p a then u :: rest else a :: replaceFirst p u rest

/-- Decision procedure for `FreshIds`, by recursion on the trace. -/
instance decFreshIds : (s : State) → (inputs : List Input) → Decidable (FreshIds s inputs)
  | _, [] => isTrue trivial
  | s, i :: rest =>
    have : Decidable (FreshIds (step s i) rest) := decFreshIds (step s i) rest
    (inferInstance : Decidable (bringsFreshId s i = true ∧ FreshIds (step s i) rest))

/-- Decision procedure for `LoadsDistinct`. -/
instance decLoadsDistinct (inputs : List Input) : Decidable (LoadsDistinct inputs) :=
  (inferInstance : Decidable (∀ i ∈ inputs, loadsDistinct i = true))

/-! ## Sample data -/

/-- A tree placed at (100, 200), as a remote client would broadcast it. -/
def sampleItem : Item :=
  { id := "item-1-a", type_ := "plant", subtype := "tree", x := 100, y := 200,
    width := 120, height := 180, zIndex := 0, customImage := none }

/-- The sample tree, moved to x = 150. -/
def sampleMoved : Item := { sampleItem with x := 150 }

/-- The sample tree, moved to x = 30 and brought forward. -/
def sampleRaised : Item := { sampleItem with x := 30, zIndex := 4 }

/-- Built-in reads for the samples, after ECMAScript: on `Object.prototype` itself (the
member `__proto__`) its own members are truthy but `__proto__`, which is `null`; on the
built-in functions `caller` and `arguments` throw, `name`, `call`, `apply`, `bind` and the
inherited members are truthy, and every other name reads as `undefined`. The sample traces
use types that are keys of `itemConfigs`, for which it is not consulted. -/
def sampleBuiltins (type_ subtype : String) : BuiltinRead :=
  if type_ = "__proto__" then
    if subtype ∈ objectPrototypeMembers ∧ subtype ≠ "__proto__" then .truthy else .falsy
  else if subtype = "caller" ∨ subtype = "arguments" then .throws
  else if subtype ∈ ["name", "call", "apply", "bind"] ∨ subtype ∈ objectPrototypeMembers then
    .truthy
  else .falsy

/-- The page right after the script has loaded, in alley 1. -/
def sampleInit : State := State.init (some "alley-1") sampleBuiltins

/-- A state whose list holds the sample tree, received through `item_added`. -/
def sampleState : State := on_item_added (State.init (some "alley-1") sampleBuiltins) sampleItem

/-- A state in the middle of a resize gesture on a freshly added tree at (100, 200). -/
def sampleResizing : State :=
  startResize
    (addItem (State.init (some "alley-1") sampleBuiltins) "plant" "tree" 100 200 none none
      none 1700000000000 "k3j9x0q2m")
    (genId 1700000000000 "k3j9x0q2m")

/-- The object selected in `sampleResizing`. -/
def sampleSelected : Obj :=
  ⟨0, itemLiteral "plant" "tree" 100 200 120 180 none (genId 1700000000000 "k3j9x0q2m") 0⟩

/-- A trace that loads a design, adds and edits items, and deletes one. -/
def sampleTrace : List Input :=
  [ .connect,
    .inbound (.load_design (some [sampleItem])),
    .addItem "plant" "tree" 100 200 none none none 1700000000000 "k3j9x0q2m",
    .inbound (.item_updated sampleMoved),
    .mousedown ⟨130, 240⟩ .body "item-1-a" ⟨110, 210⟩,
    .mousemove ⟨180, 240⟩ ⟨⟨10, 10⟩, 0, 0⟩,
    .mouseup,
    .deleteItem "item-1-a" ]

/-- A trace in which the same item arrives twice through `item_added`. -/
def duplicateTrace : List Input :=
  [ .inbound (.item_added sampleItem), .inbound (.item_added sampleItem) ]

/-- A trace of local operations in which `addItem` is called with explicit size 10 by 10. -/
def smallItemTrace : List Input :=
  [ .addItem "art" "custom-photo" 40 40 (some 10) (some 10) (some "data:image/png;base64,AAAA")
      1700000000000 "k3j9x0q2m" ]

/-- A trace of local operations with palette drops, an upload, a resize, a drag, the actions
of the context menu, a click and a blend mode from the blend panel. -/
def localTrace : List Input :=
  [ .addItem "furniture" "lights" 10 10 none none none 1700000000000 "k3j9x0q2m",
    .addItem "art" "custom-photo" 40 40 (some 200) (some 200)
      (some "data:image/png;base64,AAAA") 1700000000001 "z8y7x6w5v",
    .mousedown ⟨30, 30⟩ .resizeHandle (genId 1700000000000 "k3j9x0q2m") ⟨10, 10⟩,
    .mousemove ⟨20, 20⟩ ⟨⟨0, 0⟩, 0, 0⟩,
    .mouseup,
    .mousedown ⟨50, 50⟩ .body (genId 1700000000001 "z8y7x6w5v") ⟨40, 40⟩,
    .mousemove ⟨90, 70⟩ ⟨⟨0, 0⟩, 0, 0⟩,
    .mouseup,
    .contextmenu 0,
    .menu .bringForward,
    .menu .sendBackward,
    .menu (.setBlendMode "overlay"),
    .menu (.setItemOpacity 40),
    .click 1,
    .applyBlendModeToSelected [genId 1700000000001 "z8y7x6w5v"] "screen" ]

/-- A press on a freshly added item, the Delete key while the button is held, release. -/
def deleteWhileDragging : List Input :=
  [ .addItem "plant" "tree" 100 200 none none none 1700000000000 "k3j9x0q2m",
    .mousedown ⟨130, 240⟩ .body (genId 1700000000000 "k3j9x0q2m") ⟨110, 210⟩,
    .mousemove ⟨180, 240⟩ ⟨⟨10, 10⟩, 0, 0⟩,
    .keydown "Delete",
    .mouseup ]

/-- After `deleteWhileDragging`: a second item, then a press on one of its resize handles. -/
def resizeAfterStuckDrag : List Input :=
  deleteWhileDragging ++
  [ .addItem "plant" "flowers" 300 200 none none none 1700000000500 "q1w2e3r4t",
    .mousedown ⟨380, 300⟩ .resizeHandle (genId 1700000000500 "q1w2e3r4t") ⟨300, 200⟩ ]

/-- Two moves of a gesture, the last one at pointer (180, 240). -/
def sampleMoves : List (MouseEvent × Canvas) :=
  [ (⟨150, 230⟩, ⟨⟨10, 10⟩, 0, 0⟩), (⟨180, 240⟩, ⟨⟨10, 10⟩, 0, 0⟩) ]

/-- A stored list of two scenarios, for alleys 1 and 2. -/
def sampleStorage : Storage :=
  (createScenario
    (createScenario none "Canopy" "alley-1" "Tree Canopy" "Shade first" 1700000000000
      "2023-11-14T22:13:20.000Z").1
    "Rain" "alley-2" "Rain Gardens" "Capture runoff" 1700000005000
    "2023-11-14T22:13:25.000Z").1

/-- A filled-in create-scenario form. -/
def sampleForm : ScenarioForm :=
  { scenarioAlley := "alley-3", designType := "Green Wall", scenarioName := "Wall A",
    scenarioDescription := "Vines on the north wall" }

/-- A clock that reads the same millisecond at every call. -/
def sameMillisecond (_ : Nat) : Nat × String := (1700000000000, "2023-11-14T22:13:20.000Z")

/-- A file system with one file, in a directory next to `/srv/app` whose name starts with
the same characters. -/
def siblingStat (p : String) : Stat :=
  if p = "/srv/app-backup/secret.txt" then .file else .error

/-- Every file can be read. -/
def allReadable (_ : String) : Bool := true

/-- A bench at z-index 4, as a remote client would broadcast it. -/
def sampleBench : Item :=
  { id := "item-2-b", type_ := "furniture", subtype := "bench", x := 400, y := 300,
    width := 120, height := 80, zIndex := 4, customImage := none }

/-- The sample tree and the sample bench, both received through `item_added`. -/
def sampleTwo : State := on_item_added sampleState sampleBench

/-- The sample tree and a bench whose z-index is 2^53, both received through `item_added`. -/
def sampleHuge : State :=
  on_item_added sampleState { sampleBench with zIndex := .int 9007199254740992 }

/-- The sample tree with opacity set to 0 percent. -/
def sampleTransparent : State := setItemOpacity sampleState ⟨0, sampleItem⟩ 0

/-- A manager with limit 3 after four pushes and one undo. -/
def sampleManager : UndoRedoManager (Option Nat) :=
  UndoRedoManager.calls (UndoRedoManager.create 3)
    [.push (some 10), .push (some 20), .push (some 30), .push (some 40), .undo]

/-- A manager after `push(null)` and `push(1)`. -/
def nullThenOne : UndoRedoManager (Option Nat) :=
  UndoRedoManager.calls (UndoRedoManager.create 50) [.push none, .push (some 1)]

/-- An exported mural at the bottom edge of a 1000 by 600 canvas. -/
def bottomMural : ExportItem :=
  { id := "item-1700000000000-k3j9x0q2m", type_ := "art", subtype := "mural-1", x := 500,
    y := 600, width := 400, height := 300, rotation := 0, blendMode := "multiply",
    opacity := 85, customImage := none }

/-- The sample state after a pointer-down on a resize handle of the sample tree, with no
pointer-up yet. -/
def sampleHandlePressed : State :=
  mousedown sampleState ⟨230, 390⟩ .resizeHandle "item-1-a" ⟨110, 210⟩

/-- The sample state after a pointer-down on the body of the sample tree. -/
def sampleDragging : State := mousedown sampleState ⟨130, 240⟩ .body "item-1-a" ⟨110, 210⟩

/-- The sample tree arrives, an update moves it to x = 150, and then the opacity slider of
the context menu opened on its element is set to 40. -/
def staleMenuOps : List Op :=
  [ .item_added sampleItem, .item_updated sampleMoved, .menu 0 (.setItemOpacity 40) ]

/-- The sample tree arrives and is pressed; an update for it arrives while the button is
held; one move, and the release. -/
def updateDuringDrag : List Input :=
  [ .inbound (.item_added sampleItem),
    .mousedown ⟨130, 240⟩ .body "item-1-a" ⟨110, 210⟩,
    .inbound (.item_updated { sampleItem with y := 999 }),
    .mousemove ⟨180, 240⟩ ⟨⟨10, 10⟩, 0, 0⟩,
    .mouseup ]

/-- Adds, all four kinds of local update, an inbound update and removes. -/
def sampleOps : List Op :=
  [ .addItem "plant" "tree" 100 200 none none none 1700000000000 "k3j9x0q2m",
    .item_added sampleBench,
    .dragItem (genId 1700000000000 "k3j9x0q2m") ⟨130, 240⟩ ⟨110, 210⟩ sampleMoves,
    .menu 0 .bringForward,
    .item_updated { sampleBench with x := 10 },
    .resizeItem "item-2-b" ⟨130, 390⟩ ⟨10, 300⟩ [(⟨30, 320⟩, ⟨⟨10, 10⟩, 0, 0⟩)],
    .applyBlendModeToSelected ["item-2-b", "item-9-z"] "multiply",
    .addItem "art" "constructor" 10 10 none none none 1700000000001 "z8y7x6w5v",
    .deleteItem (genId 1700000000000 "k3j9x0q2m"),
    .item_removed "item-9-z" ]

/-! ## Lemmas on the item list -/

theorem findIdx_set_eq_replaceFirst {α : Type} (p : α → Bool) (u : α) (l : List α) :
    (match l.findIdx? p with
      | some k => l.set k u
      | none => l) = replaceFirst p u l := by
  induction l with
  | nil => simp [replaceFirst]
  | cons a rest ih =>
    by_cases h : p a = true
    · simp [List.findIdx?_cons, h, replaceFirst]
    · simp only [List.findIdx?_cons, h, replaceFirst, List.findIdx?_succ]
      cases hk : rest.findIdx? p with
      | none => simp [hk] at ih ⊢; exact ih
      | some k => simp [hk] at ih ⊢; exact ih

theorem map_replaceFirst {α β : Type} (f : α → β) (p : β → Bool) (u : α) (l : List α) :
    (replaceFirst (fun a => p (f a)) u l).map f = replaceFirst p (f u) (l.map f) := by
  induction l with
  | nil => rfl
  | cons a rest ih =>
    by_cases h : p (f a) = true
    · simp [replaceFirst, h]
    · simp [replaceFirst, h, ih]

theorem replaceFirst_idem {α : Type} (p : α → Bool) (u : α) (hu : p u = true) (l : List α) :
    replaceFirst p u (replaceFirst p u l) = replaceFirst p u l := by
  induction l with
  | nil => rfl
  | cons a rest ih =>
    by_cases h : p a = true
    · simp [replaceFirst, h, hu]
    · simp [replaceFirst, h, ih]

theorem bne_eq_not_decide (a b : String) : (a != b) = !decide (a = b) := by
  by_cases h : a = b <;> simp [h]

theorem map_val_allocAll (n : Nat) (l : List Item) : (allocAll n l).map Obj.val = l := by
  induction l generalizing n with
  | nil => rfl
  | cons a rest ih => simp [allocAll, ih]

/-- Rendering changes the elements only. -/
theorem renderItem_eq (s s2 : State) (item : Obj) (h : renderItem s item = some s2) :
    s2 = { s with elements := s.elements ++ [item] } := by
  unfold renderItem at h
  split at h
  · simp at h
  · simpa using h.symm

theorem renderItem_getD (s : State) (item : Obj) :
    ∃ els, (renderItem s item).getD s = { s with elements := els } := by
  cases h : renderItem s item with
  | none => exact ⟨s.elements, rfl⟩
  | some s2 => exact ⟨_, by simpa using renderItem_eq s s2 item h⟩

theorem renderEach_eq (l : List Obj) (s : State) :
    ∃ els, renderEach s l = { s with elements := els } := by
  induction l generalizing s with
  | nil => exact ⟨s.elements, rfl⟩
  | cons item rest ih =>
    simp only [renderEach]
    cases h : renderItem s item with
    | none => exact ⟨s.elements, rfl⟩
    | some s2 =>
      obtain ⟨els, hels⟩ := ih s2
      refine ⟨els, ?_⟩
      have h2 := renderItem_eq s s2 item h
      subst h2
      exact hels

theorem renderAllItems_eq (s : State) :
    ∃ els, renderAllItems s = { s with elements := els } := by
  obtain ⟨els, h⟩ := renderEach_eq s.placedItems { s with elements := [] }
  exact ⟨els, by simp only [renderAllItems, h]⟩

theorem on_item_added_eq (s : State) (item : Item) :
    ∃ els, on_item_added s item =
      { s with placedItems := s.placedItems ++ [⟨s.nextRef, item⟩],
               nextRef := s.nextRef + 1, elements := els } := by
  obtain ⟨els, h⟩ := renderItem_getD
    { s with placedItems := s.placedItems ++ [⟨s.nextRef, item⟩], nextRef := s.nextRef + 1 }
    ⟨s.nextRef, item⟩
  exact ⟨els, by simp only [on_item_added, h]⟩

theorem on_load_design_eq (s : State) (items : Option (List Item)) :
    ∃ els, on_load_design s items =
      { s with placedItems := allocAll s.nextRef (items.getD []),
               nextRef := s.nextRef + (items.getD []).length, elements := els } := by
  cases items with
  | none =>
    obtain ⟨els, h⟩ := renderAllItems_eq { s with placedItems := [] }
    exact ⟨els, by simp only [on_load_design, h]; rfl⟩
  | some l =>
    obtain ⟨els, h⟩ := renderAllItems_eq
      { s with placedItems := allocAll s.nextRef l, nextRef := s.nextRef + l.length }
    exact ⟨els, by simp only [on_load_design, h]; rfl⟩

/-- The item list after the `item_updated` handler, as a function of the list before. -/
theorem items_on_item_updated (s : State) (u : Item) :
    (on_item_updated s u).items = replaceFirst (fun it => it.id == u.id) u s.items := by
  have h := findIdx_set_eq_replaceFirst (fun o : Obj => o.val.id == u.id) ⟨s.nextRef, u⟩
    s.placedItems
  have h2 := map_replaceFirst Obj.val (fun it : Item => it.id == u.id) ⟨s.nextRef, u⟩
    s.placedItems
  simp only [State.items] at *
  rw [← h2, ← h]
  unfold on_item_updated
  cases s.placedItems.findIdx? (fun o => o.val.id == u.id) <;> rfl

/-- An item that `newItem` builds carries the arguments, the id and the list length. -/
theorem newItem_some (b : String → String → BuiltinRead) (type_ subtype : String) (x y : Int)
    (width height : Option Int) (customImage : Option String) (id : String) (len : Nat)
    (item : Item)
    (h : newItem b type_ subtype x y width height customImage id len = some item) :
    lookupConfig b type_ subtype ≠ .throws ∧
    ∃ w h, item = itemLiteral type_ subtype x y w h customImage id len := by
  unfold newItem at h
  split at h
  · rename_i size hl
    exact ⟨by rw [hl]; simp, _, _, (Option.some.inj h).symm⟩
  · rename_i hl
    exact ⟨by rw [hl]; simp, _, _, (Option.some.inj h).symm⟩
  · rename_i hl
    split at h
    · simp at h
    · exact ⟨by rw [hl]; simp, _, _, (Option.some.inj h).symm⟩
  · simp at h

/-- `addItem`, when the item literal is built: push, render, emit. -/
theorem addItem_of_some (s : State) (type_ subtype : String) (x y : Int)
    (width height : Option Int) (customImage : Option String) (now : Nat) (rnd : String)
    (item : Item)
    (h : newItem s.builtins type_ subtype x y width height customImage (genId now rnd)
      s.placedItems.length = some item) :
    addItem s type_ subtype x y width height customImage now rnd =
      { s with placedItems := s.placedItems ++ [⟨s.nextRef, item⟩],
               elements := s.elements ++ [⟨s.nextRef, item⟩],
               nextRef := s.nextRef + 1,
               emitted := s.emitted ++ [.add_item s.alleyId item] } := by
  obtain ⟨hne, w, hh, hitem⟩ := newItem_some _ _ _ _ _ _ _ _ _ _ _ h
  have hr : renderItem
      { s with placedItems := s.placedItems ++ [⟨s.nextRef, item⟩], nextRef := s.nextRef + 1 }
      ⟨s.nextRef, item⟩ =
      some { s with placedItems := s.placedItems ++ [⟨s.nextRef, item⟩],
                    nextRef := s.nextRef + 1,
                    elements := s.elements ++ [⟨s.nextRef, item⟩] } := by
    unfold renderItem
    have : lookupConfig s.builtins item.type_ item.subtype =
        lookupConfig s.builtins type_ subtype := by rw [hitem]; rfl
    simp only [this]
  simp only [addItem, h, hr, State.emit]

/-- `addItem`, when a `TypeError` is thrown: nothing happens. -/
theorem addItem_of_none (s : State) (type_ subtype : String) (x y : Int)
    (width height : Option Int) (customImage : Option String) (now : Nat) (rnd : String)
    (h : newItem s.builtins type_ subtype x y width height customImage (genId now rnd)
      s.placedItems.length = none) :
    addItem s type_ subtype x y width height customImage now rnd = s := by
  simp only [addItem, h]

theorem items_deleteItem (s : State) (itemId : String) :
    (deleteItem s itemId).items = s.items.filter (fun it => it.id != itemId) := by
  unfold deleteItem
  simp only [State.items, State.emit]
  cases hs : s.selectedItem with
  | none => simp [List.filter_map, Function.comp_def]
  | some sel =>
    by_cases h : sel.val.id = itemId <;> simp [h, List.filter_map, Function.comp_def]

theorem replaceFirst_eq_update (l : List Item) (u : Item) :
    replaceFirst (fun it => it.id == u.id) u l = Reference.update l u := by
  induction l with
  | nil => rfl
  | cons a rest ih =>
    by_cases h : a.id = u.id
    · simp [replaceFirst, Reference.update, h]
    · simp [replaceFirst, Reference.update, h, ih]

theorem replaceFirst_replaceFirst {α : Type} (p : α → Bool) (u v : α) (hu : p u = true)
    (l : List α) : replaceFirst p v (replaceFirst p u l) = replaceFirst p v l := by
  induction l with
  | nil => rfl
  | cons a rest ih =>
    by_cases h : p a = true
    · simp [replaceFirst, h, hu]
    · simp [replaceFirst, h, ih]

theorem findIdx_isSome_of_mem {α : Type} (p : α → Bool) (l : List α)
    (h : ∃ a ∈ l, p a = true) : ∃ k, l.findIdx? p = some k ∧ k < l.length := by
  obtain ⟨a, ha, hp⟩ := h
  cases hk : l.findIdx? p with
  | none =>
    rw [List.findIdx?_eq_none_iff] at hk
    have := hk a ha
    simp [hp] at this
  | some k =>
    refine ⟨k, rfl, ?_⟩
    have := List.findIdx?_eq_some_iff_getElem.mp hk
    exact this.1

theorem find_replaceFirst (u : Item) (l : List Item) (h : ∃ it ∈ l, it.id = u.id) :
    (replaceFirst (fun it => it.id == u.id) u l).find? (fun it => it.id == u.id) = some u := by
  induction l with
  | nil => simp at h
  | cons a rest ih =>
    by_cases ha : a.id = u.id
    · simp [replaceFirst, ha]
    · have hr : ∃ it ∈ rest, it.id = u.id := by
        obtain ⟨it, hit, hid⟩ := h
        rcases List.mem_cons.mp hit with rfl | hr
        · exact absurd hid ha
        · exact ⟨it, hr, hid⟩
      simp [replaceFirst, ha, ih hr]

theorem replaceFirst_of_not_mem {α : Type} (p : α → Bool) (u : α) (l : List α)
    (h : ∀ a ∈ l, p a = false) : replaceFirst p u l = l := by
  induction l with
  | nil => rfl
  | cons a rest ih =>
    have ha := h a (List.mem_cons_self _ _)
    simp [replaceFirst, ha, ih (fun b hb => h b (List.mem_cons_of_mem _ hb))]

theorem map_replaceFirst_of_eq {α β : Type} (f : α → β) (p : α → Bool) (u : α)
    (h : ∀ a, p a = true → f a = f u) (l : List α) :
    (replaceFirst p u l).map f = l.map f := by
  induction l with
  | nil => rfl
  | cons a rest ih =>
    by_cases ha : p a = true
    · simp [replaceFirst, ha, h a ha]
    · simp [replaceFirst, ha, ih]

/-! ## Lemmas on ids along a trace -/

theorem ids_mutate (s : State) (r : Nat) (f : Item → Item) (hf : ∀ it, (f it).id = it.id) :
    (mutate s r f).ids = s.ids := by
  simp only [State.ids, State.items, mutate, List.map_map]
  apply List.map_congr_left
  intro o _
  simp only [Function.comp, Obj.assign]
  split <;> simp [hf]

theorem ids_drag (s : State) (e : MouseEvent) (canvas : Canvas) :
    (drag s e canvas).ids = s.ids := by
  unfold drag
  split
  · exact ids_mutate _ _ _ (fun _ => rfl)
  · rfl

theorem ids_resize (s : State) (e : MouseEvent) (canvas : Canvas) :
    (resize s e canvas).ids = s.ids := by
  unfold resize
  split
  · exact ids_mutate _ _ _ (fun _ => rfl)
  · rfl

theorem ids_mousemove (s : State) (e : MouseEvent) (canvas : Canvas) :
    (mousemove s e canvas).ids = s.ids := by
  unfold mousemove
  generalize s.moveListeners = ls
  induction ls generalizing s with
  | nil => rfl
  | cons l rest ih =>
    rw [List.foldl_cons, ih]
    cases l
    · exact ids_drag s e canvas
    · exact ids_resize s e canvas

theorem placedItems_stopDrag (s : State) : (stopDrag s).placedItems = s.placedItems := by
  unfold stopDrag
  split <;> rfl

theorem placedItems_stopResize (s : State) : (stopResize s).placedItems = s.placedItems := by
  unfold stopResize
  split <;> rfl

theorem placedItems_mouseup (s : State) : (mouseup s).placedItems = s.placedItems := by
  unfold mouseup
  generalize s.upListeners = ls
  induction ls generalizing s with
  | nil => rfl
  | cons l rest ih =>
    rw [List.foldl_cons, ih]
    cases l
    · exact placedItems_stopDrag s
    · exact placedItems_stopResize s

theorem placedItems_mousedown (s : State) (e : MouseEvent) (target : Target) (itemId : String)
    (rect : Rect) : (mousedown s e target itemId rect).placedItems = s.placedItems := by
  cases target <;> simp only [mousedown, startDrag, startResize]
  split <;> rfl

theorem ids_of_placedItems {s t : State} (h : t.placedItems = s.placedItems) :
    t.ids = s.ids := by
  simp [State.ids, State.items, h]

theorem ids_menuHandler (action : MenuAction) (s : State) (item : Obj) :
    (menuHandler action s item).ids = s.ids := by
  cases action <;>
    exact (ids_of_placedItems rfl).trans (ids_mutate _ _ _ (fun _ => rfl))

theorem ids_applyBlendModeToSelected (ids : List String) (mode : String) (s : State) :
    (applyBlendModeToSelected s ids mode).ids = s.ids := by
  unfold applyBlendModeToSelected
  induction ids generalizing s with
  | nil => rfl
  | cons itemId rest ih =>
    rw [List.foldl_cons, ih]
    split
    · exact ids_menuHandler (.setBlendMode mode) s _
    · rfl

theorem ids_onMenuItem (action : MenuAction) (s : State) :
    (onMenuItem s (menuHandler action)).ids = s.ids := by
  unfold onMenuItem
  split
  · exact ids_menuHandler action s _
  · rfl

theorem nodup_ids_deleteItem (s : State) (itemId : String) (h : s.ids.Nodup) :
    (deleteItem s itemId).ids.Nodup := by
  simp only [State.ids, items_deleteItem] at h ⊢
  exact h.sublist ((List.filter_sublist _).map _)

theorem nodup_ids_handle (s : State) (ev : InEvent) (h : s.ids.Nodup)
    (hL : loadsDistinct (.inbound ev) = true) (hF : bringsFreshId s (.inbound ev) = true) :
    (handle s ev).ids.Nodup := by
  cases ev with
  | load_design items =>
    obtain ⟨els, he⟩ := on_load_design_eq s items
    cases items with
    | none => simp [handle, he, State.ids, State.items, allocAll]
    | some l =>
      simp only [loadsDistinct, decide_eq_true_eq] at hL
      simpa [handle, he, State.ids, State.items, map_val_allocAll] using hL
  | item_added item =>
    obtain ⟨els, he⟩ := on_item_added_eq s item
    simp only [bringsFreshId, decide_eq_true_eq] at hF
    simp only [State.ids, State.items] at h hF
    simp only [handle, he, State.ids, State.items, List.map_append, List.map_cons,
      List.map_nil]
    exact List.Nodup.append h (List.nodup_singleton _) (by simpa using hF)
  | item_updated item =>
    simp only [handle, State.ids, items_on_item_updated]
    rw [map_replaceFirst_of_eq]
    · exact h
    · intro a ha
      simpa using ha
  | item_removed item_id =>
    simp only [State.ids, State.items] at h
    simp only [handle, on_item_removed, State.ids, State.items]
    exact h.sublist (((List.filter_sublist _).map _).map _)
  | design_cleared => simp [handle, on_design_cleared, State.ids, State.items]
  | user_joined => exact h
  | user_left => exact h

theorem nodup_ids_step (s : State) (i : Input) (h : s.ids.Nodup)
    (hL : loadsDistinct i = true) (hF : bringsFreshId s i = true) : (step s i).ids.Nodup := by
  cases i with
  | addItem type_ subtype x y width height customImage now rnd =>
    simp only [bringsFreshId, decide_eq_true_eq] at hF
    simp only [State.ids] at h hF
    cases hn : newItem s.builtins type_ subtype x y width height customImage (genId now rnd)
        s.placedItems.length with
    | none => simp only [step, addItem_of_none _ _ _ _ _ _ _ _ _ _ hn, State.ids]; exact h
    | some item =>
      obtain ⟨_, w, hh, hitem⟩ := newItem_some _ _ _ _ _ _ _ _ _ _ _ hn
      simp only [step, addItem_of_some _ _ _ _ _ _ _ _ _ _ _ hn, State.ids, State.items,
        List.map_append, List.map_cons, List.map_nil]
      simp only [State.items] at h hF
      exact List.Nodup.append h (List.nodup_singleton _)
        (by simpa [hitem, itemLiteral] using hF)
  | mousedown e target itemId rect =>
    rw [step, ids_of_placedItems (placedItems_mousedown s e target itemId rect)]; exact h
  | mousemove e canvas => rw [step, ids_mousemove]; exact h
  | mouseup => rw [step, ids_of_placedItems (placedItems_mouseup s)]; exact h
  | deleteItem itemId => exact nodup_ids_deleteItem s itemId h
  | keydown key =>
    simp only [step, keydown]
    split
    · split
      · exact nodup_ids_deleteItem s _ h
      · exact h
    · exact h
  | clearClick confirmed =>
    cases confirmed
    · exact h
    · simp [step, clearClick, State.ids, State.items, State.emit]
  | connect =>
    simp only [step]
    split
    · exact h
    · exact h
  | inbound ev =>
    simp only [step, receive]
    split
    · exact nodup_ids_handle s ev h hL hF
    · exact h
  | click k =>
    simp only [step, click, selectItem]
    split
    · split
      · split
        · exact h
        · exact h
      · exact h
    · exact h
  | clickCanvas => exact h
  | contextmenu k =>
    simp only [step, contextmenu]
    split
    · exact h
    · exact h
  | menu action => rw [step, ids_onMenuItem]; exact h
  | applyBlendModeToSelected ids mode => rw [step, ids_applyBlendModeToSelected]; exact h

theorem nodup_ids_run (inputs : List Input) (s : State) (h : s.ids.Nodup)
    (hL : LoadsDistinct inputs) (hF : FreshIds s inputs) : (run s inputs).ids.Nodup := by
  induction inputs generalizing s with
  | nil => exact h
  | cons i rest ih =>
    simp only [run, List.foldl_cons]
    exact ih (step s i)
      (nodup_ids_step s i h (hL i (List.mem_cons_self _ _)) hF.1)
      (fun j hj => hL j (List.mem_cons_of_mem _ hj)) hF.2

/-! ## Claims -/

/-- Claim C1: handling the same `item_updated` event twice leaves the local item list
identical to handling it once, for every state and every event item. -/
theorem C1_item_updated_idempotent (s : State) (u : Item) :
    (on_item_updated (on_item_updated s u) u).items = (on_item_updated s u).items := by
  rw [items_on_item_updated, items_on_item_updated]
  exact replaceFirst_idem _ u (by simp) _

/-- Claim C2: after the `load_design` handler the local item list equals the payload's
item list, whatever the list was before, and it is empty when the payload has no items. -/
theorem C2_load_design_replaces (s : State) (L : List Item) :
    (on_load_design s (some L)).items = L ∧ (on_load_design s none).items = [] := by
  obtain ⟨els1, h1⟩ := on_load_design_eq s (some L)
  obtain ⟨els2, h2⟩ := on_load_design_eq s none
  constructor
  · simp [h1, State.items, map_val_allocAll]
  · simp [h2, State.items, allocAll]

/-- Counterexample to C4 as stated: with type `art` and subtype `constructor` the lookup in
`itemConfigs` finds the function inherited from `Object.prototype`, `addItem` throws at
`config.size.w`, and of the three events only `remove_item` is emitted. -/
theorem C4_inherited_subtype_emits_one_event :
    lookupConfig sampleBuiltins "art" "constructor" = .inherited ∧
    (addItem sampleInit "art" "constructor" 100 200 none none none 1700000000000
      "k3j9x0q2m").emitted = [] ∧
    (scenario (some "alley-1") sampleBuiltins "art" "constructor" 100 200 1700000000000
        "k3j9x0q2m" ⟨130, 240⟩ ⟨180, 240⟩ ⟨110, 210⟩ ⟨⟨10, 10⟩, 0, 0⟩).emitted =
      [ .remove_item (some "alley-1") "item-1700000000000-k3j9x0q2m" ] := by
  decide

/-- Claim C4, amended: from the empty list, `addItem`, one drag of the new item and
`deleteItem` of its id leave the list empty and emit exactly `add_item`, `update_item`,
`remove_item`, in that order, for every type and subtype whose lookup in `itemConfigs`
neither finds a member inherited from a built-in prototype nor throws, and for all
coordinates and pointer positions; in the concrete scenario the tree added at (100, 200) is
broadcast at x = 150 by the update. -/
theorem C4_add_drag_delete_scenario (alleyId : Option String)
    (builtins : String → String → BuiltinRead) (type_ subtype : String)
    (x y : Int) (now : Nat) (rnd : String) (down move : MouseEvent) (rect : Rect)
    (canvas : Canvas)
    (hi : lookupConfig builtins type_ subtype ≠ .inherited)
    (ht : lookupConfig builtins type_ subtype ≠ .throws) :
    (∃ item : Item,
      newItem builtins type_ subtype x y none none none (genId now rnd) 0 = some item ∧
      item.type_ = type_ ∧ item.subtype = subtype ∧ item.x = x ∧ item.y = y ∧
      item.id = genId now rnd ∧
      (scenario alleyId builtins type_ subtype x y now rnd down move rect canvas).items = [] ∧
      (scenario alleyId builtins type_ subtype x y now rnd down move rect canvas).emitted =
        [ .add_item alleyId item,
          .update_item alleyId
            { item with
              x := max 0 (move.clientX - canvas.rect.left - (down.clientX - rect.left)
                    + canvas.scrollLeft),
              y := max 0 (move.clientY - canvas.rect.top - (down.clientY - rect.top)
                    + canvas.scrollTop) },
          .remove_item alleyId (genId now rnd) ]) ∧
    (scenario (some "alley-1") sampleBuiltins "plant" "tree" 100 200 1700000000000
        "k3j9x0q2m" ⟨130, 240⟩ ⟨180, 240⟩ ⟨110, 210⟩ ⟨⟨10, 10⟩, 0, 0⟩).emitted =
      [ .add_item (some "alley-1")
          { id := "item-1700000000000-k3j9x0q2m", type_ := "plant", subtype := "tree",
            x := 100, y := 200, width := 120, height := 180, zIndex := 0,
            customImage := none },
        .update_item (some "alley-1")
          { id := "item-1700000000000-k3j9x0q2m", type_ := "plant", subtype := "tree",
            x := 150, y := 200, width := 120, height := 180, zIndex := 0,
            customImage := none },
        .remove_item (some "alley-1") "item-1700000000000-k3j9x0q2m" ] := by
  refine ⟨?_, by decide⟩
  have hsome : ∃ item, newItem builtins type_ subtype x y none none none (genId now rnd) 0 =
      some item := by
    unfold newItem
    split
    · exact ⟨_, rfl⟩
    · exact ⟨_, rfl⟩
    · rename_i hl
      exact absurd hl hi
    · rename_i hl
      exact absurd hl ht
  obtain ⟨item, hitem⟩ := hsome
  obtain ⟨_, w, h, hlit⟩ := newItem_some _ _ _ _ _ _ _ _ _ _ _ hitem
  have hid : item.id = genId now rnd := by rw [hlit]; rfl
  have hadd := addItem_of_some (State.init alleyId builtins) type_ subtype x y none none none
    now rnd item hitem
  refine ⟨item, hitem, by rw [hlit]; rfl, by rw [hlit]; rfl, by rw [hlit]; rfl,
    by rw [hlit]; rfl, hid, ?_, ?_⟩
  · simp only [scenario, run, List.foldl_cons, List.foldl_nil, step, hadd]
    simp [State.init, mousedown, startDrag, hid, addListener, mousemove, drag, mutate,
      Obj.assign, mouseup, stopDrag, deleteItem, State.items, State.emit]
  · simp only [scenario, run, List.foldl_cons, List.foldl_nil, step, hadd]
    simp [State.init, mousedown, startDrag, hid, addListener, mousemove, drag, mutate,
      Obj.assign, mouseup, stopDrag, deleteItem, State.emit]

/-- Witness of C4 amended: the lookup of `plant` / `tree` finds the entry of `itemConfigs`. -/
theorem C4_add_drag_delete_scenario_witness :
    lookupConfig sampleBuiltins "plant" "tree" = .config ⟨120, 180⟩ ∧
    (scenario (some "alley-1") sampleBuiltins "plant" "tree" 100 200 1700000000000
      "k3j9x0q2m" ⟨130, 240⟩ ⟨180, 240⟩ ⟨110, 210⟩ ⟨⟨10, 10⟩, 0, 0⟩).emitted.length = 3 := by
  refine ⟨by decide, ?_⟩
  obtain ⟨⟨item, _, _, _, _, _, _, _, h⟩, _⟩ :=
    C4_add_drag_delete_scenario (some "alley-1") sampleBuiltins "plant" "tree" 100 200
      1700000000000 "k3j9x0q2m" ⟨130, 240⟩ ⟨180, 240⟩ ⟨110, 210⟩ ⟨⟨10, 10⟩, 0, 0⟩
      (by decide) (by decide)
  rw [h]
  rfl

/-- Claim C5: while resizing a selected item, `resize` sets its width and height to
max(50, pointerX - x) and max(50, pointerY - y), so both are at least 50 and a pointer
less than 50 px right of and below the corner gives 50 by 50; the same assignment reaches
the list entries that are the selected object, and the `update_item` emitted by the
following `stopResize` carries the clamped item. -/
theorem C5_resize_clamps (s : State) (sel : Obj) (e : MouseEvent) (canvas : Canvas)
    (hR : s.isResizing = true) (hS : s.selectedItem = some sel) :
    ∃ sel' : Obj,
      (resize s e canvas).selectedItem = some sel' ∧
      sel'.val = { sel.val with
        width := max 50 (e.clientX - canvas.rect.left + canvas.scrollLeft - sel.val.x),
        height := max 50 (e.clientY - canvas.rect.top + canvas.scrollTop - sel.val.y) } ∧
      50 ≤ sel'.val.width ∧ 50 ≤ sel'.val.height ∧
      (e.clientX - canvas.rect.left + canvas.scrollLeft - sel.val.x < 50 →
        e.clientY - canvas.rect.top + canvas.scrollTop - sel.val.y < 50 →
        sel'.val.width = 50 ∧ sel'.val.height = 50) ∧
      (resize s e canvas).placedItems = s.placedItems.map (fun o =>
        if o.ref = sel.ref then { o with val := { o.val with
          width := max 50 (e.clientX - canvas.rect.left + canvas.scrollLeft - sel.val.x),
          height := max 50 (e.clientY - canvas.rect.top + canvas.scrollTop - sel.val.y) } }
        else o) ∧
      (stopResize (resize s e canvas)).emitted =
        s.emitted ++ [.update_item s.alleyId sel'.val] := by
  refine ⟨Obj.assign sel.ref (fun it => { it with
      width := max 50 (e.clientX - canvas.rect.left + canvas.scrollLeft - sel.val.x),
      height := max 50 (e.clientY - canvas.rect.top + canvas.scrollTop - sel.val.y) }) sel,
    ?_, ?_, ?_, ?_, ?_, ?_, ?_⟩
  · simp [resize, hR, hS, mutate]
  · simp [Obj.assign]
  · simp [Obj.assign]
  · simp [Obj.assign]
  · intro hx hy
    simp [Obj.assign]
    omega
  · simp [resize, hR, hS, mutate, Obj.assign]
  · simp [resize, hR, hS, mutate, stopResize, State.emit]

/-- Witness of C5: a pointer 20 px right of and 30 px below the corner of the sample tree
gives 50 by 50, and that is what `stopResize` emits. -/
theorem C5_resize_clamps_witness :
    sampleResizing.isResizing = true ∧
    sampleResizing.selectedItem = some sampleSelected ∧
    ∃ sel' : Obj,
      (resize sampleResizing ⟨130, 240⟩ ⟨⟨10, 10⟩, 0, 0⟩).selectedItem = some sel' ∧
      sel'.val.width = 50 ∧ sel'.val.height = 50 ∧
      (stopResize (resize sampleResizing ⟨130, 240⟩ ⟨⟨10, 10⟩, 0, 0⟩)).emitted =
        sampleResizing.emitted ++ [.update_item sampleResizing.alleyId sel'.val] := by
  refine ⟨by decide, by decide, ?_⟩
  obtain ⟨sel', h1, _, _, _, h5, _, h7⟩ :=
    C5_resize_clamps sampleResizing sampleSelected ⟨130, 240⟩ ⟨⟨10, 10⟩, 0, 0⟩
      (by decide) (by decide)
  have h50 := h5 (by decide) (by decide)
  exact ⟨sel', h1, h50.1, h50.2, h7⟩

/-- Claim C6: when the list holds an item with id `i` and two `item_updated` events carry
items with id `i`, handling the first then the second gives the same list as handling the
second alone: the list before with the first entry of id `i` replaced by the second
event's item, at the same position, every other entry unchanged. -/
theorem C6_last_update_wins (s : State) (i : String) (u1 u2 : Item)
    (hmem : ∃ it ∈ s.items, it.id = i) (h1 : u1.id = i) (h2 : u2.id = i) :
    (on_item_updated (on_item_updated s u1) u2).items = (on_item_updated s u2).items ∧
    ∃ k, s.items.findIdx? (fun it => it.id == i) = some k ∧ k < s.items.length ∧
      (on_item_updated (on_item_updated s u1) u2).items = s.items.set k u2 := by
  subst h1
  have hp : (fun it : Item => it.id == u2.id) = (fun it : Item => it.id == u1.id) := by
    rw [h2]
  have key : (on_item_updated (on_item_updated s u1) u2).items
      = replaceFirst (fun it => it.id == u1.id) u2 s.items := by
    rw [items_on_item_updated, items_on_item_updated, hp]
    exact replaceFirst_replaceFirst _ u1 u2 (by simp) _
  refine ⟨?_, ?_⟩
  · rw [key, items_on_item_updated, hp]
  · obtain ⟨k, hk, hlt⟩ := findIdx_isSome_of_mem (fun it : Item => it.id == u1.id) s.items
      (by obtain ⟨it, hit, hid⟩ := hmem; exact ⟨it, hit, by simp [hid]⟩)
    refine ⟨k, hk, hlt, ?_⟩
    rw [key, ← findIdx_set_eq_replaceFirst, hk]

/-- Witness of C6: two updates of the sample tree, the second one wins. -/
theorem C6_last_update_wins_witness :
    (∃ it ∈ sampleState.items, it.id = "item-1-a") ∧
    (on_item_updated (on_item_updated sampleState sampleMoved) sampleRaised).items =
      (on_item_updated sampleState sampleRaised).items :=
  ⟨⟨sampleItem, by decide, rfl⟩,
    (C6_last_update_wins sampleState "item-1-a" sampleMoved sampleRaised
      ⟨sampleItem, by decide, rfl⟩ rfl rfl).1⟩

/-- Counterexample to C7 as stated: on the empty list the `item_updated` handler finds no
index and stores nothing, so the list does not hold the broadcast item afterwards. -/
theorem C7_update_of_unknown_id_dropped :
    (on_item_updated (State.init (some "alley-1") sampleBuiltins) sampleItem).items = [] ∧
    sampleItem ∉
      (on_item_updated (State.init (some "alley-1") sampleBuiltins) sampleItem).items := by
  decide

/-- Claim C7, amended: when the local list already holds an item with the id of the
event's item, after the `item_updated` handler the first item with that id in the list is
the broadcast item, so the list holds it; when the list holds no item with that id, the
handler leaves the state as it was and the broadcast item is not in the list. -/
theorem C7_update_converges_when_present (s : State) (u : Item) :
    ((∃ it ∈ s.items, it.id = u.id) →
      (on_item_updated s u).items.find? (fun it => it.id == u.id) = some u ∧
      u ∈ (on_item_updated s u).items) ∧
    ((∀ it ∈ s.items, it.id ≠ u.id) →
      on_item_updated s u = s ∧ (on_item_updated s u).items = s.items ∧
      u ∉ (on_item_updated s u).items) := by
  constructor
  · intro hmem
    have h := find_replaceFirst u s.items hmem
    rw [items_on_item_updated]
    exact ⟨h, List.mem_of_find?_eq_some h⟩
  · intro hno
    have hnone : s.placedItems.findIdx? (fun o => o.val.id == u.id) = none := by
      rw [List.findIdx?_eq_none_iff]
      intro o ho
      have := hno o.val (List.mem_map.mpr ⟨o, ho, rfl⟩)
      simpa using this
    have hs : on_item_updated s u = s := by
      simp only [on_item_updated, hnone]
    rw [hs]
    exact ⟨rfl, rfl, fun hu => hno u hu rfl⟩

/-- Witness of C7 amended: the sample tree is in the list and an update moves it; an update
for another id leaves the list as it was. -/
theorem C7_update_converges_when_present_witness :
    (∃ it ∈ sampleState.items, it.id = sampleMoved.id) ∧
    (on_item_updated sampleState sampleMoved).items.find?
      (fun it => it.id == sampleMoved.id) = some sampleMoved ∧
    sampleMoved ∈ (on_item_updated sampleState sampleMoved).items ∧
    (∀ it ∈ sampleState.items, it.id ≠ "item-2-b") ∧
    (on_item_updated sampleState { sampleMoved with id := "item-2-b" }).items =
      sampleState.items :=
  ⟨⟨sampleItem, by decide, rfl⟩,
    ((C7_update_converges_when_present sampleState sampleMoved).1
      ⟨sampleItem, by decide, rfl⟩).1,
    ((C7_update_converges_when_present sampleState sampleMoved).1
      ⟨sampleItem, by decide, rfl⟩).2,
    by decide,
    ((C7_update_converges_when_present sampleState { sampleMoved with id := "item-2-b" }).2
      (by decide)).2.1⟩

/-- Counterexample to C8 as stated: two `item_added` deliveries of the same item, in a
trace without any `load_design`, leave two entries with the same id. -/
theorem C8_duplicate_item_added :
    LoadsDistinct duplicateTrace ∧
    (run (State.init (some "alley-1") sampleBuiltins) duplicateTrace).ids =
      ["item-1-a", "item-1-a"] ∧
    ¬ (run (State.init (some "alley-1") sampleBuiltins) duplicateTrace).ids.Nodup := by
  decide

/-- Claim C8, amended: along every trace of local operations and inbound events from the
empty list in which each `load_design` payload is duplicate-free and each id generated by
`addItem` or carried by `item_added` is new to the list when it is added, the ids of the
local items are pairwise distinct. -/
theorem C8_ids_distinct_when_fresh (alleyId : Option String)
    (builtins : String → String → BuiltinRead) (inputs : List Input)
    (hL : LoadsDistinct inputs) (hF : FreshIds (State.init alleyId builtins) inputs) :
    (run (State.init alleyId builtins) inputs).ids.Nodup :=
  nodup_ids_run inputs (State.init alleyId builtins)
    (by simp [State.ids, State.items, State.init]) hL hF

/-- Witness of C8 amended: the sample trace meets both conditions. -/
theorem C8_ids_distinct_when_fresh_witness :
    LoadsDistinct sampleTrace ∧
    FreshIds (State.init (some "alley-1") sampleBuiltins) sampleTrace ∧
    (run (State.init (some "alley-1") sampleBuiltins) sampleTrace).ids.Nodup :=
  ⟨by decide, by decide,
    C8_ids_distinct_when_fresh (some "alley-1") sampleBuiltins sampleTrace (by decide)
      (by decide)⟩

/-- Claim C9: no inbound handler emits: the outbound log after handling any inbound event
is the log before, whether or not the handlers are registered. -/
theorem C9_inbound_handlers_silent (s : State) (ev : InEvent) :
    (handle s ev).emitted = s.emitted ∧ (receive s ev).emitted = s.emitted := by
  have h : (handle s ev).emitted = s.emitted := by
    cases ev with
    | load_design items =>
      obtain ⟨els, he⟩ := on_load_design_eq s items
      simp only [handle, he]
    | item_added item =>
      obtain ⟨els, he⟩ := on_item_added_eq s item
      simp only [handle, he]
    | item_updated item =>
      simp only [handle, on_item_updated]
      cases s.placedItems.findIdx? (fun o => o.val.id == item.id) <;> rfl
    | item_removed item_id => rfl
    | design_cleared => rfl
    | user_joined => rfl
    | user_left => rfl
  refine ⟨h, ?_⟩
  unfold receive
  split
  · exact h
  · rfl

/-- Counterexample to C10 as stated: for `addItem('art', 'constructor', 10, 10)` the lookup
`itemConfigs['art']['constructor']` finds the function inherited from `Object.prototype`,
which has no `size`; `config.size.w` throws, and the call neither pushes nor emits. -/
theorem C10_inherited_subtype_adds_nothing :
    lookupConfig sampleBuiltins "art" "constructor" = .inherited ∧
    newItem sampleBuiltins "art" "constructor" 10 10 none none none
      (genId 1700000000000 "k3j9x0q2m") 0 = none ∧
    (addItem sampleInit "art" "constructor" 10 10 none none none 1700000000000
      "k3j9x0q2m").items = [] ∧
    (addItem sampleInit "art" "constructor" 10 10 none none none 1700000000000
      "k3j9x0q2m").emitted = [] := by
  decide

/-- Claim C10, amended: when `addItem` builds its item, it leaves the list equal to the
list before followed by that one new item, which has the given type, subtype, x and y, the
generated id and zIndex equal to the length of the list before, and it appends exactly one
`add_item` event to the outbound log, with payload the alley id and that item; when a
`TypeError` is thrown instead, the whole state is as before. It throws exactly when the
lookup `itemConfigs[type][subtype]` throws, or finds a member inherited from a built-in
prototype while the width or the height argument is absent or zero; it does not throw when
neither the type nor the subtype is the name of a member of `Object.prototype`. -/
theorem C10_addItem_appends_and_emits (s : State) (type_ subtype : String) (x y : Int)
    (width height : Option Int) (customImage : Option String) (now : Nat) (rnd : String) :
    (∀ item : Item,
      newItem s.builtins type_ subtype x y width height customImage (genId now rnd)
        s.placedItems.length = some item →
      (addItem s type_ subtype x y width height customImage now rnd).items
        = s.items ++ [item] ∧
      item.type_ = type_ ∧ item.subtype = subtype ∧ item.x = x ∧ item.y = y ∧
      item.zIndex = .int s.items.length ∧ item.id = genId now rnd ∧
      (addItem s type_ subtype x y width height customImage now rnd).emitted =
        s.emitted ++ [.add_item s.alleyId item]) ∧
    (newItem s.builtins type_ subtype x y width height customImage (genId now rnd)
        s.placedItems.length = none →
      addItem s type_ subtype x y width height customImage now rnd = s) ∧
    (newItem s.builtins type_ subtype x y width height customImage (genId now rnd)
        s.placedItems.length = none ↔
      lookupConfig s.builtins type_ subtype = .throws ∨
      (lookupConfig s.builtins type_ subtype = .inherited ∧
        (orNum width 0 = 0 ∨ orNum height 0 = 0))) ∧
    (type_ ∉ objectPrototypeMembers → subtype ∉ objectPrototypeMembers →
      ∃ item : Item,
        newItem s.builtins type_ subtype x y width height customImage (genId now rnd)
          s.placedItems.length = some item) := by
  have hwhen : newItem s.builtins type_ subtype x y width height customImage (genId now rnd)
        s.placedItems.length = none ↔
      lookupConfig s.builtins type_ subtype = .throws ∨
      (lookupConfig s.builtins type_ subtype = .inherited ∧
        (orNum width 0 = 0 ∨ orNum height 0 = 0)) := by
    unfold newItem
    split
    · rename_i hl; simp [hl]
    · rename_i hl; simp [hl]
    · rename_i hl
      by_cases hc : orNum width 0 = 0 ∨ orNum height 0 = 0
      · simp [hl, hc]
      · simp only [hc, if_false, hl]
        simp
    · rename_i hl; simp [hl]
  refine ⟨?_, addItem_of_none s type_ subtype x y width height customImage now rnd, hwhen,
    ?_⟩
  · intro item hitem
    obtain ⟨_, w, h, hlit⟩ := newItem_some _ _ _ _ _ _ _ _ _ _ _ hitem
    rw [addItem_of_some s type_ subtype x y width height customImage now rnd item hitem]
    refine ⟨by simp [State.items], by rw [hlit]; rfl, by rw [hlit]; rfl, by rw [hlit]; rfl,
      by rw [hlit]; rfl, by rw [hlit]; simp [itemLiteral, State.items], by rw [hlit]; rfl,
      rfl⟩
  · intro ht hs
    have hl : lookupConfig s.builtins type_ subtype ≠ .throws ∧
        lookupConfig s.builtins type_ subtype ≠ .inherited := by
      unfold lookupConfig
      split
      · split
        · simp
        · simp [hs]
      · simp [ht]
    cases hn : newItem s.builtins type_ subtype x y width height customImage (genId now rnd)
        s.placedItems.length with
    | some item => exact ⟨item, rfl⟩
    | none =>
      rcases hwhen.mp hn with h1 | h2
      · exact absurd h1 hl.1
      · exact absurd h2.1 hl.2

/-- Witness of C10 amended: a bench dropped on the sample state is appended and broadcast. -/
theorem C10_addItem_appends_and_emits_witness :
    newItem sampleState.builtins "furniture" "bench" 10 20 none none none
      (genId 1700000000000 "k3j9x0q2m") sampleState.placedItems.length =
      some (itemLiteral "furniture" "bench" 10 20 120 80 none
        (genId 1700000000000 "k3j9x0q2m") 1) ∧
    (addItem sampleState "furniture" "bench" 10 20 none none none 1700000000000
      "k3j9x0q2m").items =
      sampleState.items ++ [itemLiteral "furniture" "bench" 10 20 120 80 none
        (genId 1700000000000 "k3j9x0q2m") 1] :=
  ⟨by decide,
    ((C10_addItem_appends_and_emits sampleState "furniture" "bench" 10 20 none none none
      1700000000000 "k3j9x0q2m").1 _ (by decide)).1⟩

/-! ## Lemmas on gestures -/

theorem emitted_deleteItem (s : State) (itemId : String) :
    (deleteItem s itemId).emitted = s.emitted ++ [.remove_item s.alleyId itemId] := by
  unfold deleteItem
  simp only [State.emit]
  cases hs : s.selectedItem with
  | none => rfl
  | some sel => by_cases h : sel.val.id = itemId <;> simp [h]

theorem afterLast_cons (f : MouseEvent × Canvas → Item → Item)
    (hf : ∀ m m' it, f m' (f m it) = f m' it)
    (m : MouseEvent × Canvas) (ms : List (MouseEvent × Canvas)) (it : Item) :
    afterLast f ms (f m it) = afterLast f (m :: ms) it := by
  cases ms with
  | nil => simp [afterLast]
  | cons m' rest =>
    simp only [afterLast, List.getLast?_cons_cons]
    cases rest.getLast? <;> simp [hf] <;>
    cases h : (m' :: rest).getLast? <;> simp_all [hf]

theorem mem_map_assign (r : Nat) (v : Item) (f : Item → Item) (l : List Obj)
    (h : (⟨r, v⟩ : Obj) ∈ l) : (⟨r, f v⟩ : Obj) ∈ l.map (Obj.assign r f) := by
  refine List.mem_map.mpr ⟨⟨r, v⟩, h, ?_⟩
  simp [Obj.assign]

theorem dragging_mousemove {t : State} {r : Nat} {v : Item} {off : Offset}
    {log : List OutEvent} {alley : Option String} (h : Dragging t r v off log alley)
    (m : MouseEvent × Canvas) :
    Dragging (mousemove t m.1 m.2) r (dragTo off m v) off log alley := by
  obtain ⟨h1, h2, h3, h4, h5, h6, h7, h8⟩ := h
  have hm : mousemove t m.1 m.2 =
      mutate t r (fun it => { it with
        x := max 0 (m.1.clientX - m.2.rect.left - off.x + m.2.scrollLeft),
        y := max 0 (m.1.clientY - m.2.rect.top - off.y + m.2.scrollTop) }) := by
    simp [mousemove, h3, drag, h1, h2, h5]
  rw [hm]
  refine ⟨h1, ?_, h3, h4, h5, h6, h7, ?_⟩
  · simp [mutate, h2, Obj.assign, dragTo]
  · exact mem_map_assign r v _ _ h8

theorem dragging_moves (ms : List (MouseEvent × Canvas)) {t : State} {r : Nat} {v : Item}
    {off : Offset} {log : List OutEvent} {alley : Option String}
    (h : Dragging t r v off log alley) :
    Dragging (moves t ms) r (afterLast (dragTo off) ms v) off log alley := by
  induction ms generalizing t v with
  | nil => exact h
  | cons m rest ih =>
    have := ih (dragging_mousemove h m)
    rw [afterLast_cons (dragTo off) (fun _ _ _ => rfl)] at this
    exact this

theorem dragging_mousedown (s : State) (o : Obj) (down : MouseEvent) (itemId : String)
    (rect : Rect) (hM : s.moveListeners = []) (hU : s.upListeners = [])
    (hfind : s.placedItems.find? (fun o => o.val.id == itemId) = some o) :
    Dragging (mousedown s down .body itemId rect) o.ref o.val
      ⟨down.clientX - rect.left, down.clientY - rect.top⟩ s.emitted s.alleyId := by
  have hmem : o ∈ s.placedItems := List.mem_of_find?_eq_some hfind
  simp only [mousedown, startDrag, hfind, hM, hU, addListener]
  exact ⟨rfl, rfl, by simp, by simp, rfl, rfl, rfl, hmem⟩

theorem dragging_mouseup {t : State} {r : Nat} {v : Item} {off : Offset}
    {log : List OutEvent} {alley : Option String} (h : Dragging t r v off log alley) :
    (mouseup t).emitted = log ++ [.update_item alley v] ∧ v ∈ (mouseup t).items ∧
    (mouseup t).isDragging = false := by
  obtain ⟨h1, h2, h3, h4, h5, h6, h7, h8⟩ := h
  refine ⟨?_, ?_, ?_⟩
  · simp [mouseup, h4, stopDrag, h1, h2, State.emit, h6, h7]
  · have : (mouseup t).placedItems = t.placedItems := placedItems_mouseup t
    simp only [State.items, this]
    exact List.mem_map.mpr ⟨_, h8, rfl⟩
  · simp [mouseup, h4, stopDrag, h1, h2, State.emit]

theorem resizing_mousemove {t : State} {r : Nat} {v : Item}
    {log : List OutEvent} {alley : Option String} (h : Resizing t r v log alley)
    (m : MouseEvent × Canvas) :
    Resizing (mousemove t m.1 m.2) r (resizeTo m v) log alley := by
  obtain ⟨h1, h2, h3, h4, h6, h7, h8⟩ := h
  have hm : mousemove t m.1 m.2 =
      mutate t r (fun it => { it with
        width := max 50 (m.1.clientX - m.2.rect.left + m.2.scrollLeft - v.x),
        height := max 50 (m.1.clientY - m.2.rect.top + m.2.scrollTop - v.y) }) := by
    simp [mousemove, h3, resize, h1, h2]
  rw [hm]
  refine ⟨h1, ?_, h3, h4, h6, h7, ?_⟩
  · simp [mutate, h2, Obj.assign, resizeTo]
  · exact mem_map_assign r v _ _ h8

theorem resizing_moves (ms : List (MouseEvent × Canvas)) {t : State} {r : Nat} {v : Item}
    {log : List OutEvent} {alley : Option String}
    (h : Resizing t r v log alley) :
    Resizing (moves t ms) r (afterLast resizeTo ms v) log alley := by
  induction ms generalizing t v with
  | nil => exact h
  | cons m rest ih =>
    have := ih (resizing_mousemove h m)
    rw [afterLast_cons resizeTo (fun _ _ _ => rfl)] at this
    exact this

theorem resizing_mousedown (s : State) (o : Obj) (down : MouseEvent) (itemId : String)
    (rect : Rect) (hM : s.moveListeners = []) (hU : s.upListeners = [])
    (hfind : s.placedItems.find? (fun o => o.val.id == itemId) = some o) :
    Resizing (mousedown s down .resizeHandle itemId rect) o.ref o.val s.emitted s.alleyId := by
  have hmem : o ∈ s.placedItems := List.mem_of_find?_eq_some hfind
  simp only [mousedown, startResize, hfind, hM, hU, addListener]
  exact ⟨rfl, rfl, by simp, by simp, rfl, rfl, hmem⟩

theorem resizing_mouseup {t : State} {r : Nat} {v : Item}
    {log : List OutEvent} {alley : Option String} (h : Resizing t r v log alley) :
    (mouseup t).emitted = log ++ [.update_item alley v] ∧ v ∈ (mouseup t).items ∧
    (mouseup t).isResizing = false := by
  obtain ⟨h1, h2, h3, h4, h6, h7, h8⟩ := h
  refine ⟨?_, ?_, ?_⟩
  · simp [mouseup, h4, stopResize, h1, h2, State.emit, h6, h7]
  · have : (mouseup t).placedItems = t.placedItems := placedItems_mouseup t
    simp only [State.items, this]
    exact List.mem_map.mpr ⟨_, h8, rfl⟩
  · simp [mouseup, h4, stopResize, h1, h2, State.emit]

/-- Claim C11: `deleteItem(id)` leaves exactly the items whose id differs from `id`, in
their order and unchanged, and appends exactly one `remove_item` event with the alley id
and that id to the outbound log. -/
theorem C11_deleteItem_filters_and_emits (s : State) (itemId : String) :
    (deleteItem s itemId).items = s.items.filter (fun it => it.id ≠ itemId) ∧
    (deleteItem s itemId).emitted = s.emitted ++ [.remove_item s.alleyId itemId] := by
  refine ⟨?_, emitted_deleteItem s itemId⟩
  rw [items_deleteItem]
  simp [bne_eq_not_decide]

/-- Claim C12: a confirmed clear or reset empties the list and appends exactly one
`clear_design` event; the `design_cleared` handler empties the list and emits nothing; a
declined confirmation leaves the whole state as it was. -/
theorem C12_clear_empties_and_emits (s : State) :
    (clearClick s true).items = [] ∧
    (clearClick s true).emitted = s.emitted ++ [.clear_design s.alleyId] ∧
    (on_design_cleared s).items = [] ∧
    (on_design_cleared s).emitted = s.emitted ∧
    clearClick s false = s :=
  ⟨rfl, rfl, rfl, rfl, rfl⟩

/-- Counterexample to C13 as stated: when a pointer-down on a resize handle is still waiting
for its pointer-up, a drag gesture on the same item (pointer-down on the body, one move,
pointer-up) ends with two `update_item` events from the one pointer-up, since `stopResize`
and `stopDrag` are both registered. -/
theorem C13_two_updates_from_one_pointer_up :
    sampleHandlePressed =
      run (State.init (some "alley-1") sampleBuiltins)
        [ .inbound (.item_added sampleItem),
          .mousedown ⟨230, 390⟩ .resizeHandle "item-1-a" ⟨110, 210⟩ ] ∧
    sampleHandlePressed.upListeners = [.stopResize] ∧
    sampleHandlePressed.emitted = [] ∧
    (mouseup (moves (mousedown sampleHandlePressed ⟨130, 240⟩ .body "item-1-a" ⟨110, 210⟩)
        [(⟨180, 240⟩, ⟨⟨10, 10⟩, 0, 0⟩)])).emitted =
      [ .update_item (some "alley-1") { sampleItem with x := 150, width := 70, height := 50 },
        .update_item (some "alley-1")
          { sampleItem with x := 150, width := 70, height := 50 } ] :=
  ⟨rfl, by decide, by decide, by decide⟩

/-- Claim C13, amended: in a gesture that starts while no drag or resize listener is
registered on the document, on an item of the list, a pointer-down on the body followed by
any number of moves emits nothing, and the pointer-up then appends exactly one
`update_item`, whose item is the pressed item with x and y as the last move set them
(untouched when there was no move) and is in the list; the same for a pointer-down on a
resize handle, with width and height. -/
theorem C13_one_update_per_gesture (s : State) (o : Obj) (itemId : String)
    (down : MouseEvent) (rect : Rect) (ms : List (MouseEvent × Canvas))
    (hM : s.moveListeners = []) (hU : s.upListeners = [])
    (hfind : s.placedItems.find? (fun o => o.val.id == itemId) = some o) :
    ((moves (mousedown s down .body itemId rect) ms).emitted = s.emitted ∧
      (mouseup (moves (mousedown s down .body itemId rect) ms)).emitted =
        s.emitted ++ [.update_item s.alleyId
          (afterLast (dragTo ⟨down.clientX - rect.left, down.clientY - rect.top⟩) ms o.val)] ∧
      afterLast (dragTo ⟨down.clientX - rect.left, down.clientY - rect.top⟩) ms o.val ∈
        (mouseup (moves (mousedown s down .body itemId rect) ms)).items) ∧
    ((moves (mousedown s down .resizeHandle itemId rect) ms).emitted = s.emitted ∧
      (mouseup (moves (mousedown s down .resizeHandle itemId rect) ms)).emitted =
        s.emitted ++ [.update_item s.alleyId (afterLast resizeTo ms o.val)] ∧
      afterLast resizeTo ms o.val ∈
        (mouseup (moves (mousedown s down .resizeHandle itemId rect) ms)).items) := by
  have hd := dragging_moves ms (dragging_mousedown s o down itemId rect hM hU hfind)
  have hr := resizing_moves ms (resizing_mousedown s o down itemId rect hM hU hfind)
  exact ⟨⟨hd.log_eq, (dragging_mouseup hd).1, (dragging_mouseup hd).2.1⟩,
    ⟨hr.log_eq, (resizing_mouseup hr).1, (resizing_mouseup hr).2.1⟩⟩

/-- Witness of C13: a drag of the sample tree with two moves emits one `update_item`, with
the position of the second move. -/
theorem C13_one_update_per_gesture_witness :
    sampleState.moveListeners = [] ∧ sampleState.upListeners = [] ∧
    sampleState.placedItems.find? (fun o => o.val.id == "item-1-a") = some ⟨0, sampleItem⟩ ∧
    (mouseup (moves (mousedown sampleState ⟨130, 240⟩ .body "item-1-a" ⟨110, 210⟩)
        sampleMoves)).emitted =
      sampleState.emitted ++ [.update_item sampleState.alleyId
        (afterLast (dragTo ⟨130 - 110, 240 - 210⟩) sampleMoves sampleItem)] :=
  ⟨by decide, by decide, by decide,
    (C13_one_update_per_gesture sampleState ⟨0, sampleItem⟩ "item-1-a" ⟨130, 240⟩ ⟨110, 210⟩
      sampleMoves (by decide) (by decide) (by decide)).1.2.1⟩

/-- Claim C14, evaluated where the code departs from it: after a pointer-down on an item,
a Delete key press and the pointer-up, `isDragging` is still true and no listener is left
to reset it; a later pointer-down on a resize handle then makes both flags true; a
pointer-down on an element whose item is not in the list also leaves `isDragging` true
after the pointer-up. -/
theorem C14_dragging_flag_stuck :
    (run (State.init (some "alley-1") sampleBuiltins) deleteWhileDragging).isDragging = true ∧
    (run (State.init (some "alley-1") sampleBuiltins) deleteWhileDragging).upListeners = [] ∧
    (run (State.init (some "alley-1") sampleBuiltins) resizeAfterStuckDrag).isDragging = true ∧
    (run (State.init (some "alley-1") sampleBuiltins) resizeAfterStuckDrag).isResizing = true ∧
    (run (State.init (some "alley-1") sampleBuiltins)
      [.mousedown ⟨130, 240⟩ .body "item-gone" ⟨110, 210⟩, .mouseup]).isDragging = true := by
  decide

/-! ## Lemmas on the sizes of emitted items -/

theorem itemConfigs_sized :
    ∀ p ∈ itemConfigs, ∀ q ∈ p.2, (50 : Int) ≤ q.2.w ∧ (50 : Int) ≤ q.2.h := by
  decide

theorem mem_of_lookup {α : Type} (k : String) (l : List (String × α)) (v : α)
    (h : l.lookup k = some v) : (k, v) ∈ l := by
  induction l with
  | nil => simp at h
  | cons p rest ih =>
    obtain ⟨k', v'⟩ := p
    simp only [List.lookup_cons] at h
    by_cases hk : k = k'
    · subst hk
      simp at h
      simp [h]
    · have : (k == k') = false := by simpa using hk
      simp only [this] at h
      exact List.mem_cons_of_mem _ (ih h)

theorem lookupConfig_sized (b : String → String → BuiltinRead) (type_ subtype : String)
    (c : Size) (h : lookupConfig b type_ subtype = .config c) : 50 ≤ c.w ∧ 50 ≤ c.h := by
  unfold lookupConfig at h
  cases ht : itemConfigs.lookup type_ with
  | none =>
    simp only [ht] at h
    split at h
    · split at h <;> simp at h
    · simp at h
  | some subs =>
    simp only [ht] at h
    cases hs : subs.lookup subtype with
    | none =>
      simp only [hs] at h
      split at h <;> simp at h
    | some size =>
      simp only [hs, ConfigLookup.config.injEq] at h
      subst h
      exact itemConfigs_sized _ (mem_of_lookup _ _ _ ht) _ (mem_of_lookup _ _ _ hs)

theorem orNum_sized (v : Option Int) (d : Int) (hv : sizeArgOk v = true) (hd : 50 ≤ d) :
    50 ≤ orNum v d := by
  cases v with
  | none => exact hd
  | some n =>
    simp only [sizeArgOk, Bool.or_eq_true, beq_iff_eq, decide_eq_true_eq] at hv
    simp only [orNum]
    split
    · exact hd
    · rcases hv with h0 | h50
      · contradiction
      · exact h50

theorem orNum_sized_of_ne (v : Option Int) (hv : sizeArgOk v = true) (hne : ¬ orNum v 0 = 0) :
    50 ≤ orNum v 0 := by
  cases v with
  | none => exact absurd rfl hne
  | some n =>
    simp only [sizeArgOk, Bool.or_eq_true, beq_iff_eq, decide_eq_true_eq] at hv
    simp only [orNum] at hne ⊢
    split
    · rename_i h0
      simp [h0] at hne
    · rcases hv with h0 | h50
      · contradiction
      · exact h50

theorem newItem_sized (b : String → String → BuiltinRead) (type_ subtype : String)
    (x y : Int) (width height : Option Int)
    (customImage : Option String) (id : String) (len : Nat) (item : Item)
    (hw : sizeArgOk width = true) (hh : sizeArgOk height = true)
    (h : newItem b type_ subtype x y width height customImage id len = some item) :
    item.sized := by
  unfold newItem at h
  split at h
  · rename_i size hl
    have := lookupConfig_sized _ _ _ _ hl
    rw [← Option.some.inj h]
    exact ⟨orNum_sized _ _ hw this.1, orNum_sized _ _ hh this.2⟩
  · rw [← Option.some.inj h]
    exact ⟨orNum_sized _ _ hw (orNum_sized _ _ hw (by decide)),
      orNum_sized _ _ hh (orNum_sized _ _ hh (by decide))⟩
  · split at h
    · simp at h
    · rename_i hne
      rw [← Option.some.inj h]
      exact ⟨orNum_sized_of_ne _ hw (fun h0 => hne (Or.inl h0)),
        orNum_sized_of_ne _ hh (fun h0 => hne (Or.inr h0))⟩
  · simp at h

theorem sizesOk_emit {s : State} (h : SizesOk s) (ev : OutEvent) (hev : ev.sized) :
    SizesOk (s.emit ev) := by
  refine ⟨h.listed, h.selected, h.rendered, h.menu, ?_⟩
  intro e he
  simp only [State.emit, List.mem_append, List.mem_singleton] at he
  rcases he with he | rfl
  · exact h.sent e he
  · exact hev

theorem sized_assign (r : Nat) (f : Item → Item) (hf : ∀ it, it.sized → (f it).sized)
    (o : Obj) (ho : o.val.sized) : (Obj.assign r f o).val.sized := by
  unfold Obj.assign
  split
  · exact hf _ ho
  · exact ho

theorem sizesOk_mutate {s : State} (h : SizesOk s) (r : Nat) (f : Item → Item)
    (hf : ∀ it, it.sized → (f it).sized) : SizesOk (mutate s r f) := by
  refine ⟨?_, ?_, ?_, ?_, h.sent⟩
  · intro o ho
    simp only [mutate, List.mem_map] at ho
    obtain ⟨o', ho', rfl⟩ := ho
    exact sized_assign r f hf o' (h.listed o' ho')
  · intro o ho
    simp only [mutate, Option.map_eq_some'] at ho
    obtain ⟨o', ho', rfl⟩ := ho
    exact sized_assign r f hf o' (h.selected o' ho')
  · intro o ho
    simp only [mutate, List.mem_map] at ho
    obtain ⟨o', ho', rfl⟩ := ho
    exact sized_assign r f hf o' (h.rendered o' ho')
  · intro o ho
    simp only [mutate, Option.map_eq_some'] at ho
    obtain ⟨o', ho', rfl⟩ := ho
    exact sized_assign r f hf o' (h.menu o' ho')

theorem sizesOk_drag {s : State} (h : SizesOk s) (e : MouseEvent) (canvas : Canvas) :
    SizesOk (drag s e canvas) := by
  unfold drag
  split
  · exact sizesOk_mutate h _ _ (fun it hit => hit)
  · exact h

theorem sizesOk_resize {s : State} (h : SizesOk s) (e : MouseEvent) (canvas : Canvas) :
    SizesOk (resize s e canvas) := by
  unfold resize
  split
  · exact sizesOk_mutate h _ _ (fun it _ => ⟨le_max_left _ _, le_max_left _ _⟩)
  · exact h

theorem sizesOk_mousemove {s : State} (h : SizesOk s) (e : MouseEvent) (canvas : Canvas) :
    SizesOk (mousemove s e canvas) := by
  unfold mousemove
  generalize s.moveListeners = ls
  induction ls generalizing s with
  | nil => exact h
  | cons l rest ih =>
    rw [List.foldl_cons]
    apply ih
    cases l
    · exact sizesOk_drag h e canvas
    · exact sizesOk_resize h e canvas

theorem sizesOk_stopDrag {s : State} (h : SizesOk s) : SizesOk (stopDrag s) := by
  unfold stopDrag
  split
  · rename_i sel _ hsel
    have : SizesOk (({ s with isDragging := false } : State).emit
        (.update_item s.alleyId sel.val)) :=
      @sizesOk_emit { s with isDragging := false }
        ⟨h.listed, h.selected, h.rendered, h.menu, h.sent⟩
        (.update_item s.alleyId sel.val) (h.selected sel hsel)
    exact ⟨this.listed, this.selected, this.rendered, this.menu, this.sent⟩
  · exact ⟨h.listed, h.selected, h.rendered, h.menu, h.sent⟩

theorem sizesOk_stopResize {s : State} (h : SizesOk s) : SizesOk (stopResize s) := by
  unfold stopResize
  split
  · rename_i sel _ hsel
    have : SizesOk (({ s with isResizing := false } : State).emit
        (.update_item s.alleyId sel.val)) :=
      @sizesOk_emit { s with isResizing := false }
        ⟨h.listed, h.selected, h.rendered, h.menu, h.sent⟩
        (.update_item s.alleyId sel.val) (h.selected sel hsel)
    exact ⟨this.listed, this.selected, this.rendered, this.menu, this.sent⟩
  · exact ⟨h.listed, h.selected, h.rendered, h.menu, h.sent⟩

theorem sizesOk_mouseup {s : State} (h : SizesOk s) : SizesOk (mouseup s) := by
  unfold mouseup
  generalize s.upListeners = ls
  induction ls generalizing s with
  | nil => exact h
  | cons l rest ih =>
    rw [List.foldl_cons]
    apply ih
    cases l
    · exact sizesOk_stopDrag h
    · exact sizesOk_stopResize h

theorem sizesOk_find {s : State} (h : SizesOk s) (itemId : String) :
    ∀ o, s.placedItems.find? (fun o => o.val.id == itemId) = some o → o.val.sized :=
  fun o ho => h.listed o (List.mem_of_find?_eq_some ho)

theorem sizesOk_mousedown {s : State} (h : SizesOk s) (e : MouseEvent) (target : Target)
    (itemId : String) (rect : Rect) : SizesOk (mousedown s e target itemId rect) := by
  cases target
  · simp only [mousedown, startDrag]
    split
    · exact ⟨h.listed, fun o ho => sizesOk_find h itemId o (by simpa using ho), h.rendered,
        h.menu, h.sent⟩
    · exact ⟨h.listed, fun o ho => sizesOk_find h itemId o (by simpa using ho), h.rendered,
        h.menu, h.sent⟩
  · exact ⟨h.listed, fun o ho => sizesOk_find h itemId o ho, h.rendered, h.menu, h.sent⟩
  · exact h

theorem sizesOk_deleteItem {s : State} (h : SizesOk s) (itemId : String) :
    SizesOk (deleteItem s itemId) := by
  unfold deleteItem
  refine sizesOk_emit ?_ (.remove_item s.alleyId itemId) trivial
  have hl : ∀ o ∈ s.placedItems.filter (fun o => o.val.id != itemId), o.val.sized :=
    fun o ho => h.listed o (List.mem_filter.mp ho).1
  have he : ∀ o ∈ removeElement s.elements itemId, o.val.sized :=
    fun o ho => h.rendered o ((List.eraseP_sublist _).subset ho)
  cases hs : s.selectedItem with
  | none => exact ⟨hl, fun o ho => by simp [hs] at ho, he, h.menu, h.sent⟩
  | some sel =>
    by_cases hid : sel.val.id = itemId
    · simp only [hid, if_true]
      exact ⟨hl, fun o ho => by simp at ho, he, h.menu, h.sent⟩
    · simp only [hid, if_false]
      exact ⟨hl, fun o ho => h.selected o (by simpa [hs] using ho), he, h.menu, h.sent⟩

theorem sizesOk_menuHandler {s : State} (h : SizesOk s) (action : MenuAction) (item : Obj)
    (hitem : item.val.sized) : SizesOk (menuHandler action s item) := by
  cases action with
  | bringForward =>
    simp only [menuHandler, bringForward]
    apply sizesOk_emit
    · exact sizesOk_mutate h _ _ (fun _ hit => hit)
    · exact hitem
  | sendBackward =>
    simp only [menuHandler, sendBackward]
    apply sizesOk_emit
    · exact sizesOk_mutate h _ _ (fun _ hit => hit)
    · exact hitem
  | setBlendMode mode =>
    simp only [menuHandler, setBlendMode]
    apply sizesOk_emit
    · exact sizesOk_mutate h _ _ (fun _ hit => hit)
    · exact hitem
  | setItemOpacity opacity =>
    simp only [menuHandler, setItemOpacity]
    apply sizesOk_emit
    · exact sizesOk_mutate h _ _ (fun _ hit => hit)
    · exact hitem

theorem sizesOk_applyBlendModeToSelected (ids : List String) (mode : String) {s : State}
    (h : SizesOk s) : SizesOk (applyBlendModeToSelected s ids mode) := by
  unfold applyBlendModeToSelected
  induction ids generalizing s with
  | nil => exact h
  | cons itemId rest ih =>
    rw [List.foldl_cons]
    apply ih
    split
    · rename_i item hfind
      exact sizesOk_menuHandler h (.setBlendMode mode) item (sizesOk_find h itemId item hfind)
    · exact h

theorem sizesOk_step {s : State} (h : SizesOk s) (i : Input) (hi : localSized i = true) :
    SizesOk (step s i) := by
  cases i with
  | addItem type_ subtype x y width height customImage now rnd =>
    simp only [localSized, Bool.and_eq_true] at hi
    cases hn : newItem s.builtins type_ subtype x y width height customImage (genId now rnd)
        s.placedItems.length with
    | none => simp only [step, addItem_of_none _ _ _ _ _ _ _ _ _ _ hn]; exact h
    | some item =>
      have hs := newItem_sized _ _ _ _ _ _ _ _ _ _ item hi.1 hi.2 hn
      simp only [step, addItem_of_some _ _ _ _ _ _ _ _ _ _ _ hn]
      refine ⟨?_, h.selected, ?_, h.menu, ?_⟩
      · intro o ho
        simp only [List.mem_append, List.mem_singleton] at ho
        rcases ho with ho | rfl
        · exact h.listed o ho
        · exact hs
      · intro o ho
        simp only [List.mem_append, List.mem_singleton] at ho
        rcases ho with ho | rfl
        · exact h.rendered o ho
        · exact hs
      · intro e he
        simp only [List.mem_append, List.mem_singleton] at he
        rcases he with he | rfl
        · exact h.sent e he
        · exact hs
  | mousedown e target itemId rect => exact sizesOk_mousedown h e target itemId rect
  | mousemove e canvas => exact sizesOk_mousemove h e canvas
  | mouseup => exact sizesOk_mouseup h
  | deleteItem itemId => exact sizesOk_deleteItem h itemId
  | keydown key =>
    simp only [step, keydown]
    split
    · rename_i sel _
      split
      · have := sizesOk_deleteItem h sel.val.id
        exact ⟨this.listed, fun o ho => by simp at ho, this.rendered, this.menu, this.sent⟩
      · exact h
    · exact h
  | clearClick confirmed =>
    cases confirmed
    · exact h
    · simp only [step, clearClick, if_true]
      refine sizesOk_emit ?_ (.clear_design s.alleyId) trivial
      exact ⟨fun o ho => by simp at ho, h.selected, fun o ho => by simp at ho, h.menu, h.sent⟩
  | connect =>
    simp only [step]
    split
    · exact sizesOk_emit h (.join_alley s.alleyId) trivial
    · exact h
  | inbound ev => simp [localSized] at hi
  | click k =>
    simp only [step, click, selectItem]
    split
    · rename_i item hk
      have hsz : item.val.sized := h.rendered item (List.getElem?_mem hk)
      split
      · split
        · exact ⟨h.listed, fun o ho => by
            simp only [Option.some.injEq] at ho
            rw [← ho]
            exact hsz, h.rendered, h.menu, h.sent⟩
        · exact h
      · exact h
    · exact h
  | clickCanvas =>
    exact ⟨h.listed, fun o ho => by simp [step, clickCanvas] at ho, h.rendered, h.menu, h.sent⟩
  | contextmenu k =>
    simp only [step, contextmenu, showContextMenu]
    split
    · rename_i item hk
      have hsz : item.val.sized := h.rendered item (List.getElem?_mem hk)
      exact ⟨h.listed, h.selected, h.rendered, fun o ho => by
        simp only [Option.some.injEq] at ho
        rw [← ho]
        exact hsz, h.sent⟩
    · exact h
  | menu action =>
    simp only [step, onMenuItem]
    split
    · rename_i item hm
      exact sizesOk_menuHandler h action item (h.menu item hm)
    · exact h
  | applyBlendModeToSelected ids mode => exact sizesOk_applyBlendModeToSelected ids mode h

theorem sizesOk_run (inputs : List Input) {s : State} (h : SizesOk s)
    (hi : ∀ i ∈ inputs, localSized i = true) : SizesOk (run s inputs) := by
  induction inputs generalizing s with
  | nil => exact h
  | cons i rest ih =>
    simp only [run, List.foldl_cons]
    exact ih (sizesOk_step h i (hi i (List.mem_cons_self _ _)))
      (fun j hj => hi j (List.mem_cons_of_mem _ hj))

theorem sizesOk_init (alleyId : Option String) (b : String → String → BuiltinRead) :
    SizesOk (State.init alleyId b) :=
  ⟨fun o ho => by simp [State.init] at ho, fun o ho => by simp [State.init] at ho,
    fun o ho => by simp [State.init] at ho, fun o ho => by simp [State.init] at ho,
    fun e he => by simp [State.init] at he⟩

/-- Counterexample to C15 as stated: a trace of local operations only, in which `addItem`
is called with explicit width 10 and height 10, emits an `add_item` whose item is 10 by 10. -/
theorem C15_small_explicit_size_emitted :
    (∀ i ∈ smallItemTrace, isLocal i = true) ∧
    (∃ ev ∈ (run (State.init (some "alley-1") sampleBuiltins) smallItemTrace).emitted,
      ¬ ev.sized) ∧
    (run (State.init (some "alley-1") sampleBuiltins) smallItemTrace).items.map
      (fun it => (it.width, it.height)) = [(10, 10)] := by
  refine ⟨by decide, ⟨.add_item (some "alley-1")
    (itemLiteral "art" "custom-photo" 40 40 10 10 (some "data:image/png;base64,AAAA")
      (genId 1700000000000 "k3j9x0q2m") 0), by decide, ?_⟩, by decide⟩
  simp [OutEvent.sized, Item.sized, itemLiteral]

/-- Claim C15, amended: along every sequence of local operations from the empty list in
which each explicit width and height passed to `addItem` is absent, zero or at least 50,
every item carried by an outbound `add_item` or `update_item` is at least 50 by 50. The
local operations are all the inputs of the page but the socket deliveries: `addItem` of
every type and subtype, in `itemConfigs` or not, drag, resize, click, the actions of the
context menu (bring forward, send backward, blend mode, opacity), the blend panel,
`deleteItem`, the Delete key and clear. -/
theorem C15_emitted_sizes_when_args_sized (alleyId : Option String)
    (builtins : String → String → BuiltinRead) (inputs : List Input)
    (h : ∀ i ∈ inputs, localSized i = true) :
    ∀ ev ∈ (run (State.init alleyId builtins) inputs).emitted, ev.sized :=
  (sizesOk_run inputs (sizesOk_init alleyId builtins) h).sent

/-- Witness of C15 amended: palette drops, an upload at 200 by 200, a resize below the
floor, a drag, the four actions of the context menu and the blend panel. -/
theorem C15_emitted_sizes_when_args_sized_witness :
    (∀ i ∈ localTrace, localSized i = true) ∧
    (run (State.init (some "alley-1") sampleBuiltins) localTrace).emitted.length = 9 ∧
    ∀ ev ∈ (run (State.init (some "alley-1") sampleBuiltins) localTrace).emitted, ev.sized :=
  ⟨by decide, by decide,
    C15_emitted_sizes_when_args_sized (some "alley-1") sampleBuiltins localTrace (by decide)⟩

/-! ## Lemmas on scenarios -/

theorem getAlleyById_of_mem : ∀ a ∈ getAllAlleys, getAlleyById a.id = a := by
  decide

theorem jsTrim_eq_empty_iff (str : String) :
    jsTrim str = "" ↔ str.data.all isJsWhiteSpace = true := by
  have h1 : jsTrim str = "" ↔
      (str.data.dropWhile isJsWhiteSpace).rdropWhile isJsWhiteSpace = [] := by
    unfold jsTrim
    constructor
    · intro h
      exact congrArg String.data h
    · intro h
      rw [h]
  rw [h1, List.rdropWhile_eq_nil_iff, List.all_eq_true]
  constructor
  · intro h
    have hnil : str.data.dropWhile isJsWhiteSpace = [] := by
      by_contra hne
      have hhead := List.head_dropWhile_not isJsWhiteSpace str.data hne
      have := h _ (List.head_mem hne)
      simp [this] at hhead
    exact List.dropWhile_eq_nil_iff.mp hnil
  · intro h x hx
    exact h x ((List.dropWhile_sublist _).subset hx)

/-- Claim C16: for every alley of `ALLEYS_DATA`, `createScenario` on its id appends to the
stored list a scenario whose `improvements.temperature` is the alley's baseline
temperature minus its vision temperature; on alley-1 (95 and 87) the value is 8. -/
theorem C16_temperature_delta (a : Alley) (ha : a ∈ getAllAlleys) (storage : Storage)
    (name designType description : String) (now : Nat) (createdAt : String) :
    (createScenario storage name a.id designType description now
        createdAt).2.improvements.temperature
      = a.baseline.temperature - a.vision.temperature ∧
    getScenariosFromStorage
        (createScenario storage name a.id designType description now createdAt).1 =
      getScenariosFromStorage storage ++
        [(createScenario storage name a.id designType description now createdAt).2] ∧
    (createScenario storage name "alley-1" designType description now
      createdAt).2.improvements.temperature = 8 := by
  refine ⟨?_, rfl, rfl⟩
  simp only [createScenario, getAlleyById_of_mem a ha]

/-- Witness of C16: alley 1 is an alley of `ALLEYS_DATA`. -/
theorem C16_temperature_delta_witness :
    alley1 ∈ getAllAlleys ∧
    (createScenario sampleStorage "Canopy" alley1.id "Tree Canopy" "Shade first"
        1700000009000 "2023-11-14T22:13:29.000Z").2.improvements.temperature
      = alley1.baseline.temperature - alley1.vision.temperature :=
  ⟨by decide,
    (C16_temperature_delta alley1 (by decide) sampleStorage "Canopy" "Tree Canopy"
      "Shade first" 1700000009000 "2023-11-14T22:13:29.000Z").1⟩

/-- Counterexample to C17 as stated: for alley 1 the stored vegetation delta is 85, the
vision value minus the baseline value, while baseline minus vision is -85. -/
theorem C17_vegetation_is_vision_minus_baseline :
    alley1 ∈ getAllAlleys ∧
    (createScenario none "Canopy" alley1.id "Tree Canopy" "Shade first" 1700000000000
      "2023-11-14T22:13:20.000Z").2.improvements.vegetation = 85 ∧
    alley1.baseline.vegetation - alley1.vision.vegetation = -85 := by
  decide

/-- Claim C17, amended: for every alley of `ALLEYS_DATA` the stored temperature delta is
the baseline value minus the vision value, and the stored vegetation delta is the vision
value minus the baseline value. -/
theorem C17_deltas_by_metric (a : Alley) (ha : a ∈ getAllAlleys) (storage : Storage)
    (name designType description : String) (now : Nat) (createdAt : String) :
    (createScenario storage name a.id designType description now
        createdAt).2.improvements.temperature
      = a.baseline.temperature - a.vision.temperature ∧
    (createScenario storage name a.id designType description now
        createdAt).2.improvements.vegetation
      = a.vision.vegetation - a.baseline.vegetation := by
  simp only [createScenario, getAlleyById_of_mem a ha, and_self]

/-- Witness of C17 amended, on alley 1. -/
theorem C17_deltas_by_metric_witness :
    alley1 ∈ getAllAlleys ∧
    (createScenario none "Canopy" alley1.id "Tree Canopy" "Shade first" 1700000000000
        "2023-11-14T22:13:20.000Z").2.improvements.temperature
      = alley1.baseline.temperature - alley1.vision.temperature ∧
    (createScenario none "Canopy" alley1.id "Tree Canopy" "Shade first" 1700000000000
        "2023-11-14T22:13:20.000Z").2.improvements.vegetation
      = alley1.vision.vegetation - alley1.baseline.vegetation :=
  ⟨by decide,
    C17_deltas_by_metric alley1 (by decide) none "Canopy" "Tree Canopy" "Shade first"
      1700000000000 "2023-11-14T22:13:20.000Z"⟩

/-- Claim C18: a confirmed `deleteScenario` on an id that no stored scenario has returns
and leaves the stored list as it was, the same scenarios in the same order. -/
theorem C18_delete_unknown_id_keeps_list (storage : Storage) (scenarioId : String)
    (h : ∀ sc ∈ getScenariosFromStorage storage, sc.id ≠ scenarioId) :
    getScenariosFromStorage (deleteScenario storage scenarioId true) =
      getScenariosFromStorage storage := by
  simp only [deleteScenario, if_true, saveScenariosToStorage, getScenariosFromStorage]
  rw [List.filter_eq_self]
  intro sc hsc
  simpa using h sc hsc

/-- Witness of C18: no scenario of the sample storage has the id scenario-0. -/
theorem C18_delete_unknown_id_keeps_list_witness :
    (∀ sc ∈ getScenariosFromStorage sampleStorage, sc.id ≠ "scenario-0") ∧
    getScenariosFromStorage (deleteScenario sampleStorage "scenario-0" true) =
      getScenariosFromStorage sampleStorage :=
  ⟨by decide, C18_delete_unknown_id_keeps_list sampleStorage "scenario-0" (by decide)⟩

/-- Claim C19: a declined `deleteScenario` leaves the storage as it was (localStorage
version) and issues no request (API version); a confirmed one (localStorage version) on a
stored list writes back exactly the scenarios of that list whose id differs from the given
id, in their order and unchanged, and on an absent item it writes the empty list. -/
theorem C19_delete_needs_confirmation (storage : Storage) (stored : List Scenario)
    (scenarioId : String) (responseOk : Option Bool) :
    deleteScenario storage scenarioId false = storage ∧
    Api.deleteScenario scenarioId false responseOk = [] ∧
    deleteScenario (some stored) scenarioId true =
      some (stored.filter (fun sc => sc.id ≠ scenarioId)) ∧
    deleteScenario none scenarioId true = some [] := by
  refine ⟨rfl, rfl, ?_, rfl⟩
  simp [deleteScenario, saveScenariosToStorage, getScenariosFromStorage, bne_eq_not_decide]

/-- Claim C20: when the name is empty or only white space `saveNewScenario` leaves the
storage as it was; for every other name the stored list afterwards is the list before
followed by exactly one scenario, whose name is that name. -/
theorem C20_blank_name_creates_nothing (storage : Storage) (form : ScenarioForm) (now : Nat)
    (createdAt : String) :
    (form.scenarioName.data.all isJsWhiteSpace = true →
      saveNewScenario storage form now createdAt = storage) ∧
    (form.scenarioName.data.all isJsWhiteSpace = false →
      ∃ sc : Scenario,
        getScenariosFromStorage (saveNewScenario storage form now createdAt) =
          getScenariosFromStorage storage ++ [sc] ∧
        sc.name = form.scenarioName) := by
  constructor
  · intro h
    simp [saveNewScenario, (jsTrim_eq_empty_iff _).mpr h]
  · intro h
    have hne : ¬ jsTrim form.scenarioName = "" := by
      rw [jsTrim_eq_empty_iff, h]
      simp
    refine ⟨(createScenario storage form.scenarioName form.scenarioAlley form.designType
      form.scenarioDescription now createdAt).2, ?_, rfl⟩
    simp only [saveNewScenario, hne, if_false]
    rfl

/-! ## Lemmas on the z-order -/

theorem toDouble_of_lt (n : Int) (h : n.natAbs < 2 ^ 53) : toDouble n = n := by
  unfold toDouble
  rw [if_pos h]

theorem toDouble_nonpos (n : Int) (h : n ≤ 0) : toDouble n ≤ 0 := by
  unfold toDouble
  split
  · exact h
  · have hs : Int.sign n ≤ 0 := by
      rcases lt_or_eq_of_le h with hlt | heq
      · rw [Int.sign_eq_neg_one_of_neg hlt]; decide
      · rw [heq]; decide
    exact Int.mul_nonpos_of_nonpos_of_nonneg hs (Int.ofNat_nonneg _)

theorem natAbs_lt_of_bounds (n : Int) (hlo : -2 ^ 53 < n) (hhi : n < 2 ^ 53) :
    n.natAbs < 2 ^ 53 := by
  have h1 : (2 : Int) ^ 53 = 9007199254740992 := by norm_num
  have h2 : (2 : Nat) ^ 53 = 9007199254740992 := by norm_num
  rw [h1] at hlo hhi
  rw [h2]
  omega

theorem toDouble_two_pow_53 : toDouble (2 ^ 53) = 2 ^ 53 := by
  decide

theorem zle_int (a b : Int) : (ZIndex.int a ≤ ZIndex.int b) ↔ a ≤ b := Iff.rfl

theorem zlt_int (a b : Int) : (ZIndex.int a < ZIndex.int b) ↔ a < b := Iff.rfl

theorem zle_mathMax_left (a b : ZIndex) : a ≤ mathMax a b := by
  cases a with
  | negInfinity => trivial
  | int x =>
    cases b with
    | negInfinity => exact (zle_int x x).mpr (le_refl x)
    | int y => exact (zle_int x (max x y)).mpr (le_max_left x y)

theorem zle_mathMax_right (a b : ZIndex) : b ≤ mathMax a b := by
  cases b with
  | negInfinity => trivial
  | int y =>
    cases a with
    | negInfinity => exact (zle_int y y).mpr (le_refl y)
    | int x => exact (zle_int y (max x y)).mpr (le_max_right x y)

theorem zle_trans {a b c : ZIndex} (h1 : a ≤ b) (h2 : b ≤ c) : a ≤ c := by
  cases a with
  | negInfinity => trivial
  | int x =>
    cases b with
    | negInfinity => exact absurd h1 id
    | int y =>
      cases c with
      | negInfinity => exact absurd h2 id
      | int z => exact (zle_int x z).mpr (le_trans ((zle_int x y).mp h1) ((zle_int y z).mp h2))

theorem mathMax_choice (a b : ZIndex) : mathMax a b = a ∨ mathMax a b = b := by
  cases a with
  | negInfinity => exact Or.inr rfl
  | int x =>
    cases b with
    | negInfinity => exact Or.inl rfl
    | int y =>
      rcases max_choice x y with h | h
      · exact Or.inl (by simp only [mathMax, h])
      · exact Or.inr (by simp only [mathMax, h])

theorem maxOf_ge (l : List ZIndex) : ∀ a ∈ l, a ≤ maxOf l := by
  induction l with
  | nil => intro a ha; simp at ha
  | cons b rest ih =>
    intro a ha
    rcases List.mem_cons.mp ha with rfl | hr
    · exact zle_mathMax_left _ _
    · exact zle_trans (ih a hr) (zle_mathMax_right _ _)

theorem maxOf_mem (l : List ZIndex) (m : Int) (h : maxOf l = .int m) : ZIndex.int m ∈ l := by
  induction l generalizing m with
  | nil => simp [maxOf] at h
  | cons b rest ih =>
    simp only [maxOf] at h
    rcases mathMax_choice b (maxOf rest) with hc | hc
    · rw [hc] at h
      rw [h]
      exact List.mem_cons_self _ _
    · rw [hc] at h
      exact List.mem_cons_of_mem _ (ih m h)

theorem zlt_int_succ_of_le {a : ZIndex} {m : Int} (h : a ≤ .int m) : a < .int (m + 1) := by
  cases a with
  | negInfinity => trivial
  | int n =>
    have hn : n ≤ m := (zle_int n m).mp h
    exact (zlt_int n (m + 1)).mpr (by omega)

/-- Claim C21, evaluated where the code departs from it: after `setItemOpacity` with 0 the
item's opacity is 0 percent, and `exportDesignData` exports opacity 1 for it. -/
theorem C21_export_turns_opacity_0_into_1 :
    sampleTransparent.items.map (fun it => it.opacity) = [some 0] ∧
    (exportDesignData sampleTransparent 1000 600 1700000000000).items.map
      (fun it => it.opacity) = [1] := by
  decide

/-- Claim C22: while dragging a selected item, `drag` sets its x and y to
max(0, clientX - canvasLeft - dragOffset.x + scrollLeft) and the like for y, so both are at
least 0; its width, height and zIndex are unchanged; the same assignment reaches the list
entries that are the selected object, and nothing is emitted. -/
theorem C22_drag_clamps_position (s : State) (sel : Obj) (e : MouseEvent) (canvas : Canvas)
    (hD : s.isDragging = true) (hS : s.selectedItem = some sel) :
    ∃ sel' : Obj,
      (drag s e canvas).selectedItem = some sel' ∧
      sel'.val = { sel.val with
        x := max 0 (e.clientX - canvas.rect.left - s.dragOffset.x + canvas.scrollLeft),
        y := max 0 (e.clientY - canvas.rect.top - s.dragOffset.y + canvas.scrollTop) } ∧
      0 ≤ sel'.val.x ∧ 0 ≤ sel'.val.y ∧
      sel'.val.width = sel.val.width ∧ sel'.val.height = sel.val.height ∧
      sel'.val.zIndex = sel.val.zIndex ∧
      (drag s e canvas).placedItems = s.placedItems.map (fun o =>
        if o.ref = sel.ref then { o with val := { o.val with
          x := max 0 (e.clientX - canvas.rect.left - s.dragOffset.x + canvas.scrollLeft),
          y := max 0 (e.clientY - canvas.rect.top - s.dragOffset.y + canvas.scrollTop) } }
        else o) ∧
      (drag s e canvas).emitted = s.emitted := by
  refine ⟨Obj.assign sel.ref (fun it => { it with
      x := max 0 (e.clientX - canvas.rect.left - s.dragOffset.x + canvas.scrollLeft),
      y := max 0 (e.clientY - canvas.rect.top - s.dragOffset.y + canvas.scrollTop) }) sel,
    ?_, ?_, ?_, ?_, ?_, ?_, ?_, ?_, ?_⟩
  · simp [drag, hD, hS, mutate]
  · simp [Obj.assign]
  · simp [Obj.assign]
  · simp [Obj.assign]
  · simp [Obj.assign]
  · simp [Obj.assign]
  · simp [Obj.assign]
  · simp [drag, hD, hS, mutate, Obj.assign]
  · simp [drag, hD, hS, mutate]

/-- Witness of C22: a pointer left of the canvas puts the sample tree at x = 0. -/
theorem C22_drag_clamps_position_witness :
    sampleDragging.isDragging = true ∧
    sampleDragging.selectedItem = some ⟨0, sampleItem⟩ ∧
    ∃ sel' : Obj,
      (drag sampleDragging ⟨5, 240⟩ ⟨⟨10, 10⟩, 0, 0⟩).selectedItem = some sel' ∧
      0 ≤ sel'.val.x ∧ 0 ≤ sel'.val.y := by
  refine ⟨by decide, by decide, ?_⟩
  obtain ⟨sel', h1, _, h3, h4, _⟩ :=
    C22_drag_clamps_position sampleDragging ⟨0, sampleItem⟩ ⟨5, 240⟩ ⟨⟨10, 10⟩, 0, 0⟩
      (by decide) (by decide)
  exact ⟨sel', h1, h3, h4⟩

/-- Counterexample to C23 as stated: with a bench of z-index 2^53 in the list, bring
forward on the tree computes 2^53 + 1 in binary64, which is 2^53: the raised tree has the
z-index of the bench and is not strictly above it. -/
theorem C23_raised_item_equals_maximum :
    (⟨0, sampleItem⟩ : Obj) ∈ sampleHuge.placedItems ∧
    sampleHuge.items.map Item.zIndex = [.int 0, .int (2 ^ 53)] ∧
    (bringForward sampleHuge ⟨0, sampleItem⟩).items.map Item.zIndex =
      [.int (2 ^ 53), .int (2 ^ 53)] ∧
    ¬ ((.int (2 ^ 53) : ZIndex) < .int (2 ^ 53)) := by
  decide

/-- Claim C23, amended: for an item of the list, when the maximum zIndex of the list is an
integer `m` with magnitude below 2^53, bring forward sets the item's zIndex to `m + 1`, so
every other object of the list is strictly below it, and send backward sets it to
max(0, zIndex - 1), which is not negative; each appends exactly one `update_item`, carrying
the item with its new zIndex. -/
theorem C23_z_order_menu (s : State) (item : Obj) (m : Int) (h : item ∈ s.placedItems)
    (hmax : maxOf (s.placedItems.map (fun i => i.val.zIndex)) = .int m)
    (hlo : -2 ^ 53 < m) (hhi : m < 2 ^ 53) :
    ((∃ o ∈ s.placedItems, o.val.zIndex = .int m) ∧
      (∀ o ∈ s.placedItems, o.val.zIndex ≤ .int m) ∧
      (⟨item.ref, { item.val with zIndex := .int (m + 1) }⟩ : Obj) ∈
        (bringForward s item).placedItems ∧
      (∀ o ∈ (bringForward s item).placedItems, o.ref ≠ item.ref →
        o.val.zIndex < .int (m + 1)) ∧
      (bringForward s item).emitted =
        s.emitted ++ [.update_item s.alleyId { item.val with zIndex := .int (m + 1) }]) ∧
    (∃ z : Int,
      0 ≤ z ∧
      (∀ n : Int, item.val.zIndex = .int n → z = max 0 (n - 1)) ∧
      (item.val.zIndex = .negInfinity → z = 0) ∧
      (⟨item.ref, { item.val with zIndex := .int z }⟩ : Obj) ∈
        (sendBackward s item).placedItems ∧
      (sendBackward s item).emitted =
        s.emitted ++ [.update_item s.alleyId { item.val with zIndex := .int z }]) := by
  have hle : ∀ o ∈ s.placedItems, o.val.zIndex ≤ .int m := by
    intro o ho
    rw [← hmax]
    exact maxOf_ge _ _ (List.mem_map.mpr ⟨o, ho, rfl⟩)
  have hplus : (maxOf (s.placedItems.map (fun i => i.val.zIndex))).plusOne = .int (m + 1) := by
    rw [hmax]
    simp only [ZIndex.plusOne]
    by_cases hlt : m + 1 < 2 ^ 53
    · rw [toDouble_of_lt _ (natAbs_lt_of_bounds _ (by omega) hlt)]
    · have heq : m + 1 = 2 ^ 53 := by omega
      rw [heq, toDouble_two_pow_53]
  constructor
  · refine ⟨?_, hle, ?_, ?_, ?_⟩
    · obtain ⟨o, ho, hoz⟩ := List.mem_map.mp (maxOf_mem _ m hmax)
      exact ⟨o, ho, hoz⟩
    · simp only [bringForward, hplus, State.emit, mutate]
      exact List.mem_map.mpr ⟨item, h, by simp [Obj.assign]⟩
    · intro o ho hne
      simp only [bringForward, hplus, State.emit, mutate, List.mem_map] at ho
      obtain ⟨o2, ho2, rfl⟩ := ho
      unfold Obj.assign at hne ⊢
      split
      · rename_i heq
        simp [heq] at hne
      · exact zlt_int_succ_of_le (hle o2 ho2)
    · simp only [bringForward, hplus, State.emit, mutate]
  · cases hz : item.val.zIndex with
    | negInfinity =>
      refine ⟨0, le_refl _, ?_, fun _ => rfl, ?_, ?_⟩
      · intro n hn
        simp at hn
      · simp only [sendBackward, hz, ZIndex.minusOne, State.emit, mutate]
        exact List.mem_map.mpr ⟨item, h, by simp [Obj.assign, mathMax]⟩
      · simp only [sendBackward, hz, ZIndex.minusOne, State.emit, mutate, mathMax]
        rfl
    | int n =>
      have hn : n ≤ m := by
        have := hle item h
        rw [hz] at this
        exact this
      have hval : mathMax 0 (ZIndex.int n).minusOne = .int (max 0 (n - 1)) := by
        have h0 : (0 : ZIndex) = .int 0 := rfl
        rw [h0]
        simp only [ZIndex.minusOne, mathMax]
        by_cases hs : -2 ^ 53 < n - 1
        · rw [toDouble_of_lt _ (natAbs_lt_of_bounds _ hs (by omega))]
        · have hneg : n - 1 ≤ 0 := by omega
          have := toDouble_nonpos (n - 1) hneg
          rw [max_eq_left this, max_eq_left hneg]
      refine ⟨max 0 (n - 1), le_max_left _ _, ?_, ?_, ?_, ?_⟩
      · intro k hk
        simp only [ZIndex.int.injEq] at hk
        rw [hk]
      · intro hc
        simp at hc
      · simp only [sendBackward, hz, hval, State.emit, mutate]
        exact List.mem_map.mpr ⟨item, h, by simp [Obj.assign]⟩
      · simp only [sendBackward, hz, hval, State.emit, mutate]

/-- Witness of C23 amended: in the list of the tree (z-index 0) and the bench (z-index 4),
bring forward on the tree gives it z-index 5, and the bench stays strictly below. -/
theorem C23_z_order_menu_witness :
    (⟨0, sampleItem⟩ : Obj) ∈ sampleTwo.placedItems ∧
    maxOf (sampleTwo.placedItems.map (fun i => i.val.zIndex)) = .int 4 ∧
    (⟨0, { sampleItem with zIndex := .int 5 }⟩ : Obj) ∈
      (bringForward sampleTwo ⟨0, sampleItem⟩).placedItems ∧
    (∀ o ∈ (bringForward sampleTwo ⟨0, sampleItem⟩).placedItems, o.ref ≠ 0 →
      o.val.zIndex < .int 5) ∧
    (bringForward sampleTwo ⟨0, sampleItem⟩).items.map Item.zIndex = [.int 5, .int 4] :=
  ⟨by decide, by decide,
    (C23_z_order_menu sampleTwo ⟨0, sampleItem⟩ 4 (by decide) (by decide) (by decide)
      (by decide)).1.2.2.1,
    (C23_z_order_menu sampleTwo ⟨0, sampleItem⟩ 4 (by decide) (by decide) (by decide)
      (by decide)).1.2.2.2.1,
    by decide⟩

/-! ## Lemmas on the undo/redo history -/

namespace UndoRedoManager

variable {σ : Type}

theorem at?_append_last (pre : List σ) (st : σ) :
    at? (pre ++ [st]) (pre.length : Int) = some st := by
  simp [at?, List.get?_eq_getElem?]

theorem at?_tail_last (pre : List σ) (st : σ) (hne : pre ≠ []) :
    at? (pre ++ [st]).tail ((pre.length : Int) - 1) = some st := by
  cases pre with
  | nil => exact absurd rfl hne
  | cons a rest =>
    have : ((a :: rest).length : Int) - 1 = (rest.length : Int) := by simp
    rw [this]
    simpa using at?_append_last rest st

theorem length_slice0 (m : UndoRedoManager σ) (h : IndexInRange m) :
    ((slice0 m.history (m.currentIndex + 1)).length : Int) = m.currentIndex + 1 := by
  have h1 := h.lower
  have h2 := h.upper
  simp only [slice0, show (0 : Int) ≤ m.currentIndex + 1 by omega, if_true, List.length_take]
  omega

theorem push_spec (m : UndoRedoManager σ) (st : σ) (h : IndexInRange m)
    (hmax : 1 ≤ m.maxHistory) (hb : (m.history.length : Int) ≤ m.maxHistory) :
    Valid (m.push st) ∧ (m.push st).maxHistory = m.maxHistory ∧
    at? (m.push st).history (m.push st).currentIndex = some st ∧
    (m.push st).canRedo = false := by
  have hlen := length_slice0 m h
  have h1 := h.lower
  have h2 := h.upper
  generalize hpre : slice0 m.history (m.currentIndex + 1) = pre at hlen
  unfold push
  simp only [hpre, List.length_append, List.length_singleton]
  by_cases hgt : ((pre.length + 1 : Nat) : Int) > m.maxHistory
  · have hne : pre ≠ [] := by
      intro hnil
      rw [hnil] at hgt
      simp at hgt
      omega
    obtain ⟨a, rest, rfl⟩ := List.exists_cons_of_ne_nil hne
    simp only [hgt, if_true]
    simp only [List.length_cons] at hlen hgt
    refine ⟨⟨?_, ⟨?_, ?_⟩, ?_⟩, trivial, ?_, ?_⟩
    · simp; omega
    · simp; omega
    · simp; omega
    · constructor
      · intro hh; simp at hh; omega
      · intro hh; simp at hh
    · have := at?_tail_last (a :: rest) st hne
      simp only [List.length_cons] at this
      rw [← hlen]
      simpa using this
    · simp [canRedo]; omega
  · simp only [hgt, if_false]
    refine ⟨⟨?_, ⟨?_, ?_⟩, ?_⟩, trivial, ?_, ?_⟩
    · simp; push_cast at hgt; omega
    · simp; omega
    · simp; omega
    · simp; omega
    · have := at?_append_last pre st
      rw [← hlen]
      simpa using this
    · simp [canRedo]; omega

theorem valid_create (maxHistory : Int) (h : 1 ≤ maxHistory) :
    Valid (create maxHistory : UndoRedoManager σ) :=
  ⟨by simp [create]; omega, ⟨by simp [create], by simp [create]⟩, by simp [create]⟩

theorem valid_undo (m : UndoRedoManager σ) (h : Valid m) :
    Valid m.afterUndo ∧ m.afterUndo.maxHistory = m.maxHistory := by
  unfold afterUndo
  by_cases hc : m.canUndo = true
  · simp only [hc, if_true]
    simp only [canUndo, decide_eq_true_eq] at hc
    have h1 := h.inRange.lower
    have h2 := h.inRange.upper
    refine ⟨⟨h.bounded, ⟨by simp; omega, by simp; omega⟩, ?_⟩, trivial⟩
    constructor
    · intro hh; simp at hh; omega
    · intro hh
      have := h.empty_iff.mpr hh
      omega
  · simp only [hc]
    exact ⟨h, rfl⟩

theorem valid_redo (m : UndoRedoManager σ) (h : Valid m) :
    Valid m.afterRedo ∧ m.afterRedo.maxHistory = m.maxHistory := by
  unfold afterRedo
  by_cases hc : m.canRedo = true
  · simp only [hc, if_true]
    simp only [canRedo, decide_eq_true_eq] at hc
    have h1 := h.inRange.lower
    have h2 := h.inRange.upper
    refine ⟨⟨h.bounded, ⟨by simp; omega, by simp; omega⟩, ?_⟩, trivial⟩
    constructor
    · intro hh; simp at hh; omega
    · intro hh
      simp only at hh
      rw [hh] at hc
      simp at hc
      omega
  · simp only [hc]
    exact ⟨h, rfl⟩

theorem valid_call (m : UndoRedoManager σ) (c : Call σ) (h : Valid m)
    (hmax : 1 ≤ m.maxHistory) :
    Valid (m.call c) ∧ (m.call c).maxHistory = m.maxHistory := by
  cases c with
  | push st =>
    have := push_spec m st h.inRange hmax h.bounded
    exact ⟨this.1, this.2.1⟩
  | undo => exact valid_undo m h
  | redo => exact valid_redo m h
  | clear =>
    refine ⟨⟨?_, ⟨by simp [call, clear], by simp [call, clear]⟩, by simp [call, clear]⟩, rfl⟩
    simp [call, clear]; omega

theorem valid_calls (cs : List (Call σ)) (m : UndoRedoManager σ) (h : Valid m)
    (hmax : 1 ≤ m.maxHistory) :
    Valid (m.calls cs) ∧ (m.calls cs).maxHistory = m.maxHistory := by
  induction cs generalizing m with
  | nil => exact ⟨h, rfl⟩
  | cons c rest ih =>
    have hc := valid_call m c h hmax
    have := ih (m.call c) hc.1 (by rw [hc.2]; exact hmax)
    simp only [calls, List.foldl_cons] at this ⊢
    exact ⟨this.1, by rw [this.2, hc.2]⟩

theorem at?_isSome (l : List σ) (i : Int) (h0 : 0 ≤ i) (h1 : i < (l.length : Int)) :
    ∃ st, at? l i = some st := by
  have hlt : i.toNat < l.length := by omega
  exact ⟨l[i.toNat], by simp [at?, h0, List.get?_eq_getElem?, List.getElem?_eq_getElem hlt]⟩

theorem mem_of_at? (l : List σ) (i : Int) (st : σ) (h : at? l i = some st) : st ∈ l := by
  unfold at? at h
  split at h
  · exact List.get?_mem h
  · simp at h

theorem with_index_ne (m : UndoRedoManager σ) (i : Int) (h : i ≠ m.currentIndex) :
    ({ m with currentIndex := i } : UndoRedoManager σ) ≠ m := by
  intro hh
  exact h (congrArg UndoRedoManager.currentIndex hh)

end UndoRedoManager

/-- Claim C24: with `maxHistory` at least 1, after every sequence of push, undo, redo and
clear on a new manager the history is no longer than `maxHistory`, the current index lies
between -1 and the last index, and it is -1 exactly when the history is empty; a further
push makes the pushed state the current one and leaves `canRedo()` false. -/
theorem C24_history_invariant {σ : Type} (maxHistory : Int) (hmax : 1 ≤ maxHistory) (cs : List (UndoRedoManager.Call σ)) :
    UndoRedoManager.Valid ((UndoRedoManager.create maxHistory).calls cs) ∧
    ∀ state : σ,
      UndoRedoManager.at? (((UndoRedoManager.create maxHistory).calls cs).push state).history
        (((UndoRedoManager.create maxHistory).calls cs).push state).currentIndex = some state ∧
      (((UndoRedoManager.create maxHistory).calls cs).push state).canRedo = false := by
  have hv := UndoRedoManager.valid_calls cs (UndoRedoManager.create maxHistory : UndoRedoManager σ)
    (UndoRedoManager.valid_create maxHistory hmax) hmax
  refine ⟨hv.1, fun state => ?_⟩
  have hm : 1 ≤ ((UndoRedoManager.create maxHistory : UndoRedoManager σ).calls cs).maxHistory := by
    rw [hv.2]; exact hmax
  have := UndoRedoManager.push_spec _ state hv.1.inRange hm hv.1.bounded
  exact ⟨this.2.2.1, this.2.2.2⟩

/-- Witness of C24: a manager with limit 3 after four pushes and an undo. -/
theorem C24_history_invariant_witness :
    (1 : Int) ≤ 3 ∧
    UndoRedoManager.Valid ((UndoRedoManager.create 3).calls
      [.push (10 : Nat), .push 20, .push 30, .push 40, .undo]) :=
  ⟨by decide,
    (C24_history_invariant 3 (by decide)
      [.push (10 : Nat), .push 20, .push 30, .push 40, .undo]).1⟩

/-- Counterexample to C29 as stated: after `push(null)` and `push(1)` the index is 1 and
`canUndo()` holds, yet `undo()` returns `null`, the state stored at index 0, and it moves
the index to 0. -/
theorem C29_undo_returns_stored_null :
    nullThenOne.history = [none, some 1] ∧ nullThenOne.currentIndex = 1 ∧
    nullThenOne.canUndo = true ∧
    nullThenOne.undo.1 = .value none ∧
    nullThenOne.undo.2.currentIndex = 0 ∧
    nullThenOne.undo.2 ≠ nullThenOne := by
  decide

/-- Claim C29, amended: in a manager whose index is in range, when `canUndo()` holds
`undo()` then `redo()` returns the state that was current before the undo and leaves the
manager as it was. `undo()` changes nothing exactly when the index is at most 0, and then
it returns null; when the index is above 0 it returns the state stored just below the
index, so, when no stored state is null, it returns null exactly when the index is at most
0. The same holds for `redo()` with the last index and the state stored just above. -/
theorem C29_undo_redo_roundtrip {τ : Type} (m : UndoRedoManager (Option τ))
    (h : UndoRedoManager.IndexInRange m) :
    (m.canUndo = true →
      (∃ st, UndoRedoManager.at? m.history m.currentIndex = some st ∧
        m.undo.2.redo.1 = .value st) ∧
      m.undo.2.redo.2 = m) ∧
    ((m.undo.2 = m ↔ m.currentIndex ≤ 0) ∧
      (m.currentIndex ≤ 0 → m.undo.1 = .value none) ∧
      (0 < m.currentIndex →
        ∃ st, UndoRedoManager.at? m.history (m.currentIndex - 1) = some st ∧
          m.undo.1 = .value st) ∧
      ((∀ st ∈ m.history, st ≠ none) → (m.undo.1 = .value none ↔ m.currentIndex ≤ 0))) ∧
    ((m.redo.2 = m ↔ m.currentIndex = (m.history.length : Int) - 1) ∧
      (m.currentIndex = (m.history.length : Int) - 1 → m.redo.1 = .value none) ∧
      (m.currentIndex < (m.history.length : Int) - 1 →
        ∃ st, UndoRedoManager.at? m.history (m.currentIndex + 1) = some st ∧
          m.redo.1 = .value st) ∧
      ((∀ st ∈ m.history, st ≠ none) →
        (m.redo.1 = .value none ↔ m.currentIndex = (m.history.length : Int) - 1))) := by
  have h1 := h.lower
  have h2 := h.upper
  have hundo : 0 < m.currentIndex →
      ∃ st, UndoRedoManager.at? m.history (m.currentIndex - 1) = some st ∧
        m.undo.1 = .value st := by
    intro hpos
    have hc : m.canUndo = true := by simpa [UndoRedoManager.canUndo] using hpos
    obtain ⟨st, hst⟩ := UndoRedoManager.at?_isSome m.history (m.currentIndex - 1)
      (by omega) (by omega)
    exact ⟨st, hst, by simp only [UndoRedoManager.undo, hc, if_true,
      UndoRedoManager.copyAt, hst]⟩
  have hundo0 : m.currentIndex ≤ 0 → m.undo = (.value none, m) := by
    intro hle
    have hc : m.canUndo = false := by simpa [UndoRedoManager.canUndo] using hle
    simp [UndoRedoManager.undo, hc]
  have hredo : m.currentIndex < (m.history.length : Int) - 1 →
      ∃ st, UndoRedoManager.at? m.history (m.currentIndex + 1) = some st ∧
        m.redo.1 = .value st := by
    intro hlt
    have hc : m.canRedo = true := by simpa [UndoRedoManager.canRedo] using hlt
    obtain ⟨st, hst⟩ := UndoRedoManager.at?_isSome m.history (m.currentIndex + 1)
      (by omega) (by omega)
    exact ⟨st, hst, by simp only [UndoRedoManager.redo, hc, if_true,
      UndoRedoManager.copyAt, hst]⟩
  have hredo0 : m.currentIndex = (m.history.length : Int) - 1 → m.redo = (.value none, m) := by
    intro heq
    have hc : m.canRedo = false := by simp [UndoRedoManager.canRedo, heq]
    simp [UndoRedoManager.redo, hc]
  refine ⟨?_, ⟨?_, ?_, hundo, ?_⟩, ⟨?_, ?_, hredo, ?_⟩⟩
  · intro hc
    have hpos : m.currentIndex > 0 := by simpa [UndoRedoManager.canUndo] using hc
    obtain ⟨st, hst⟩ := UndoRedoManager.at?_isSome m.history m.currentIndex (by omega) h2
    have hr : ({ m with currentIndex := m.currentIndex - 1 } :
        UndoRedoManager (Option τ)).canRedo = true := by
      simp [UndoRedoManager.canRedo]; omega
    simp only [UndoRedoManager.undo, hc, if_true, UndoRedoManager.redo, hr,
      Int.sub_add_cancel, UndoRedoManager.copyAt, hst]
    exact ⟨⟨st, rfl, rfl⟩, trivial⟩
  · constructor
    · intro hh
      by_contra hpos
      have hc : m.canUndo = true := by simp [UndoRedoManager.canUndo]; omega
      simp only [UndoRedoManager.undo, hc, if_true] at hh
      exact UndoRedoManager.with_index_ne m _ (by omega) hh
    · intro hle
      rw [hundo0 hle]
  · intro hle
    rw [hundo0 hle]
  · intro hnn
    constructor
    · intro hnull
      by_contra hpos
      obtain ⟨st, hst, hval⟩ := hundo (by omega)
      rw [hval] at hnull
      have hmem : st ∈ m.history := UndoRedoManager.mem_of_at? _ _ _ hst
      exact hnn st hmem (UndoRedoManager.Returned.value.inj hnull)
    · intro hle
      rw [hundo0 hle]
  · constructor
    · intro hh
      by_contra hne
      have hc : m.canRedo = true := by simp [UndoRedoManager.canRedo]; omega
      simp only [UndoRedoManager.redo, hc, if_true] at hh
      exact UndoRedoManager.with_index_ne m _ (by omega) hh
    · intro heq
      rw [hredo0 heq]
  · intro heq
    rw [hredo0 heq]
  · intro hnn
    constructor
    · intro hnull
      by_contra hne
      obtain ⟨st, hst, hval⟩ := hredo (by omega)
      rw [hval] at hnull
      have hmem : st ∈ m.history := UndoRedoManager.mem_of_at? _ _ _ hst
      exact hnn st hmem (UndoRedoManager.Returned.value.inj hnull)
    · intro heq
      rw [hredo0 heq]

/-- Witness of C29 amended: the sample manager can undo, and undo then redo restores it. -/
theorem C29_undo_redo_roundtrip_witness :
    UndoRedoManager.IndexInRange sampleManager ∧ sampleManager.canUndo = true ∧
    sampleManager.undo.2.redo.2 = sampleManager ∧
    sampleManager.undo.2.redo.1 = .value (some 30) :=
  ⟨⟨by decide, by decide⟩, by decide,
    ((C29_undo_redo_roundtrip sampleManager ⟨by decide, by decide⟩).1 (by decide)).2,
    by decide⟩

/-- Claim C25, evaluated where the code departs from it: an art item at the bottom edge of
a 1000 by 600 canvas (x = 500, y = 600) is placed at height -1, below the range 0.5 to 3.5
that the source's comment gives for `normalizedY`. -/
theorem C25_bottom_edge_maps_below_range :
    wallPosition bottomMural ⟨1000, 600⟩ = ⟨0, -1, 5 / 2⟩ ∧
    load2DDesignData (some ⟨some "alley-1", [bottomMural], ⟨1000, 600⟩, 1700000000000⟩)
      = [⟨0, -1, 5 / 2⟩] ∧
    ¬ ((1 / 2 : ℚ) ≤ (wallPosition bottomMural ⟨1000, 600⟩).y) := by
  have h : wallPosition bottomMural ⟨1000, 600⟩ = ⟨0, -1, 5 / 2⟩ := by
    simp only [wallPosition, bottomMural]
    norm_num
  refine ⟨h, ?_, ?_⟩
  · have h2 : load2DDesignData
        (some ⟨some "alley-1", [bottomMural], ⟨1000, 600⟩, 1700000000000⟩) =
        [wallPosition bottomMural ⟨1000, 600⟩] := rfl
    rw [h2, h]
  · rw [h]; norm_num

/-- Claim C26, evaluated where the code departs from it: with `BASE_DIR` /srv/app, the
request path /../app-backup/secret.txt joins to /srv/app-backup/secret.txt, which starts
with the characters of `BASE_DIR`, so the check passes, the path is handed to `fs.stat` and
`fs.readFile` and the answer is 200, though the path is not inside `BASE_DIR`. -/
theorem C26_sibling_directory_passes_check :
    handleRequest "/srv/app" siblingStat allReadable "/../app-backup/secret.txt" =
      ⟨200, ["/srv/app-backup/secret.txt", "/srv/app-backup/secret.txt"]⟩ ∧
    insideBase "/srv/app" "/srv/app-backup/secret.txt" = false := by
  decide

/-- Counterexample to C27 as stated: with the default options a PNG of exactly 10 MB, a
size that is not less than `maxSize`, is valid with no error. -/
theorem C27_size_equal_to_limit_accepted :
    Validator.validateFile (some ⟨"image/png", 10 * 1024 * 1024⟩) ⟨none, none⟩ =
      ⟨true, []⟩ ∧
    ¬ ((10 * 1024 * 1024 : Int) < Validator.defaultMaxSize) := by
  decide

/-- Claim C27, amended: `validateFile` returns valid exactly when a file is given, its type
is in `allowedTypes` and its size is at most `maxSize` (10 MB by default); a file is
rejected with the size error exactly when its size is greater than `maxSize`, and with the
type error exactly when its type is not allowed; a missing file yields exactly the single
error for no file; and valid is true exactly when the errors list is empty. -/
theorem C27_valid_iff_size_at_most_limit (options : FileOptions) :
    Validator.validateFile none options = ⟨false, [.noFileSelected]⟩ ∧
    (∀ f : UploadFile,
      ((Validator.validateFile (some f) options).valid = true ↔
        f.type_ ∈ options.allowedTypes.getD Validator.defaultAllowedTypes ∧
        f.size ≤ options.maxSize.getD Validator.defaultMaxSize) ∧
      (FileError.sizeMustBeLessThan (options.maxSize.getD Validator.defaultMaxSize) ∈
          (Validator.validateFile (some f) options).errors ↔
        options.maxSize.getD Validator.defaultMaxSize < f.size) ∧
      (FileError.typeNotAllowed (options.allowedTypes.getD Validator.defaultAllowedTypes) ∈
          (Validator.validateFile (some f) options).errors ↔
        f.type_ ∉ options.allowedTypes.getD Validator.defaultAllowedTypes) ∧
      FileError.noFileSelected ∉ (Validator.validateFile (some f) options).errors) ∧
    (∀ file : Option UploadFile,
      (Validator.validateFile file options).valid = true ↔
        (Validator.validateFile file options).errors = []) ∧
    Validator.defaultMaxSize = 10 * 1024 * 1024 := by
  refine ⟨rfl, ?_, ?_, rfl⟩
  · intro f
    simp only [Validator.validateFile]
    by_cases ht : f.type_ ∈ options.allowedTypes.getD Validator.defaultAllowedTypes <;>
      by_cases hs : f.size > options.maxSize.getD Validator.defaultMaxSize <;>
      simp [ht, hs] <;> omega
  · intro file
    cases file with
    | none => simp [Validator.validateFile]
    | some f => simp [Validator.validateFile]

/-- Claim C28, evaluated where the code departs from it: `improvements.shade` is a number
(60) for alley 1 only; for the other eleven alleys it is not a number, although vision and
baseline shade coverage are both given there. -/
theorem C28_shade_undefined_for_eleven_alleys :
    getAllAlleys.map (fun a =>
      (createScenario none "Canopy" a.id "Tree Canopy" "Shade first" 1700000000000
        "2023-11-14T22:13:20.000Z").2.improvements.shade) =
      [some 60, none, none, none, none, none, none, none, none, none, none, none] ∧
    getAllAlleys.map (fun a => jsSub a.vision.shadeCoverage a.baseline.shadeCoverage) =
      [none, some 52, some 65, some 56, some 60, some 54, some 61, some 57, some 60, some 55,
        some 63, some 58] := by
  decide

/-- Claim C30, evaluated where the code departs from it: when `Date.now()` reads the same
millisecond throughout one `generateSampleData` run, the twelve scenarios get one and the
same id, and a confirmed `deleteScenario` on that id removes all twelve. -/
theorem C30_same_millisecond_same_id :
    (getScenariosFromStorage (generateSampleData none sameMillisecond)).map Scenario.id =
      List.replicate 12 "scenario-1700000000000" ∧
    getScenariosFromStorage
      (deleteScenario (generateSampleData none sameMillisecond) "scenario-1700000000000" true)
      = [] := by
  decide

/-! ## Lemmas on aliasing -/

theorem map_assign_of_ne (r : Nat) (f : Item → Item) (l : List Obj)
    (h : ∀ p ∈ l, p.ref ≠ r) : l.map (Obj.assign r f) = l := by
  induction l with
  | nil => rfl
  | cons a rest ih =>
    have ha : a.ref ≠ r := h a (List.mem_cons_self _ _)
    simp only [List.map_cons, ih (fun p hp => h p (List.mem_cons_of_mem _ hp))]
    simp [Obj.assign, ha]

theorem ref_assign (r : Nat) (f : Item → Item) (o : Obj) : (Obj.assign r f o).ref = o.ref := by
  unfold Obj.assign
  split <;> rfl

theorem map_ref_assign (r : Nat) (f : Item → Item) (l : List Obj) :
    (l.map (Obj.assign r f)).map Obj.ref = l.map Obj.ref := by
  simp only [List.map_map]
  apply List.map_congr_left
  intro o _
  exact ref_assign r f o

/-- The list around the first entry found by id. -/
theorem find_split (l : List Obj) (itemId : String) (o : Obj)
    (h : l.find? (fun p => p.val.id == itemId) = some o) :
    o.val.id = itemId ∧ ∃ pre post, l = pre ++ o :: post ∧ ∀ p ∈ pre, p.val.id ≠ itemId := by
  induction l with
  | nil => simp at h
  | cons a rest ih =>
    by_cases ha : a.val.id = itemId
    · have : a = o := by simpa [List.find?_cons, ha] using h
      subst this
      exact ⟨ha, [], rest, rfl, fun p hp => by simp at hp⟩
    · have hr : rest.find? (fun p => p.val.id == itemId) = some o := by
        simpa [List.find?_cons, ha] using h
      obtain ⟨hid, pre, post, hl, hpre⟩ := ih hr
      refine ⟨hid, a :: pre, post, by rw [hl]; rfl, ?_⟩
      intro p hp
      rcases List.mem_cons.mp hp with rfl | hp
      · exact ha
      · exact hpre p hp

theorem refs_ne_of_nodup (pre post : List Obj) (o : Obj)
    (h : ((pre ++ o :: post).map Obj.ref).Nodup) :
    (∀ p ∈ pre, p.ref ≠ o.ref) ∧ (∀ p ∈ post, p.ref ≠ o.ref) := by
  rw [List.map_append, List.map_cons, List.nodup_append] at h
  obtain ⟨_, h2, h3⟩ := h
  constructor
  · intro p hp heq
    exact h3 (List.mem_map.mpr ⟨p, hp, rfl⟩) (by rw [heq]; exact List.mem_cons_self _ _)
  · intro p hp heq
    have := (List.nodup_cons.mp h2).1
    exact this (by rw [← heq]; exact List.mem_map.mpr ⟨p, hp, rfl⟩)

theorem map_assign_split (r : Nat) (v : Item) (f : Item → Item) (pre post : List Obj)
    (hpre : ∀ p ∈ pre, p.ref ≠ r) (hpost : ∀ p ∈ post, p.ref ≠ r) :
    (pre ++ ⟨r, v⟩ :: post).map (Obj.assign r f) = pre ++ ⟨r, f v⟩ :: post := by
  rw [List.map_append, List.map_cons, map_assign_of_ne r f pre hpre,
    map_assign_of_ne r f post hpost]
  simp [Obj.assign]

theorem update_split (pre post : List Item) (v u : Item) (hid : v.id = u.id)
    (hpre : ∀ p ∈ pre, p.id ≠ u.id) :
    Reference.update (pre ++ v :: post) u = pre ++ u :: post := by
  induction pre with
  | nil => simp [Reference.update, hid]
  | cons a rest ih =>
    have ha : a.id ≠ u.id := hpre a (List.mem_cons_self _ _)
    have := ih (fun p hp => hpre p (List.mem_cons_of_mem _ hp))
    show Reference.update (a :: (rest ++ v :: post)) u = a :: (rest ++ u :: post)
    simp only [Reference.update, ha, if_false, this]

theorem update_of_absent (l : List Item) (u : Item) (h : ∀ p ∈ l, p.id ≠ u.id) :
    Reference.update l u = l := by
  induction l with
  | nil => rfl
  | cons a rest ih =>
    have ha : a.id ≠ u.id := h a (List.mem_cons_self _ _)
    simp only [Reference.update, ha, if_false]
    rw [ih (fun p hp => h p (List.mem_cons_of_mem _ hp))]

/-- The invariant only looks at the list, the elements and the allocation counter. -/
theorem aliasing_of_eq {s t : State} (h : Aliasing s) (h1 : t.placedItems = s.placedItems)
    (h2 : t.elements = s.elements) (h3 : t.nextRef = s.nextRef) : Aliasing t :=
  ⟨by rw [h1]; exact h.distinct, by rw [h1, h3]; exact h.listedBelow,
    by rw [h2, h3]; exact h.renderedBelow, by rw [h1, h2]; exact h.coherent⟩

theorem aliasing_mutate {s : State} (h : Aliasing s) (r : Nat) (f : Item → Item) :
    Aliasing (mutate s r f) := by
  refine ⟨?_, ?_, ?_, ?_⟩
  · simp only [mutate, map_ref_assign]
    exact h.distinct
  · intro o ho
    simp only [mutate, List.mem_map] at ho
    obtain ⟨o2, ho2, rfl⟩ := ho
    rw [ref_assign]
    exact h.listedBelow o2 ho2
  · intro o ho
    simp only [mutate, List.mem_map] at ho
    obtain ⟨o2, ho2, rfl⟩ := ho
    rw [ref_assign]
    exact h.renderedBelow o2 ho2
  · intro e he p hp heq
    simp only [mutate, List.mem_map] at he hp
    obtain ⟨e2, he2, rfl⟩ := he
    obtain ⟨p2, hp2, rfl⟩ := hp
    rw [ref_assign, ref_assign] at heq
    rw [h.coherent e2 he2 p2 hp2 heq]

theorem aliasing_emit {s : State} (h : Aliasing s) (ev : OutEvent) : Aliasing (s.emit ev) :=
  aliasing_of_eq h rfl rfl rfl

theorem aliasing_drag {s : State} (h : Aliasing s) (e : MouseEvent) (canvas : Canvas) :
    Aliasing (drag s e canvas) := by
  unfold drag
  split
  · exact aliasing_mutate h _ _
  · exact h

theorem aliasing_resize {s : State} (h : Aliasing s) (e : MouseEvent) (canvas : Canvas) :
    Aliasing (resize s e canvas) := by
  unfold resize
  split
  · exact aliasing_mutate h _ _
  · exact h

theorem aliasing_mousemove {s : State} (h : Aliasing s) (e : MouseEvent) (canvas : Canvas) :
    Aliasing (mousemove s e canvas) := by
  unfold mousemove
  generalize s.moveListeners = ls
  induction ls generalizing s with
  | nil => exact h
  | cons l rest ih =>
    rw [List.foldl_cons]
    apply ih
    cases l
    · exact aliasing_drag h e canvas
    · exact aliasing_resize h e canvas

theorem aliasing_moves (ms : List (MouseEvent × Canvas)) {s : State} (h : Aliasing s) :
    Aliasing (moves s ms) := by
  unfold moves
  induction ms generalizing s with
  | nil => exact h
  | cons m rest ih =>
    rw [List.foldl_cons]
    exact ih (aliasing_mousemove h m.1 m.2)

theorem aliasing_stopDrag {s : State} (h : Aliasing s) : Aliasing (stopDrag s) := by
  unfold stopDrag
  split
  · exact aliasing_of_eq h rfl rfl rfl
  · exact aliasing_of_eq h rfl rfl rfl

theorem aliasing_stopResize {s : State} (h : Aliasing s) : Aliasing (stopResize s) := by
  unfold stopResize
  split
  · exact aliasing_of_eq h rfl rfl rfl
  · exact aliasing_of_eq h rfl rfl rfl

theorem aliasing_mouseup {s : State} (h : Aliasing s) : Aliasing (mouseup s) := by
  unfold mouseup
  generalize s.upListeners = ls
  induction ls generalizing s with
  | nil => exact h
  | cons l rest ih =>
    rw [List.foldl_cons]
    apply ih
    cases l
    · exact aliasing_stopDrag h
    · exact aliasing_stopResize h

theorem aliasing_mousedown {s : State} (h : Aliasing s) (e : MouseEvent) (target : Target)
    (itemId : String) (rect : Rect) : Aliasing (mousedown s e target itemId rect) := by
  cases target
  · simp only [mousedown, startDrag]
    split
    · exact aliasing_of_eq h rfl rfl rfl
    · exact aliasing_of_eq h rfl rfl rfl
  · exact aliasing_of_eq h rfl rfl rfl
  · exact h

theorem aliasing_menuHandler {s : State} (h : Aliasing s) (action : MenuAction) (item : Obj) :
    Aliasing (menuHandler action s item) := by
  cases action <;> exact aliasing_emit (aliasing_mutate h _ _) _

theorem mem_replaceFirst {α : Type} (p : α → Bool) (u : α) (l : List α) :
    ∀ q ∈ replaceFirst p u l, q ∈ l ∨ q = u := by
  induction l with
  | nil => intro q hq; simp [replaceFirst] at hq
  | cons a rest ih =>
    intro q hq
    by_cases ha : p a = true
    · simp only [replaceFirst, ha, if_true, List.mem_cons] at hq
      rcases hq with rfl | hq
      · exact Or.inr rfl
      · exact Or.inl (List.mem_cons_of_mem _ hq)
    · have ha2 : p a = false := by simpa using ha
      simp only [replaceFirst, ha2, Bool.false_eq_true, if_false, List.mem_cons] at hq
      rcases hq with rfl | hq
      · exact Or.inl (List.mem_cons_self _ _)
      · rcases ih q hq with h | h
        · exact Or.inl (List.mem_cons_of_mem _ h)
        · exact Or.inr h

theorem nodup_refs_replaceFirst (p : Obj → Bool) (n : Nat) (u : Item) (l : List Obj)
    (hd : (l.map Obj.ref).Nodup) (hb : ∀ o ∈ l, o.ref < n) :
    ((replaceFirst p ⟨n, u⟩ l).map Obj.ref).Nodup := by
  induction l with
  | nil => simp [replaceFirst]
  | cons a rest ih =>
    rw [List.map_cons, List.nodup_cons] at hd
    by_cases ha : p a = true
    · simp only [replaceFirst, ha, if_true, List.map_cons, List.nodup_cons]
      refine ⟨?_, hd.2⟩
      intro hmem
      obtain ⟨o, ho, href⟩ := List.mem_map.mp hmem
      have := hb o (List.mem_cons_of_mem _ ho)
      omega
    · have ha2 : p a = false := by simpa using ha
      simp only [replaceFirst, ha2, Bool.false_eq_true, if_false, List.map_cons,
        List.nodup_cons]
      refine ⟨?_, ih hd.2 (fun o ho => hb o (List.mem_cons_of_mem _ ho))⟩
      intro hmem
      obtain ⟨o, ho, href⟩ := List.mem_map.mp hmem
      rcases mem_replaceFirst p ⟨n, u⟩ rest o ho with h | h
      · exact hd.1 (by rw [← href]; exact List.mem_map.mpr ⟨o, h, rfl⟩)
      · have := hb a (List.mem_cons_self _ _)
        rw [h] at href
        simp only at href
        omega

theorem on_item_updated_eq (s : State) (u : Item) :
    on_item_updated s u = s ∨
    on_item_updated s u =
      { s with placedItems := replaceFirst (fun o => o.val.id == u.id) ⟨s.nextRef, u⟩
                 s.placedItems,
               nextRef := s.nextRef + 1 } := by
  have h := findIdx_set_eq_replaceFirst (fun o : Obj => o.val.id == u.id) ⟨s.nextRef, u⟩
    s.placedItems
  unfold on_item_updated
  cases hk : s.placedItems.findIdx? (fun o => o.val.id == u.id) with
  | none => exact Or.inl rfl
  | some k =>
    right
    rw [hk] at h
    simp only at h
    simp only [h]

theorem aliasing_on_item_updated {s : State} (h : Aliasing s) (u : Item) :
    Aliasing (on_item_updated s u) := by
  rcases on_item_updated_eq s u with he | he
  · rw [he]; exact h
  · rw [he]
    refine ⟨nodup_refs_replaceFirst _ _ _ _ h.distinct h.listedBelow, ?_, ?_, ?_⟩
    · intro o ho
      rcases mem_replaceFirst _ _ _ o ho with hm | hm
      · exact Nat.lt_succ_of_lt (h.listedBelow o hm)
      · rw [hm]; exact Nat.lt_succ_self _
    · intro o ho
      exact Nat.lt_succ_of_lt (h.renderedBelow o ho)
    · intro e he2 p hp heq
      rcases mem_replaceFirst _ _ _ p hp with hm | hm
      · exact h.coherent e he2 p hm heq
      · have := h.renderedBelow e he2
        rw [hm] at heq
        simp only at heq
        omega

theorem aliasing_push {s : State} (h : Aliasing s) (item : Item) (els : List Obj)
    (hels : els = s.elements ∨ els = s.elements ++ [⟨s.nextRef, item⟩]) :
    Aliasing { s with placedItems := s.placedItems ++ [⟨s.nextRef, item⟩],
                      nextRef := s.nextRef + 1, elements := els } := by
  have hsub : ∀ e ∈ els, e ∈ s.elements ∨ e = ⟨s.nextRef, item⟩ := by
    intro e he
    rcases hels with rfl | rfl
    · exact Or.inl he
    · rcases List.mem_append.mp he with h1 | h1
      · exact Or.inl h1
      · exact Or.inr (List.mem_singleton.mp h1)
  refine ⟨?_, ?_, ?_, ?_⟩
  · simp only [List.map_append, List.map_cons, List.map_nil]
    refine List.Nodup.append h.distinct (List.nodup_singleton _) ?_
    intro r hr hr2
    obtain ⟨o, ho, rfl⟩ := List.mem_map.mp hr
    have := h.listedBelow o ho
    simp only [List.mem_singleton] at hr2
    omega
  · intro o ho
    simp only [List.mem_append, List.mem_singleton] at ho
    rcases ho with ho | rfl
    · exact Nat.lt_succ_of_lt (h.listedBelow o ho)
    · exact Nat.lt_succ_self _
  · intro e he
    rcases hsub e he with h1 | rfl
    · exact Nat.lt_succ_of_lt (h.renderedBelow e h1)
    · exact Nat.lt_succ_self _
  · intro e he p hp heq
    simp only [List.mem_append, List.mem_singleton] at hp
    rcases hsub e he with h1 | rfl
    · rcases hp with hp | rfl
      · exact h.coherent e h1 p hp heq
      · have := h.renderedBelow e h1
        simp only at heq
        omega
    · rcases hp with hp | rfl
      · have := h.listedBelow p hp
        simp only at heq
        omega
      · rfl

theorem on_item_added_cases (s : State) (item : Item) :
    ∃ els, (els = s.elements ∨ els = s.elements ++ [⟨s.nextRef, item⟩]) ∧
      on_item_added s item =
        { s with placedItems := s.placedItems ++ [⟨s.nextRef, item⟩],
                 nextRef := s.nextRef + 1, elements := els } := by
  cases hr : renderItem
    { s with placedItems := s.placedItems ++ [⟨s.nextRef, item⟩], nextRef := s.nextRef + 1 }
    ⟨s.nextRef, item⟩ with
  | none =>
    refine ⟨s.elements, Or.inl rfl, ?_⟩
    simp only [on_item_added, hr, Option.getD_none]
  | some s2 =>
    have := renderItem_eq _ s2 _ hr
    refine ⟨s.elements ++ [⟨s.nextRef, item⟩], Or.inr rfl, ?_⟩
    simp only [on_item_added, hr, Option.getD_some, this]

theorem aliasing_of_sublist {s t : State} (h : Aliasing s)
    (h1 : t.placedItems.Sublist s.placedItems) (h2 : t.elements.Sublist s.elements)
    (h3 : t.nextRef = s.nextRef) : Aliasing t :=
  ⟨h.distinct.sublist (h1.map _),
    fun o ho => by rw [h3]; exact h.listedBelow o (h1.subset ho),
    fun o ho => by rw [h3]; exact h.renderedBelow o (h2.subset ho),
    fun e he p hp heq => h.coherent e (h2.subset he) p (h1.subset hp) heq⟩

theorem deleteItem_fields (s : State) (itemId : String) :
    (deleteItem s itemId).placedItems = s.placedItems.filter (fun o => o.val.id != itemId) ∧
    (deleteItem s itemId).elements = removeElement s.elements itemId ∧
    (deleteItem s itemId).nextRef = s.nextRef ∧
    (deleteItem s itemId).moveListeners = s.moveListeners ∧
    (deleteItem s itemId).upListeners = s.upListeners := by
  unfold deleteItem
  simp only [State.emit]
  cases hs : s.selectedItem with
  | none => exact ⟨rfl, rfl, rfl, rfl, rfl⟩
  | some sel =>
    by_cases h : sel.val.id = itemId
    · simp [h]
    · simp [h]

theorem aliasing_deleteItem {s : State} (h : Aliasing s) (itemId : String) :
    Aliasing (deleteItem s itemId) := by
  obtain ⟨h1, h2, h3, _, _⟩ := deleteItem_fields s itemId
  exact aliasing_of_sublist h (by rw [h1]; exact List.filter_sublist _)
    (by rw [h2]; exact List.eraseP_sublist _) h3

/-! ## Lemmas on gestures as updates -/

theorem moves_cons (t : State) (m : MouseEvent × Canvas) (ms : List (MouseEvent × Canvas)) :
    moves t (m :: ms) = moves (mousemove t m.1 m.2) ms := rfl

theorem afterLast_nil (f : MouseEvent × Canvas → Item → Item) (it : Item) :
    afterLast f [] it = it := rfl

theorem afterLast_id (f : MouseEvent × Canvas → Item → Item) (hf : ∀ m it, (f m it).id = it.id)
    (ms : List (MouseEvent × Canvas)) (it : Item) : (afterLast f ms it).id = it.id := by
  unfold afterLast
  split
  · exact hf _ _
  · rfl

theorem shape_drag_move {t : State} {r : Nat} {v : Item} {off : Offset}
    {log : List OutEvent} {alley : Option String} (h : Dragging t r v off log alley)
    (pre post : List Obj) (hs : t.placedItems = pre ++ ⟨r, v⟩ :: post)
    (hpre : ∀ p ∈ pre, p.ref ≠ r) (hpost : ∀ p ∈ post, p.ref ≠ r)
    (m : MouseEvent × Canvas) :
    (mousemove t m.1 m.2).placedItems = pre ++ ⟨r, dragTo off m v⟩ :: post := by
  obtain ⟨h1, h2, h3, h4, h5, h6, h7, h8⟩ := h
  have hm : mousemove t m.1 m.2 =
      mutate t r (fun it => { it with
        x := max 0 (m.1.clientX - m.2.rect.left - off.x + m.2.scrollLeft),
        y := max 0 (m.1.clientY - m.2.rect.top - off.y + m.2.scrollTop) }) := by
    simp [mousemove, h3, drag, h1, h2, h5]
  rw [hm]
  simp only [mutate, hs]
  exact map_assign_split r v _ pre post hpre hpost

theorem shape_drag_moves (ms : List (MouseEvent × Canvas)) {t : State} {r : Nat} {v : Item}
    {off : Offset} {log : List OutEvent} {alley : Option String}
    (h : Dragging t r v off log alley)
    (pre post : List Obj) (hs : t.placedItems = pre ++ ⟨r, v⟩ :: post)
    (hpre : ∀ p ∈ pre, p.ref ≠ r) (hpost : ∀ p ∈ post, p.ref ≠ r) :
    (moves t ms).placedItems = pre ++ ⟨r, afterLast (dragTo off) ms v⟩ :: post := by
  induction ms generalizing t v with
  | nil => exact hs
  | cons m rest ih =>
    have := ih (dragging_mousemove h m) (shape_drag_move h pre post hs hpre hpost m)
    rw [afterLast_cons (dragTo off) (fun _ _ _ => rfl)] at this
    exact this

theorem shape_resize_move {t : State} {r : Nat} {v : Item}
    {log : List OutEvent} {alley : Option String} (h : Resizing t r v log alley)
    (pre post : List Obj) (hs : t.placedItems = pre ++ ⟨r, v⟩ :: post)
    (hpre : ∀ p ∈ pre, p.ref ≠ r) (hpost : ∀ p ∈ post, p.ref ≠ r)
    (m : MouseEvent × Canvas) :
    (mousemove t m.1 m.2).placedItems = pre ++ ⟨r, resizeTo m v⟩ :: post := by
  obtain ⟨h1, h2, h3, h4, h6, h7, h8⟩ := h
  have hm : mousemove t m.1 m.2 =
      mutate t r (fun it => { it with
        width := max 50 (m.1.clientX - m.2.rect.left + m.2.scrollLeft - v.x),
        height := max 50 (m.1.clientY - m.2.rect.top + m.2.scrollTop - v.y) }) := by
    simp [mousemove, h3, resize, h1, h2]
  rw [hm]
  simp only [mutate, hs]
  exact map_assign_split r v _ pre post hpre hpost

theorem shape_resize_moves (ms : List (MouseEvent × Canvas)) {t : State} {r : Nat}
    {v : Item} {log : List OutEvent} {alley : Option String}
    (h : Resizing t r v log alley)
    (pre post : List Obj) (hs : t.placedItems = pre ++ ⟨r, v⟩ :: post)
    (hpre : ∀ p ∈ pre, p.ref ≠ r) (hpost : ∀ p ∈ post, p.ref ≠ r) :
    (moves t ms).placedItems = pre ++ ⟨r, afterLast resizeTo ms v⟩ :: post := by
  induction ms generalizing t v with
  | nil => exact hs
  | cons m rest ih =>
    have := ih (resizing_mousemove h m) (shape_resize_move h pre post hs hpre hpost m)
    rw [afterLast_cons resizeTo (fun _ _ _ => rfl)] at this
    exact this

theorem items_of_shape (l : List Obj) (pre post : List Obj) (r : Nat) (v u : Item)
    (itemId : String) (hl : l = pre ++ ⟨r, v⟩ :: post) (hv : v.id = itemId)
    (hu : u.id = itemId) (hpre : ∀ p ∈ pre, p.val.id ≠ itemId) :
    (pre ++ (⟨r, u⟩ : Obj) :: post).map Obj.val = Reference.update (l.map Obj.val) u := by
  rw [hl]
  simp only [List.map_append, List.map_cons]
  rw [update_split (pre.map Obj.val) (post.map Obj.val) v u (by rw [hv, hu])]
  intro p hp
  obtain ⟨q, hq, rfl⟩ := List.mem_map.mp hp
  rw [hu]
  exact hpre q hq

theorem moves_of_idle (ms : List (MouseEvent × Canvas)) (t : State)
    (h : t.moveListeners = []) : moves t ms = t := by
  induction ms with
  | nil => rfl
  | cons m rest ih =>
    rw [moves_cons]
    have : mousemove t m.1 m.2 = t := by simp [mousemove, h]
    rw [this, ih]

theorem mouseup_of_idle (t : State) (h : t.upListeners = []) : mouseup t = t := by
  simp [mouseup, h]

/-- A drag gesture on an item of the list, between operations, is an update. -/
theorem dragItem_found (s : State) (o : Obj) (itemId : String) (down : MouseEvent)
    (rect : Rect) (ms : List (MouseEvent × Canvas)) (ha : Aliasing s) (hi : Idle s)
    (hfind : s.placedItems.find? (fun p => p.val.id == itemId) = some o) :
    (mouseup (moves (mousedown s down .body itemId rect) ms)).items =
      Reference.update s.items
        (afterLast (dragTo ⟨down.clientX - rect.left, down.clientY - rect.top⟩) ms o.val) ∧
    Aliasing (mouseup (moves (mousedown s down .body itemId rect) ms)) ∧
    Idle (mouseup (moves (mousedown s down .body itemId rect) ms)) := by
  have hd0 := dragging_mousedown s o down itemId rect hi.onMove hi.onUp hfind
  have hd := dragging_moves ms hd0
  obtain ⟨hid, pre, post, hl, hpre⟩ := find_split s.placedItems itemId o hfind
  obtain ⟨hr1, hr2⟩ := refs_ne_of_nodup pre post o (by rw [← hl]; exact ha.distinct)
  have hs0 : (mousedown s down .body itemId rect).placedItems = pre ++ ⟨o.ref, o.val⟩ :: post := by
    rw [placedItems_mousedown]; exact hl
  have hshape := shape_drag_moves ms hd0 pre post hs0 hr1 hr2
  refine ⟨?_, aliasing_mouseup (aliasing_moves ms (aliasing_mousedown ha _ _ _ _)), ?_⟩
  · simp only [State.items, placedItems_mouseup, hshape]
    exact items_of_shape s.placedItems pre post o.ref o.val _ itemId hl hid
      ((afterLast_id (dragTo _) (fun _ _ => rfl) ms o.val).trans hid) hpre
  · obtain ⟨h1, h2, h3, h4, h5, h6, h7, h8⟩ := hd
    constructor
    · simp [mouseup, h4, stopDrag, h1, h2, State.emit, h3]
    · simp [mouseup, h4, stopDrag, h1, h2, State.emit]

/-- A drag gesture on an element whose item the list does not hold changes no list. -/
theorem dragItem_not_found (s : State) (itemId : String) (down : MouseEvent)
    (rect : Rect) (ms : List (MouseEvent × Canvas)) (ha : Aliasing s) (hi : Idle s)
    (hfind : s.placedItems.find? (fun p => p.val.id == itemId) = none) :
    (mouseup (moves (mousedown s down .body itemId rect) ms)).items = s.items ∧
    Aliasing (mouseup (moves (mousedown s down .body itemId rect) ms)) ∧
    Idle (mouseup (moves (mousedown s down .body itemId rect) ms)) := by
  have h0 : mousedown s down .body itemId rect =
      { s with isDragging := true, selectedItem := none } := by
    simp [mousedown, startDrag, hfind]
  have h1 : moves (mousedown s down .body itemId rect) ms =
      { s with isDragging := true, selectedItem := none } := by
    rw [h0]; exact moves_of_idle ms _ hi.onMove
  have h2 : mouseup (moves (mousedown s down .body itemId rect) ms) =
      { s with isDragging := true, selectedItem := none } := by
    rw [h1]; exact mouseup_of_idle _ hi.onUp
  rw [h2]
  exact ⟨rfl, aliasing_of_eq ha rfl rfl rfl, ⟨hi.onMove, hi.onUp⟩⟩

/-- A resize gesture on an item of the list, between operations, is an update. -/
theorem resizeItem_found (s : State) (o : Obj) (itemId : String) (down : MouseEvent)
    (rect : Rect) (ms : List (MouseEvent × Canvas)) (ha : Aliasing s) (hi : Idle s)
    (hfind : s.placedItems.find? (fun p => p.val.id == itemId) = some o) :
    (mouseup (moves (mousedown s down .resizeHandle itemId rect) ms)).items =
      Reference.update s.items (afterLast resizeTo ms o.val) ∧
    Aliasing (mouseup (moves (mousedown s down .resizeHandle itemId rect) ms)) ∧
    Idle (mouseup (moves (mousedown s down .resizeHandle itemId rect) ms)) := by
  have hd0 := resizing_mousedown s o down itemId rect hi.onMove hi.onUp hfind
  have hd := resizing_moves ms hd0
  obtain ⟨hid, pre, post, hl, hpre⟩ := find_split s.placedItems itemId o hfind
  obtain ⟨hr1, hr2⟩ := refs_ne_of_nodup pre post o (by rw [← hl]; exact ha.distinct)
  have hs0 : (mousedown s down .resizeHandle itemId rect).placedItems =
      pre ++ ⟨o.ref, o.val⟩ :: post := by
    rw [placedItems_mousedown]; exact hl
  have hshape := shape_resize_moves ms hd0 pre post hs0 hr1 hr2
  refine ⟨?_, aliasing_mouseup (aliasing_moves ms (aliasing_mousedown ha _ _ _ _)), ?_⟩
  · simp only [State.items, placedItems_mouseup, hshape]
    exact items_of_shape s.placedItems pre post o.ref o.val _ itemId hl hid
      ((afterLast_id resizeTo (fun _ _ => rfl) ms o.val).trans hid) hpre
  · obtain ⟨h1, h2, h3, h4, h6, h7, h8⟩ := hd
    constructor
    · simp [mouseup, h4, stopResize, h1, h2, State.emit, h3]
    · simp [mouseup, h4, stopResize, h1, h2, State.emit]

/-- A resize gesture on an element whose item the list does not hold changes no list. -/
theorem resizeItem_not_found (s : State) (itemId : String) (down : MouseEvent)
    (rect : Rect) (ms : List (MouseEvent × Canvas)) (ha : Aliasing s) (hi : Idle s)
    (hfind : s.placedItems.find? (fun p => p.val.id == itemId) = none) :
    (mouseup (moves (mousedown s down .resizeHandle itemId rect) ms)).items = s.items ∧
    Aliasing (mouseup (moves (mousedown s down .resizeHandle itemId rect) ms)) ∧
    Idle (mouseup (moves (mousedown s down .resizeHandle itemId rect) ms)) := by
  have h0 : mousedown s down .resizeHandle itemId rect =
      { s with isResizing := true, selectedItem := none, moveListeners := [.resize],
               upListeners := [.stopResize] } := by
    simp [mousedown, startResize, hfind, hi.onMove, hi.onUp, addListener]
  have h1 : moves (mousedown s down .resizeHandle itemId rect) ms =
      { s with isResizing := true, selectedItem := none, moveListeners := [.resize],
               upListeners := [.stopResize] } := by
    rw [h0]
    induction ms with
    | nil => rfl
    | cons m rest ih =>
      rw [moves_cons]
      have hm : ∀ t : State, t.moveListeners = [.resize] → t.selectedItem = none →
          mousemove t m.1 m.2 = t := by
        intro t h1 h2
        simp [mousemove, h1, resize, h2]
      rw [hm _ rfl rfl, ih]
  have h2 : mouseup (moves (mousedown s down .resizeHandle itemId rect) ms) =
      { s with isResizing := true, selectedItem := none, moveListeners := [],
               upListeners := [] } := by
    rw [h1]
    simp [mouseup, stopResize]
  rw [h2]
  exact ⟨rfl, aliasing_of_eq ha rfl rfl rfl, ⟨rfl, rfl⟩⟩

/-! ## Lemmas on menu actions as updates -/

theorem menuHandler_eq (s : State) (o : Obj) (action : MenuAction) :
    ∃ f : Item → Item, f o.val = menuResult s o.val action ∧
      menuHandler action (showContextMenu s o) o =
        (mutate (showContextMenu s o) o.ref f).emit
          (.update_item s.alleyId (menuResult s o.val action)) := by
  cases action with
  | bringForward =>
    exact ⟨fun it => { it with
      zIndex := (maxOf (s.placedItems.map (fun i => i.val.zIndex))).plusOne }, rfl, rfl⟩
  | sendBackward =>
    exact ⟨fun it => { it with zIndex := mathMax 0 o.val.zIndex.minusOne }, rfl, rfl⟩
  | setBlendMode mode => exact ⟨fun it => { it with blendMode := some mode }, rfl, rfl⟩
  | setItemOpacity opacity => exact ⟨fun it => { it with opacity := some opacity }, rfl, rfl⟩

theorem menuResult_id (s : State) (it : Item) (action : MenuAction) :
    (menuResult s it action).id = it.id := by
  cases action <;> rfl

theorem find_none_ids (l : List Obj) (itemId : String)
    (h : l.find? (fun p => p.val.id == itemId) = none) : ∀ p ∈ l, p.val.id ≠ itemId := by
  intro p hp heq
  have := List.find?_eq_none.mp h p hp
  simp [heq] at this

/-- An assignment to fields, other than the id, of the object that the list holds for an id
is an update of the list. -/
theorem found_update (s : State) (o : Obj) (itemId : String) (f : Item → Item)
    (ha : Aliasing s) (hfind : s.placedItems.find? (fun p => p.val.id == itemId) = some o)
    (hid : (f o.val).id = itemId) :
    (s.placedItems.map (Obj.assign o.ref f)).map Obj.val =
      Reference.update s.items (f o.val) := by
  obtain ⟨hid0, pre, post, hl, hpre⟩ := find_split s.placedItems itemId o hfind
  obtain ⟨hr1, hr2⟩ := refs_ne_of_nodup pre post o (by rw [← hl]; exact ha.distinct)
  have hl2 : s.placedItems = pre ++ ⟨o.ref, o.val⟩ :: post := hl
  rw [hl2, map_assign_split o.ref o.val f pre post hr1 hr2]
  simp only [State.items]
  exact items_of_shape s.placedItems pre post o.ref o.val _ itemId hl2 hid0 hid hpre

/-- A menu action on an element whose object is the list entry with its id, or whose id
the list does not hold, is an update. -/
theorem menu_refines (s : State) (o : Obj) (action : MenuAction) (ha : Aliasing s)
    (ho : o ∈ s.elements)
    (hacts : (match s.placedItems.find? (fun p => p.val.id == o.val.id) with
      | some p => decide (p = o)
      | none => true) = true) :
    (menuHandler action (showContextMenu s o) o).items =
      Reference.update s.items (menuResult s o.val action) := by
  obtain ⟨f, hf, he⟩ := menuHandler_eq s o action
  rw [he]
  simp only [State.items, State.emit, mutate, showContextMenu]
  cases hfind : s.placedItems.find? (fun p => p.val.id == o.val.id) with
  | some p =>
    rw [hfind] at hacts
    have hp : p = o := by simpa using hacts
    subst hp
    rw [found_update s p p.val.id f ha hfind (by rw [hf]; exact menuResult_id s p.val action),
      hf]
    rfl
  | none =>
    have hids := find_none_ids s.placedItems o.val.id hfind
    have hne : ∀ p ∈ s.placedItems, p.ref ≠ o.ref := by
      intro p hp heq
      have := ha.coherent o ho p hp heq.symm
      exact hids p hp (by rw [this])
    rw [map_assign_of_ne o.ref f s.placedItems hne]
    symm
    apply update_of_absent
    intro p hp
    obtain ⟨q, hq, rfl⟩ := List.mem_map.mp hp
    rw [menuResult_id]
    exact hids q hq

theorem idle_menuHandler {s : State} (h : Idle s) (action : MenuAction) (item : Obj) :
    Idle (menuHandler action (showContextMenu s item) item) := by
  cases action <;> exact ⟨h.onMove, h.onUp⟩

/-! ## Lemmas on the blend panel -/

theorem applyBlendModeToSelected_nil (s : State) (mode : String) :
    applyBlendModeToSelected s [] mode = s := rfl

theorem applyBlendModeToSelected_found (s : State) (itemId : String) (rest : List String)
    (mode : String) (o : Obj)
    (h : s.placedItems.find? (fun i => i.val.id == itemId) = some o) :
    applyBlendModeToSelected s (itemId :: rest) mode =
      applyBlendModeToSelected (setBlendMode s o mode) rest mode := by
  simp only [applyBlendModeToSelected, List.foldl_cons, h]

theorem applyBlendModeToSelected_absent (s : State) (itemId : String) (rest : List String)
    (mode : String) (h : s.placedItems.find? (fun i => i.val.id == itemId) = none) :
    applyBlendModeToSelected s (itemId :: rest) mode =
      applyBlendModeToSelected s rest mode := by
  simp only [applyBlendModeToSelected, List.foldl_cons, h]

theorem aliasing_setBlendMode {s : State} (h : Aliasing s) (item : Obj) (mode : String) :
    Aliasing (setBlendMode s item mode) :=
  aliasing_emit (aliasing_mutate h _ _) _

/-- The blend panel updates, one after the other, the items of the selected ids that the
list holds. -/
theorem blend_refines (mode : String) (ids : List String) (s : State) (ha : Aliasing s)
    (hi : Idle s) :
    (applyBlendModeToSelected s ids mode).items =
      Reference.replay s.items (blendOperations mode s ids) ∧
    Aliasing (applyBlendModeToSelected s ids mode) ∧
    Idle (applyBlendModeToSelected s ids mode) := by
  induction ids generalizing s with
  | nil => exact ⟨rfl, ha, hi⟩
  | cons itemId rest ih =>
    cases hfind : s.placedItems.find? (fun i => i.val.id == itemId) with
    | none =>
      rw [applyBlendModeToSelected_absent s itemId rest mode hfind]
      simp only [blendOperations, hfind]
      exact ih s ha hi
    | some o =>
      rw [applyBlendModeToSelected_found s itemId rest mode o hfind]
      simp only [blendOperations, hfind]
      have hid := (find_split s.placedItems itemId o hfind).1
      have h1 : (setBlendMode s o mode).items =
          Reference.update s.items { o.val with blendMode := some mode } :=
        found_update s o itemId (fun it => { it with blendMode := some mode }) ha hfind hid
      obtain ⟨h2, h3, h4⟩ := ih (setBlendMode s o mode) (aliasing_setBlendMode ha o mode)
        ⟨hi.onMove, hi.onUp⟩
      refine ⟨?_, h3, h4⟩
      rw [h2, h1]
      rfl

/-- What the blend panel emits: the updates it makes, in order. -/
theorem blend_emitted (mode : String) (ids : List String) (s : State) :
    (applyBlendModeToSelected s ids mode).emitted =
      s.emitted ++ (blendOperations mode s ids).map (Reference.Operation.event s.alleyId) ∧
    (applyBlendModeToSelected s ids mode).alleyId = s.alleyId ∧
    (applyBlendModeToSelected s ids mode).moveListeners = s.moveListeners ∧
    (applyBlendModeToSelected s ids mode).upListeners = s.upListeners := by
  induction ids generalizing s with
  | nil => exact ⟨by simp [applyBlendModeToSelected_nil, blendOperations], rfl, rfl, rfl⟩
  | cons itemId rest ih =>
    cases hfind : s.placedItems.find? (fun i => i.val.id == itemId) with
    | none =>
      rw [applyBlendModeToSelected_absent s itemId rest mode hfind]
      simp only [blendOperations, hfind]
      exact ih s
    | some o =>
      rw [applyBlendModeToSelected_found s itemId rest mode o hfind]
      simp only [blendOperations, hfind]
      obtain ⟨h2, h3, h4, h5⟩ := ih (setBlendMode s o mode)
      refine ⟨?_, h3, h4, h5⟩
      rw [h2]
      simp [setBlendMode, State.emit, mutate, Reference.Operation.event]

/-! ## Refinement of the reference semantics -/

/-- One operation run between gestures, from a state with the aliasing invariant, acts on
the list as its reference operations do, and keeps the invariant. -/
theorem applyOp_refines (s : State) (op : Op) (ha : Aliasing s) (hi : Idle s)
    (hacts : actsOnList s op = true) :
    (applyOp s op).items = Reference.replay s.items (op.operations s) ∧
    Aliasing (applyOp s op) ∧ Idle (applyOp s op) := by
  cases op with
  | addItem type_ subtype x y width height customImage now rnd =>
    cases hn : newItem s.builtins type_ subtype x y width height customImage (genId now rnd)
      s.placedItems.length with
    | none =>
      simp only [applyOp, Op.operations, hn, addItem_of_none s _ _ _ _ _ _ _ _ _ hn]
      exact ⟨rfl, ha, hi⟩
    | some item =>
      simp only [applyOp, Op.operations, hn, addItem_of_some s _ _ _ _ _ _ _ _ _ item hn]
      refine ⟨by simp [State.items, Reference.replay, Reference.apply, Reference.add], ?_,
        ⟨hi.onMove, hi.onUp⟩⟩
      exact aliasing_of_eq (aliasing_push ha item _ (Or.inr rfl)) rfl rfl rfl
  | item_added item =>
    obtain ⟨els, hels, he⟩ := on_item_added_cases s item
    simp only [applyOp, Op.operations, he]
    exact ⟨by simp [State.items, Reference.replay, Reference.apply, Reference.add],
      aliasing_push ha item els hels, ⟨hi.onMove, hi.onUp⟩⟩
  | item_updated item =>
    simp only [applyOp, Op.operations]
    refine ⟨?_, aliasing_on_item_updated ha item, ?_⟩
    · rw [items_on_item_updated, replaceFirst_eq_update]; rfl
    · rcases on_item_updated_eq s item with he | he <;> rw [he]
      · exact hi
      · exact ⟨hi.onMove, hi.onUp⟩
  | item_removed item_id =>
    simp only [applyOp, Op.operations]
    refine ⟨?_, ?_, ⟨hi.onMove, hi.onUp⟩⟩
    · simp only [on_item_removed, State.items, Reference.replay, Reference.apply,
        Reference.remove, List.foldl_cons, List.foldl_nil, List.filter_map]
      congr 2
      funext o
      simp [bne_eq_not_decide]
    · exact aliasing_of_sublist ha (List.filter_sublist _) (List.eraseP_sublist _) rfl
  | deleteItem itemId =>
    simp only [applyOp, Op.operations]
    obtain ⟨_, _, _, h4, h5⟩ := deleteItem_fields s itemId
    refine ⟨?_, aliasing_deleteItem ha itemId, ⟨h4.trans hi.onMove, h5.trans hi.onUp⟩⟩
    rw [items_deleteItem]
    simp only [Reference.replay, Reference.apply, Reference.remove,
      List.foldl_cons, List.foldl_nil]
    congr 1
    funext o
    simp [bne_eq_not_decide]
  | dragItem itemId down rect ms =>
    simp only [applyOp, Op.operations]
    cases hfind : s.placedItems.find? (fun p => p.val.id == itemId) with
    | some o => exact dragItem_found s o itemId down rect ms ha hi hfind
    | none => exact dragItem_not_found s itemId down rect ms ha hi hfind
  | resizeItem itemId down rect ms =>
    simp only [applyOp, Op.operations]
    cases hfind : s.placedItems.find? (fun p => p.val.id == itemId) with
    | some o => exact resizeItem_found s o itemId down rect ms ha hi hfind
    | none => exact resizeItem_not_found s itemId down rect ms ha hi hfind
  | menu k action =>
    simp only [applyOp, Op.operations]
    cases hk : s.elements[k]? with
    | none => exact ⟨rfl, ha, hi⟩
    | some o =>
      simp only [actsOnList, hk] at hacts
      have hs : Aliasing (showContextMenu s o) := aliasing_of_eq ha rfl rfl rfl
      exact ⟨menu_refines s o action ha (List.getElem?_mem hk) hacts,
        aliasing_menuHandler hs action o, idle_menuHandler hi action o⟩
  | applyBlendModeToSelected ids mode => exact blend_refines mode ids s ha hi

theorem replay_append (l : List Item) (a b : List Reference.Operation) :
    Reference.replay l (a ++ b) = Reference.replay (Reference.replay l a) b := by
  simp [Reference.replay, List.foldl_append]

/-- A sequence of operations in which every menu action acts on the list is the replay of
its reference operations. -/
theorem runOps_refines (ops : List Op) (s : State) (ha : Aliasing s) (hi : Idle s)
    (hacts : ActsOnList s ops) :
    (runOps s ops).items = Reference.replay s.items (operations s ops) := by
  induction ops generalizing s with
  | nil => rfl
  | cons op rest ih =>
    obtain ⟨h1, h2, h3⟩ := applyOp_refines s op ha hi hacts.1
    have := ih (applyOp s op) h2 h3 hacts.2
    simp only [operations, replay_append]
    rw [← h1]
    exact this

theorem aliasing_init (alleyId : Option String) (builtins : String → String → BuiltinRead) :
    Aliasing (State.init alleyId builtins) :=
  ⟨List.nodup_nil, fun _ h => (List.not_mem_nil _ h).elim,
    fun _ h => (List.not_mem_nil _ h).elim, fun _ h => (List.not_mem_nil _ h).elim⟩

theorem idle_init (alleyId : Option String) (builtins : String → String → BuiltinRead) :
    Idle (State.init alleyId builtins) := ⟨rfl, rfl⟩

/-! ## The outbound log of an operation sequence -/

theorem alleyId_deleteItem (s : State) (itemId : String) :
    (deleteItem s itemId).alleyId = s.alleyId := by
  unfold deleteItem
  simp only [State.emit]
  cases hs : s.selectedItem with
  | none => rfl
  | some sel => by_cases h : sel.val.id = itemId <;> simp [h]

/-- A drag gesture between gestures: its one event, and no listener left. -/
theorem dragItem_emitted (s : State) (itemId : String) (down : MouseEvent) (rect : Rect)
    (ms : List (MouseEvent × Canvas)) (hi : Idle s) :
    (mouseup (moves (mousedown s down .body itemId rect) ms)).emitted =
      s.emitted ++
        ((Op.dragItem itemId down rect ms).operations s).map
          (Reference.Operation.event s.alleyId) ∧
    Idle (mouseup (moves (mousedown s down .body itemId rect) ms)) ∧
    (mouseup (moves (mousedown s down .body itemId rect) ms)).alleyId = s.alleyId := by
  cases hfind : s.placedItems.find? (fun p => p.val.id == itemId) with
  | some o =>
    have hd := dragging_moves ms
      (dragging_mousedown s o down itemId rect hi.onMove hi.onUp hfind)
    have he := (dragging_mouseup hd).1
    obtain ⟨h1, h2, h3, h4, h5, h6, h7, h8⟩ := hd
    refine ⟨?_, ⟨?_, ?_⟩, ?_⟩
    · rw [he]
      simp [Op.operations, hfind, Reference.Operation.event]
    · simp [mouseup, h4, stopDrag, h1, h2, State.emit, h3]
    · simp [mouseup, h4, stopDrag, h1, h2, State.emit]
    · simp [mouseup, h4, stopDrag, h1, h2, State.emit, h7]
  | none =>
    have h0 : mousedown s down .body itemId rect =
        { s with isDragging := true, selectedItem := none } := by
      simp [mousedown, startDrag, hfind]
    have h1 : moves (mousedown s down .body itemId rect) ms =
        { s with isDragging := true, selectedItem := none } := by
      rw [h0]; exact moves_of_idle ms _ hi.onMove
    have h2 : mouseup (moves (mousedown s down .body itemId rect) ms) =
        { s with isDragging := true, selectedItem := none } := by
      rw [h1]; exact mouseup_of_idle _ hi.onUp
    rw [h2]
    exact ⟨by simp [Op.operations, hfind], ⟨hi.onMove, hi.onUp⟩, rfl⟩

/-- A resize gesture between gestures: its one event, and no listener left. -/
theorem resizeItem_emitted (s : State) (itemId : String) (down : MouseEvent) (rect : Rect)
    (ms : List (MouseEvent × Canvas)) (hi : Idle s) :
    (mouseup (moves (mousedown s down .resizeHandle itemId rect) ms)).emitted =
      s.emitted ++
        ((Op.resizeItem itemId down rect ms).operations s).map
          (Reference.Operation.event s.alleyId) ∧
    Idle (mouseup (moves (mousedown s down .resizeHandle itemId rect) ms)) ∧
    (mouseup (moves (mousedown s down .resizeHandle itemId rect) ms)).alleyId = s.alleyId := by
  cases hfind : s.placedItems.find? (fun p => p.val.id == itemId) with
  | some o =>
    have hd := resizing_moves ms
      (resizing_mousedown s o down itemId rect hi.onMove hi.onUp hfind)
    have he := (resizing_mouseup hd).1
    obtain ⟨h1, h2, h3, h4, h6, h7, h8⟩ := hd
    refine ⟨?_, ⟨?_, ?_⟩, ?_⟩
    · rw [he]
      simp [Op.operations, hfind, Reference.Operation.event]
    · simp [mouseup, h4, stopResize, h1, h2, State.emit, h3]
    · simp [mouseup, h4, stopResize, h1, h2, State.emit]
    · simp [mouseup, h4, stopResize, h1, h2, State.emit, h7]
  | none =>
    have h0 : mousedown s down .resizeHandle itemId rect =
        { s with isResizing := true, selectedItem := none, moveListeners := [.resize],
                 upListeners := [.stopResize] } := by
      simp [mousedown, startResize, hfind, hi.onMove, hi.onUp, addListener]
    have h1 : moves (mousedown s down .resizeHandle itemId rect) ms =
        { s with isResizing := true, selectedItem := none, moveListeners := [.resize],
                 upListeners := [.stopResize] } := by
      rw [h0]
      induction ms with
      | nil => rfl
      | cons m rest ih =>
        rw [moves_cons]
        have hm : ∀ t : State, t.moveListeners = [.resize] → t.selectedItem = none →
            mousemove t m.1 m.2 = t := by
          intro t h1 h2
          simp [mousemove, h1, resize, h2]
        rw [hm _ rfl rfl, ih]
    have h2 : mouseup (moves (mousedown s down .resizeHandle itemId rect) ms) =
        { s with isResizing := true, selectedItem := none, moveListeners := [],
                 upListeners := [] } := by
      rw [h1]
      simp [mouseup, stopResize]
    rw [h2]
    exact ⟨by simp [Op.operations, hfind], ⟨rfl, rfl⟩, rfl⟩

/-- One operation run between gestures appends to the outbound log the events of its
reference operations when it is a local one and nothing when it is a delivery, and it
leaves no listener and the alley id as it was. -/
theorem applyOp_emitted (s : State) (op : Op) (hi : Idle s) :
    (applyOp s op).emitted =
      s.emitted ++
        (if op.isLocal then (op.operations s).map (Reference.Operation.event s.alleyId)
          else []) ∧
    Idle (applyOp s op) ∧ (applyOp s op).alleyId = s.alleyId := by
  cases op with
  | addItem type_ subtype x y width height customImage now rnd =>
    cases hn : newItem s.builtins type_ subtype x y width height customImage (genId now rnd)
      s.placedItems.length with
    | none =>
      simp only [applyOp, Op.operations, hn, addItem_of_none s _ _ _ _ _ _ _ _ _ hn]
      exact ⟨by simp [Op.isLocal], hi, trivial⟩
    | some item =>
      simp only [applyOp, Op.operations, hn, addItem_of_some s _ _ _ _ _ _ _ _ _ item hn]
      exact ⟨by simp [Op.isLocal, Reference.Operation.event], ⟨hi.onMove, hi.onUp⟩, trivial⟩
  | item_added item =>
    obtain ⟨els, _, he⟩ := on_item_added_cases s item
    simp only [applyOp, he]
    exact ⟨by simp [Op.isLocal], ⟨hi.onMove, hi.onUp⟩, trivial⟩
  | item_updated item =>
    simp only [applyOp]
    rcases on_item_updated_eq s item with he | he <;> rw [he]
    · exact ⟨by simp [Op.isLocal], hi, rfl⟩
    · exact ⟨by simp [Op.isLocal], ⟨hi.onMove, hi.onUp⟩, rfl⟩
  | item_removed item_id =>
    simp only [applyOp, on_item_removed]
    exact ⟨by simp [Op.isLocal], ⟨hi.onMove, hi.onUp⟩, trivial⟩
  | deleteItem itemId =>
    simp only [applyOp]
    obtain ⟨_, _, _, h4, h5⟩ := deleteItem_fields s itemId
    refine ⟨?_, ⟨h4.trans hi.onMove, h5.trans hi.onUp⟩, alleyId_deleteItem s itemId⟩
    rw [emitted_deleteItem]
    simp [Op.isLocal, Op.operations, Reference.Operation.event]
  | dragItem itemId down rect ms =>
    simp only [applyOp, Op.isLocal, if_true]
    exact dragItem_emitted s itemId down rect ms hi
  | resizeItem itemId down rect ms =>
    simp only [applyOp, Op.isLocal, if_true]
    exact resizeItem_emitted s itemId down rect ms hi
  | menu k action =>
    simp only [applyOp, Op.operations, Op.isLocal, if_true]
    cases hk : s.elements[k]? with
    | none => exact ⟨by simp, hi, rfl⟩
    | some o =>
      obtain ⟨f, _, he⟩ := menuHandler_eq s o action
      simp only [he]
      exact ⟨by simp [State.emit, mutate, showContextMenu, Reference.Operation.event],
        ⟨hi.onMove, hi.onUp⟩, rfl⟩
  | applyBlendModeToSelected ids mode =>
    simp only [applyOp, Op.operations, Op.isLocal, if_true]
    obtain ⟨h1, h2, h3, h4⟩ := blend_emitted mode ids s
    exact ⟨h1, ⟨h3.trans hi.onMove, h4.trans hi.onUp⟩, h2⟩

/-- The outbound log of a sequence of operations run between gestures: the events of the
reference operations of its local operations, in order. -/
theorem runOps_emitted (ops : List Op) (s : State) (hi : Idle s) :
    (runOps s ops).emitted =
      s.emitted ++ (broadcasts s ops).map (Reference.Operation.event s.alleyId) := by
  induction ops generalizing s with
  | nil => simp [runOps, broadcasts]
  | cons op rest ih =>
    obtain ⟨h1, h2, h3⟩ := applyOp_emitted s op hi
    have := ih (applyOp s op) h2
    simp only [runOps, List.foldl_cons] at this ⊢
    rw [this, h1, h3]
    cases hl : op.isLocal <;> simp [broadcasts, hl]

/-- Claim C3, evaluated where the code departs from it. An `addItem` of type "art" and
subtype "constructor" without a size appends nothing. After an item arrives and an update
replaces its object in the list, an opacity change from the context menu opened on its
element broadcasts an update that the list does not take: the list holds the item of the
earlier update, the replay holds the broadcast item. An update that arrives while a drag
is in progress has the same outcome: the list holds y = 999 at the old x, the broadcast
carries x = 150 at the old y. -/
theorem C3_stale_object_update_not_replayed :
    (runOps sampleInit
      [.addItem "art" "constructor" 10 10 none none none 1700000000001 "z8y7x6w5v"]).items
      = [] ∧
    operations sampleInit staleMenuOps =
      [.add sampleItem, .update sampleMoved, .update { sampleItem with opacity := some 40 }] ∧
    (runOps sampleInit staleMenuOps).emitted =
      [.update_item (some "alley-1") { sampleItem with opacity := some 40 }] ∧
    (runOps sampleInit staleMenuOps).items = [sampleMoved] ∧
    Reference.replay [] (operations sampleInit staleMenuOps) =
      [{ sampleItem with opacity := some 40 }] ∧
    (runOps sampleInit staleMenuOps).items ≠
      Reference.replay [] (operations sampleInit staleMenuOps) ∧
    (run sampleInit updateDuringDrag).items = [{ sampleItem with y := 999 }] ∧
    (run sampleInit updateDuringDrag).emitted =
      [.update_item (some "alley-1") { sampleItem with x := 150 }] := by
  decide

/-- Claim C3, amended: for every sequence of add, update and remove operations run from
the empty placement state (adds by `addItem` and `item_added`, removes by `deleteItem` and
`item_removed`, updates by `item_updated`, by a drag or resize gesture that runs from
pointer-down to pointer-up with no other operation in between, by an action of the context
menu and by the blend panel) in which every menu action is taken on an element whose object
is still the entry of the list for its id, or whose id the list does not hold, the item
list equals the replay on the empty list, under the reference semantics, of the adds,
updates and removes of the sequence: those received, and those of the local operations,
which are exactly what the outbound log carries, in order; an `addItem` that throws
contributes no operation. The same holds from every state between gestures with the
aliasing invariant, so no other part of the state has a say. -/
theorem C3_ops_refine_replay (alleyId : Option String)
    (builtins : String → String → BuiltinRead) (ops : List Op)
    (h : ActsOnList (State.init alleyId builtins) ops) :
    (runOps (State.init alleyId builtins) ops).items =
      Reference.replay [] (operations (State.init alleyId builtins) ops) ∧
    (runOps (State.init alleyId builtins) ops).emitted =
      (broadcasts (State.init alleyId builtins) ops).map
        (Reference.Operation.event alleyId) ∧
    ∀ s : State, Aliasing s → Idle s → ActsOnList s ops →
      (runOps s ops).items = Reference.replay s.items (operations s ops) ∧
      (runOps s ops).emitted =
        s.emitted ++ (broadcasts s ops).map (Reference.Operation.event s.alleyId) :=
  ⟨runOps_refines ops (State.init alleyId builtins) (aliasing_init alleyId builtins)
      (idle_init alleyId builtins) h,
    runOps_emitted ops (State.init alleyId builtins) (idle_init alleyId builtins),
    fun s ha hi hacts => ⟨runOps_refines ops s ha hi hacts, runOps_emitted ops s hi⟩⟩

/-- Witness for C3: adds, a drag, a menu action, an inbound update, a resize, a choice of
the blend panel, an `addItem` that throws and two removes, run from the empty state of
alley-1. -/
theorem C3_ops_refine_replay_witness :
    ActsOnList sampleInit sampleOps ∧
    (runOps sampleInit sampleOps).items =
      Reference.replay [] (operations sampleInit sampleOps) ∧
    (operations sampleInit sampleOps).length = 9 ∧
    (broadcasts sampleInit sampleOps).length = 6 ∧
    (runOps sampleInit sampleOps).emitted.length = 6 ∧
    (runOps sampleInit sampleOps).items.map Item.id = ["item-2-b"] ∧
    (runOps sampleInit sampleOps).items.map Item.blendMode = [some "multiply"] :=
  ⟨by decide, (C3_ops_refine_replay (some "alley-1") sampleBuiltins sampleOps (by decide)).1,
    by decide, by decide, by decide, by decide, by decide⟩

end AlleyBloom
